import Mathlib

/-!
# DankMaterialShell: screensaver inhibit hub and NetworkManager secret agent

A shallow embedding of

* `core/internal/server/freedesktop/screensaver.go` (the screensaver inhibit hub),
* `core/internal/server/network/agent_networkmanager.go` (the secret agent),
* `core/internal/server/network/backend_networkmanager_gp_saml.go` (the helpers
  `unshellQuote` and `parseGPSamlFromCommandLine`),
* the render slots and the pre-capture of `core/internal/screenshot/region.go` (the
  region selector),
* `captureAllScreens` and `blitBuffer` of `core/internal/screenshot/screenshot.go`,
* `core/internal/matugen/queue.go` (the matugen job queue), and
* `core/internal/utils/group.go` (the group file lookup),

followed by the properties proved about them.

Conventions of the embedding:

* Go `string` is `String`; the `strings` / `path/filepath` helpers the code calls are
  written out on the character list (`strContains`, `strToLower`, `filepathBase`).
  `strToLower` maps every character by the simple lower-case mapping of Unicode, as
  Go's `strings.ToLower` does on valid UTF-8 text.
* `uint32` is `Nat` with an explicit `% 2 ^ 32` where the code can overflow.
* State guarded by a mutex is passed explicitly; every handler is one atomic step.
* Signals, subscriber notifications and other calls out of the function are recorded
  as a list of effects returned next to the new state.
* Go `int` is `Int` without a bound; an index into a slice is checked, and a function
  whose Go code can panic or wait forever returns an `Option`.
* Go `float64` is a type parameter with the operations the code uses on it, so that
  nothing is assumed about floating-point rounding.
* A pointer to a heap object is an index into a list of the objects allocated so far;
  a buffered channel is the list of the values in it.
-/

namespace GoLib

/-! ## Go library helpers used by the code -/

/-- Go `strings.Contains(s, sub)` on the character lists. -/
def listContains : List Char → List Char → Bool
  | [], sub => sub.isEmpty
  | c :: cs, sub => sub.isPrefixOf (c :: cs) || listContains cs sub

/-- Go `strings.Contains`. -/
def strContains (s sub : String) : Bool := listContains s.data sub.data

/-- The simple lower-case mapping of Unicode outside ASCII, in the form of the table
`unicode.CaseRanges` of Go: an entry `(lo, hi, step, delta)` maps the code points `lo`,
`lo + step`, ..., `hi` to themselves plus `delta`. -/
def lowerRanges : List (Nat × Nat × Nat × Int) :=
  [(192, 214, 1, 32), (216, 222, 1, 32), (256, 302, 2, 1), (304, 304, 1, -199),
   (306, 310, 2, 1), (313, 327, 2, 1), (330, 374, 2, 1), (376, 376, 1, -121), (377, 381, 2, 1),
   (385, 385, 1, 210), (386, 388, 2, 1), (390, 390, 1, 206), (391, 391, 1, 1),
   (393, 394, 1, 205), (395, 395, 1, 1), (398, 398, 1, 79), (399, 399, 1, 202),
   (400, 400, 1, 203), (401, 401, 1, 1), (403, 403, 1, 205), (404, 404, 1, 207),
   (406, 406, 1, 211), (407, 407, 1, 209), (408, 408, 1, 1), (412, 412, 1, 211),
   (413, 413, 1, 213), (415, 415, 1, 214), (416, 420, 2, 1), (422, 422, 1, 218),
   (423, 423, 1, 1), (425, 425, 1, 218), (428, 428, 1, 1), (430, 430, 1, 218), (431, 431, 1, 1),
   (433, 434, 1, 217), (435, 437, 2, 1), (439, 439, 1, 219), (440, 440, 1, 1), (444, 444, 1, 1),
   (452, 452, 1, 2), (453, 453, 1, 1), (455, 455, 1, 2), (456, 456, 1, 1), (458, 458, 1, 2),
   (459, 475, 2, 1), (478, 494, 2, 1), (497, 497, 1, 2), (498, 500, 2, 1), (502, 502, 1, -97),
   (503, 503, 1, -56), (504, 542, 2, 1), (544, 544, 1, -130), (546, 562, 2, 1),
   (570, 570, 1, 10795), (571, 571, 1, 1), (573, 573, 1, -163), (574, 574, 1, 10792),
   (577, 577, 1, 1), (579, 579, 1, -195), (580, 580, 1, 69), (581, 581, 1, 71),
   (582, 590, 2, 1), (880, 882, 2, 1), (886, 886, 1, 1), (895, 895, 1, 116), (902, 902, 1, 38),
   (904, 906, 1, 37), (908, 908, 1, 64), (910, 911, 1, 63), (913, 929, 1, 32),
   (931, 939, 1, 32), (975, 975, 1, 8), (984, 1006, 2, 1), (1012, 1012, 1, -60),
   (1015, 1015, 1, 1), (1017, 1017, 1, -7), (1018, 1018, 1, 1), (1021, 1023, 1, -130),
   (1024, 1039, 1, 80), (1040, 1071, 1, 32), (1120, 1152, 2, 1), (1162, 1214, 2, 1),
   (1216, 1216, 1, 15), (1217, 1229, 2, 1), (1232, 1326, 2, 1), (1329, 1366, 1, 48),
   (4256, 4293, 1, 7264), (4295, 4295, 1, 7264), (4301, 4301, 1, 7264), (5024, 5103, 1, 38864),
   (5104, 5109, 1, 8), (7312, 7354, 1, -3008), (7357, 7359, 1, -3008), (7680, 7828, 2, 1),
   (7838, 7838, 1, -7615), (7840, 7934, 2, 1), (7944, 7951, 1, -8), (7960, 7965, 1, -8),
   (7976, 7983, 1, -8), (7992, 7999, 1, -8), (8008, 8013, 1, -8), (8025, 8031, 2, -8),
   (8040, 8047, 1, -8), (8072, 8079, 1, -8), (8088, 8095, 1, -8), (8104, 8111, 1, -8),
   (8120, 8121, 1, -8), (8122, 8123, 1, -74), (8124, 8124, 1, -9), (8136, 8139, 1, -86),
   (8140, 8140, 1, -9), (8152, 8153, 1, -8), (8154, 8155, 1, -100), (8168, 8169, 1, -8),
   (8170, 8171, 1, -112), (8172, 8172, 1, -7), (8184, 8185, 1, -128), (8186, 8187, 1, -126),
   (8188, 8188, 1, -9), (8486, 8486, 1, -7517), (8490, 8490, 1, -8383), (8491, 8491, 1, -8262),
   (8498, 8498, 1, 28), (8544, 8559, 1, 16), (8579, 8579, 1, 1), (9398, 9423, 1, 26),
   (11264, 11311, 1, 48), (11360, 11360, 1, 1), (11362, 11362, 1, -10743),
   (11363, 11363, 1, -3814), (11364, 11364, 1, -10727), (11367, 11371, 2, 1),
   (11373, 11373, 1, -10780), (11374, 11374, 1, -10749), (11375, 11375, 1, -10783),
   (11376, 11376, 1, -10782), (11378, 11378, 1, 1), (11381, 11381, 1, 1),
   (11390, 11391, 1, -10815), (11392, 11490, 2, 1), (11499, 11501, 2, 1), (11506, 11506, 1, 1),
   (42560, 42604, 2, 1), (42624, 42650, 2, 1), (42786, 42798, 2, 1), (42802, 42862, 2, 1),
   (42873, 42875, 2, 1), (42877, 42877, 1, -35332), (42878, 42886, 2, 1), (42891, 42891, 1, 1),
   (42893, 42893, 1, -42280), (42896, 42898, 2, 1), (42902, 42920, 2, 1),
   (42922, 42922, 1, -42308), (42923, 42923, 1, -42319), (42924, 42924, 1, -42315),
   (42925, 42925, 1, -42305), (42926, 42926, 1, -42308), (42928, 42928, 1, -42258),
   (42929, 42929, 1, -42282), (42930, 42930, 1, -42261), (42931, 42931, 1, 928),
   (42932, 42946, 2, 1), (42948, 42948, 1, -48), (42949, 42949, 1, -42307),
   (42950, 42950, 1, -35384), (42951, 42953, 2, 1), (42960, 42960, 1, 1), (42966, 42968, 2, 1),
   (42997, 42997, 1, 1), (65313, 65338, 1, 32), (66560, 66599, 1, 40), (66736, 66771, 1, 40),
   (66928, 66938, 1, 39), (66940, 66954, 1, 39), (66956, 66962, 1, 39), (66964, 66965, 1, 39),
   (68736, 68786, 1, 64), (71840, 71871, 1, 32), (93760, 93791, 1, 32), (125184, 125217, 1, 34)]

/-- Go `unicode.ToLower`: `A`..`Z` go to `a`..`z`, every other ASCII character stays,
and a character outside ASCII is mapped by the table (U+0130 goes to `i`, U+212A to
`k`) or stays when the table has no entry for it. -/
def lowerChar (c : Char) : Char :=
  if c.toNat < 128 then
    if 65 ≤ c.toNat ∧ c.toNat ≤ 90 then Char.ofNat (c.toNat + 32) else c
  else
    match lowerRanges.find?
        (fun r => r.1 ≤ c.toNat && c.toNat ≤ r.2.1 && (c.toNat - r.1) % r.2.2.1 == 0) with
    | some r => Char.ofNat (Int.toNat ((c.toNat : Int) + r.2.2.2))
    | none => c

/-- Go `strings.ToLower`: every character mapped by `unicode.ToLower`. -/
def strToLower (s : String) : String := String.mk (s.data.map lowerChar)

/-- Go `strings.HasPrefix(s, pre)`. -/
def strStartsWith (s pre : String) : Bool := pre.data.isPrefixOf s.data

/-- Go `strings.HasSuffix(s, suf)`. -/
def strEndsWith (s suf : String) : Bool := suf.data.reverse.isPrefixOf s.data.reverse

/-- The text after the last `/` of a character list (the whole list when it has none). -/
def afterLastSlash (s : List Char) : List Char :=
  (s.reverse.takeWhile (fun c => c != '/')).reverse

/-- Go `filepath.Base` on a Unix path: `"."` for the empty path, trailing separators
stripped, then the last element, and `"/"` when only separators were given. -/
def filepathBase (path : String) : String :=
  if path = "" then "."
  else
    let stripped := (path.data.reverse.dropWhile (fun c => c == '/')).reverse
    let last := afterLastSlash stripped
    if last = [] then "/" else String.mk last

/-- A `*dbus.Error`: its name and its body. -/
structure DBusError where
  Name : String
  Body : List String
  deriving DecidableEq, Repr

end GoLib

namespace Freedesktop

open GoLib

/-- Lines 154-156 of `screensaver.go`:
`if idx := strings.LastIndex(appName, "/"); idx != -1 && idx < len(appName)-1 { appName = appName[idx+1:] }`.
The slice is taken exactly when a `/` occurs and the last one is not the final byte. -/
def cutAtLastSlash (appName : String) : String :=
  if '/' ∈ appName.data ∧ afterLastSlash appName.data ≠ [] then
    String.mk (afterLastSlash appName.data)
  else appName

/-! ## Data model (`types.go`) -/

/-- `ScreensaverInhibitor`. `Cookie` is a `uint32`, `StartTime` an `int64`. -/
structure ScreensaverInhibitor where
  Cookie : Nat
  AppName : String
  Reason : String
  Peer : String
  StartTime : Int
  deriving DecidableEq, Repr

/-- `ScreensaverState`. -/
structure ScreensaverState where
  Available : Bool
  Active : Bool
  Inhibited : Bool
  Inhibitors : List ScreensaverInhibitor
  deriving DecidableEq, Repr

/-- The part of `Manager` the screensaver code reads and writes. `sessionConn` is
`true` when `m.sessionConn != nil`. -/
structure Manager where
  Screensaver : ScreensaverState
  screensaverCookieCounter : Nat
  sessionConn : Bool
  screensaverFreedesktopClaimed : Bool
  screensaverGnomeClaimed : Bool
  deriving DecidableEq, Repr

/-- What a handler does besides changing the state: a call of
`NotifyScreensaverSubscribers` (direct, deferred or in a goroutine), or a
`sessionConn.Emit(path, member, active)`. -/
inductive Effect where
  | notify
  | emit (path : String) (member : String) (active : Bool)
  deriving DecidableEq, Repr

/-- Whether an effect is the emission of a D-Bus signal. -/
def Effect.isEmit : Effect → Bool
  | Effect.emit _ _ _ => true
  | Effect.notify => false

/-! ## Constants (`constants.go`) -/

def dbusScreensaverPath : String := "/ScreenSaver"
def dbusScreensaverPath2 : String := "/org/freedesktop/ScreenSaver"
def dbusScreensaverInterface : String := "org.freedesktop.ScreenSaver"
def dbusGnomeScreensaverPath : String := "/org/gnome/ScreenSaver"
def dbusGnomeScreensaverInterface : String := "org.gnome.ScreenSaver"

/-! ## Handlers (`screensaver.go`) -/

/-- Result of `Inhibit`: the new manager, the returned cookie and error, the effects. -/
structure InhibitResult where
  manager : Manager
  cookie : Nat
  err : Option DBusError
  effects : List Effect
  deriving DecidableEq, Repr

/-- The audio-only test of line 149:
`strings.Contains(strings.ToLower(reason), "audio") && !strings.Contains(strings.ToLower(reason), "video")`. -/
def isAudioOnly (reason : String) : Bool :=
  strContains (strToLower reason) "audio" && !strContains (strToLower reason) "video"

/-- Lines 154-167 of `Inhibit`: the application name cut to its last path element, the
cookie `atomic.AddUint32(&counter, 1)` (the counter after the wrapping increment), and
the record built from them. -/
def newInhibitor (m : Manager) (sender appName reason : String) (now : Int) :
    ScreensaverInhibitor :=
  { Cookie := (m.screensaverCookieCounter + 1) % 2 ^ 32
    AppName := filepathBase (cutAtLastSlash appName)
    Reason := reason
    Peer := sender
    StartTime := now }

/-- `screensaverHandler.Inhibit` (lines 140-179). `now` is `time.Now().Unix()`. -/
def Inhibit (m : Manager) (sender appName reason : String) (now : Int) : InhibitResult :=
  if appName = "" then
    { manager := m, cookie := 0,
      err := some ⟨"org.freedesktop.DBus.Error.InvalidArgs", ["application name required"]⟩,
      effects := [] }
  else if reason = "" then
    { manager := m, cookie := 0,
      err := some ⟨"org.freedesktop.DBus.Error.InvalidArgs", ["reason required"]⟩,
      effects := [] }
  else if isAudioOnly reason then
    { manager := m, cookie := 0, err := none, effects := [] }
  else
    let inhibitor := newInhibitor m sender appName reason now
    let cookie := inhibitor.Cookie
    let inhibitors := m.Screensaver.Inhibitors ++ [inhibitor]
    { manager :=
        { m with
          screensaverCookieCounter := cookie
          Screensaver :=
            { m.Screensaver with
              Inhibitors := inhibitors
              Inhibited := decide (inhibitors.length > 0) } }
      cookie := cookie, err := none, effects := [Effect.notify] }

/-- The loop of `UnInhibit` (lines 187-195): the list without the first inhibitor whose
cookie matches, or `none` when no inhibitor matches (`found` stays false). -/
def removeFirstCookie (cookie : Nat) : List ScreensaverInhibitor → Option (List ScreensaverInhibitor)
  | [] => none
  | inh :: rest =>
    if inh.Cookie ≠ cookie then (removeFirstCookie cookie rest).map (fun r => inh :: r)
    else some rest

/-- `screensaverHandler.UnInhibit` (lines 181-207). It always returns a nil error. -/
def UnInhibit (m : Manager) (_sender : String) (cookie : Nat) : Manager × List Effect :=
  match removeFirstCookie cookie m.Screensaver.Inhibitors with
  | none => (m, [])
  | some inhibitors =>
    ({ m with
        Screensaver :=
          { m.Screensaver with
            Inhibitors := inhibitors
            Inhibited := decide (inhibitors.length > 0) } },
     [Effect.notify])

/-- The first loop of `removeInhibitorsByPeer` (lines 250-258): `(remaining, removed)`. -/
def splitByPeer (peer : String) (inhibitors : List ScreensaverInhibitor) :
    List ScreensaverInhibitor × List ScreensaverInhibitor :=
  inhibitors.foldl
    (fun acc inh => if inh.Peer = peer then (acc.1, acc.2 ++ [inh]) else (acc.1 ++ [inh], acc.2))
    ([], [])

/-- `Manager.removeInhibitorsByPeer` (lines 246-272). -/
def removeInhibitorsByPeer (m : Manager) (peer : String) : Manager × List Effect :=
  let remaining := (splitByPeer peer m.Screensaver.Inhibitors).1
  let removed := (splitByPeer peer m.Screensaver.Inhibitors).2
  if removed.length = 0 then (m, [])
  else
    ({ m with
        Screensaver :=
          { m.Screensaver with
            Inhibitors := remaining
            Inhibited := decide (remaining.length > 0) } },
     [Effect.notify])

/-- `screensaverHandler.GetActive` (lines 303-308); the error is always nil. -/
def GetActive (m : Manager) : Bool := m.Screensaver.Active

/-- The emissions of `SetScreenLockActive` after a change (lines 333-348), in order. -/
def activeChangedEmits (m : Manager) (active : Bool) : List Effect :=
  if !m.sessionConn then []
  else
    (if m.screensaverFreedesktopClaimed then
      [Effect.emit dbusScreensaverPath (dbusScreensaverInterface ++ ".ActiveChanged") active,
       Effect.emit dbusScreensaverPath2 (dbusScreensaverInterface ++ ".ActiveChanged") active]
     else []) ++
    (if m.screensaverGnomeClaimed then
      [Effect.emit dbusGnomeScreensaverPath (dbusGnomeScreensaverInterface ++ ".ActiveChanged") active]
     else [])

/-- `Manager.SetScreenLockActive` (lines 320-349). The deferred
`NotifyScreensaverSubscribers` runs when the function returns, after the emissions. -/
def SetScreenLockActive (m : Manager) (active : Bool) : Manager × List Effect :=
  let changed := m.Screensaver.Active != active
  let m1 : Manager := { m with Screensaver := { m.Screensaver with Active := active } }
  if !changed then (m1, [])
  else (m1, activeChangedEmits m1 active ++ [Effect.notify])

/-- `screensaverHandler.SetActive` (lines 310-313). -/
def SetActive (m : Manager) (active : Bool) : Manager × List Effect :=
  SetScreenLockActive m active

/-- `screensaverHandler.Lock` (lines 315-318). -/
def Lock (m : Manager) : Manager × List Effect :=
  SetScreenLockActive m true

/-! ## Runs of the hub -/

/-- One operation on the hub: a D-Bus `Inhibit` or `UnInhibit` call, or the death of a
peer (`NameOwnerChanged` with an empty new owner, line 242). -/
inductive Op where
  | inhibit (sender appName reason : String) (now : Int)
  | unInhibit (sender : String) (cookie : Nat)
  | peerDeath (peer : String)
  deriving DecidableEq, Repr

/-- The state after one operation. -/
def step (m : Manager) : Op → Manager
  | Op.inhibit sender appName reason now => (Inhibit m sender appName reason now).manager
  | Op.unInhibit sender cookie => (UnInhibit m sender cookie).1
  | Op.peerDeath peer => (removeInhibitorsByPeer m peer).1

/-- The state after a sequence of operations, applied left to right. -/
def run (m : Manager) (ops : List Op) : Manager := ops.foldl step m

/-- The hub as `initializeScreensaver` leaves it (lines 89-93) with the zero-valued
cookie counter of a fresh `Manager`. -/
def initialHub (sessionConn fdClaimed gnomeClaimed : Bool) : Manager :=
  { Screensaver := { Available := true, Active := false, Inhibited := false, Inhibitors := [] }
    screensaverCookieCounter := 0
    sessionConn := sessionConn
    screensaverFreedesktopClaimed := fdClaimed
    screensaverGnomeClaimed := gnomeClaimed }

/-! ## The accounting the specification describes -/

/-- Whether an operation is an `Inhibit` call that gets recorded: it passes the two
argument checks and the audio-only filter. -/
def isRecorded : Op → Bool
  | Op.inhibit _ appName reason _ => appName != "" && reason != "" && !isAudioOnly reason
  | _ => false

/-- The number of recorded `Inhibit` calls of a run. -/
def recordedCount (ops : List Op) : Nat := ops.countP isRecorded

/-- Whether an operation ends an inhibition: an `UnInhibit` with its cookie, or the death
of its peer. -/
def cancels (inh : ScreensaverInhibitor) : Op → Bool
  | Op.unInhibit _ cookie => cookie == inh.Cookie
  | Op.peerDeath peer => peer == inh.Peer
  | Op.inhibit _ _ _ _ => false

/-- The inhibitions the specification says are stored after a run started in `m`: those
recorded by an `Inhibit` of the run whose cookie was not passed to a later `UnInhibit`
and whose peer did not die later, in the order they were recorded. -/
def survivors (m : Manager) : List Op → List ScreensaverInhibitor
  | [] => []
  | op :: rest =>
    (match op with
      | Op.inhibit sender appName reason now =>
        if isRecorded op && !rest.any (cancels (newInhibitor m sender appName reason now)) then
          [newInhibitor m sender appName reason now]
        else []
      | _ => []) ++ survivors (step m op) rest

/-- A peer that inhibits and dies, `n` times over: `n` recorded `Inhibit` calls that
leave nothing stored. -/
def churn (peer : String) : Nat → List Op
  | 0 => []
  | n + 1 => Op.inhibit peer "mpv" "playing video" 0 :: Op.peerDeath peer :: churn peer n

/-- The bookkeeping invariant after `n` recorded `Inhibit` calls: the counter is `n`
reduced to 32 bits, the stored cookies are pairwise distinct, and each stored cookie is
the 32-bit residue of the number `k` (between 1 and `n`) of the call that issued it. -/
def CookiesFresh (m : Manager) (n : Nat) : Prop :=
  m.screensaverCookieCounter = n % 2 ^ 32 ∧
  (m.Screensaver.Inhibitors.map (fun inh => inh.Cookie)).Nodup ∧
  ∀ inh ∈ m.Screensaver.Inhibitors, ∃ k, 1 ≤ k ∧ k ≤ n ∧ inh.Cookie = k % 2 ^ 32

/-- A run that wraps the 32-bit counter while the first inhibitor is still held: peer
`:1.7` inhibits (cookie 1), peer `:1.9` inhibits and dies `2 ^ 32 - 1` times, then peer
`:1.8` inhibits. -/
def wrapRun : List Op :=
  Op.inhibit ":1.7" "mpv" "playing video" 0 ::
    (churn ":1.9" (2 ^ 32 - 1) ++ [Op.inhibit ":1.8" "vlc" "movie" 0])

end Freedesktop

namespace Network

open GoLib

/-! ## Data model of the secret agent (`agent_networkmanager.go`) -/

/-- The value of a `dbus.Variant`, as far as the agent tells values apart by type
assertion: `string`, `[]byte` (written as the string `string(b)`), `uint32`, `[]string`,
`map[string]string`, and every other type. -/
inductive Variant where
  | str (s : String)
  | bytes (b : String)
  | u32 (n : Nat)
  | strs (l : List String)
  | dict (m : List (String × String))
  | other
  deriving DecidableEq, Repr

/-- `nmVariantMap`, `map[string]dbus.Variant`, as an association list; `m[k]` is
`List.lookup k m`. -/
abbrev nmVariantMap := List (String × Variant)

/-- `nmSettingMap`, `map[string]nmVariantMap`. -/
abbrev nmSettingMap := List (String × nmVariantMap)

/-- Go `m[k]` on a `map[string]string`: the zero value `""` when the key is absent. -/
def dictGet (m : List (String × String)) (k : String) : String := (m.lookup k).getD ""

/-- `v.Value().(string)` under `conn[setting][key]`: the string stored there, if any. -/
def lookupStr (conn : nmSettingMap) (setting key : String) : Option String :=
  match conn.lookup setting with
  | some c =>
    match c.lookup key with
    | some (Variant.str s) => some s
    | _ => none
  | none => none

/-- The chain `conn["vpn"]`, `["data"]`, `.Value().(map[string]string)` that
`inferVPNFields`, `isPKCS11Auth`, `readVPNPasswordFlags` and `GetSecrets` all start with. -/
def vpnData (conn : nmSettingMap) : Option (List (String × String)) :=
  match conn.lookup "vpn" with
  | some vpnSettings =>
    match vpnSettings.lookup "data" with
    | some (Variant.dict dataMap) => some dataMap
    | _ => none
  | none => none

/-- The fields of `NetworkState` (`backend.go`) that the agent reads and clears. -/
structure ConnectingState where
  IsConnecting : Bool
  ConnectingSSID : String
  IsConnectingVPN : Bool
  ConnectingVPNUUID : String
  deriving DecidableEq, Repr

/-- `cachedPKCS11PIN`. -/
structure CachedPKCS11PIN where
  ConnectionUUID : String
  PIN : String
  deriving DecidableEq, Repr

/-- The type of `backend.cachedVPNCreds`. -/
structure CachedVPNCredentials where
  ConnectionUUID : String
  Password : String
  SavePassword : Bool
  deriving DecidableEq, Repr

/-- `cachedGPSamlCookie`. -/
structure CachedGPSamlCookie where
  ConnectionUUID : String
  Cookie : String
  Host : String
  User : String
  Fingerprint : String
  deriving DecidableEq, Repr

/-- `pendingVPNCredentials`. -/
structure PendingVPNCredentials where
  ConnectionPath : String
  Username : String
  Password : String
  SavePassword : Bool
  deriving DecidableEq, Repr

/-- The part of `NetworkManagerBackend` the agent touches. `onStateChange` is `true`
when the callback is set. -/
structure NetworkManagerBackend where
  state : ConnectingState
  cachedPKCS11PIN : Option CachedPKCS11PIN
  cachedVPNCreds : Option CachedVPNCredentials
  cachedGPSamlCookie : Option CachedGPSamlCookie
  pendingVPNSave : Option PendingVPNCredentials
  onStateChange : Bool
  deriving DecidableEq, Repr

/-- `gpSamlAuthResult` (`backend_networkmanager_gp_saml.go`). -/
structure GpSamlAuthResult where
  Cookie : String
  Host : String
  User : String
  Fingerprint : String
  deriving DecidableEq, Repr

/-- `FieldInfo`, as `buildFieldsInfo` fills it. -/
structure FieldInfo where
  Name : String
  Label : String
  IsSecret : Bool
  deriving DecidableEq, Repr

/-- `PromptRequest`, as `GetSecrets` fills it. -/
structure PromptRequest where
  Name : String
  SSID : String
  ConnType : String
  VpnService : String
  SettingName : String
  Fields : List String
  FieldsInfo : List FieldInfo
  Hints : List String
  Reason : String
  ConnectionId : String
  ConnectionUuid : String
  ConnectionPath : String
  deriving DecidableEq, Repr

/-- `PromptReply`, as `GetSecrets` reads it. -/
structure PromptReply where
  Secrets : List (String × String)
  Save : Bool
  Cancel : Bool
  deriving DecidableEq, Repr

/-- The error of `prompts.Ask` / `prompts.Wait`, as far as `errors.Is` tells errors apart:
`errdefs.ErrSecretPromptCancelled`, `errdefs.ErrSecretPromptTimeout`, or another error
with its message. -/
inductive PromptError where
  | cancelled
  | timeout
  | other (msg : String)
  deriving DecidableEq, Repr

/-- The text `err.Error()` of a prompt error, used in `dbus.MakeFailedError(err)`. -/
def PromptError.message : PromptError → String
  | PromptError.cancelled => "secret prompt cancelled"
  | PromptError.timeout => "secret prompt timeout"
  | PromptError.other msg => msg

/-- Everything outside `GetSecrets` that it calls and whose answer it uses: the manager's
`WasRecentlyFailed` (`none` when `a.manager == nil`), the external SAML helper run by
`runGlobalProtectSAMLAuth(gateway, protocol)`, the prompt broker's `Ask` and `Wait`, and
the title-casing of `golang.org/x/text/cases`. -/
structure Env where
  wasRecentlyFailed : Option (String → Bool)
  samlAuth : String → String → Except String GpSamlAuthResult
  ask : PromptRequest → Except PromptError String
  wait : String → PromptReply × Option PromptError
  title : String → String

/-- What `GetSecrets` does besides answering and changing the backend: the prompt it
posts, the SAML helper it runs, and the clean-up calls after a failed wait. -/
inductive AgentEffect where
  | prompt (req : PromptRequest)
  | samlAuth (gateway protocol : String)
  | forgetWiFiNetwork (ssid : String)
  | disconnectVPN (uuid : String)
  | stateChanged
  | save8021xIdentity (path identity : String)
  deriving DecidableEq, Repr

/-- Whether an effect is a posted prompt. -/
def AgentEffect.isPrompt : AgentEffect → Bool
  | AgentEffect.prompt _ => true
  | _ => false

/-- The outcome of `GetSecrets`: the backend afterwards (`none` when `a.backend == nil`),
the returned setting map (`none` for Go `nil`), the returned error, and the effects. -/
structure GetSecretsResult where
  backend : Option NetworkManagerBackend
  out : Option nmSettingMap
  err : Option DBusError
  effects : List AgentEffect
  deriving DecidableEq, Repr

/-- `dbus.NewError("org.freedesktop.NetworkManager.SecretAgent.Error.NoSecrets", nil)`. -/
def errNoSecrets : DBusError :=
  ⟨"org.freedesktop.NetworkManager.SecretAgent.Error.NoSecrets", []⟩

/-- `dbus.NewError("org.freedesktop.NetworkManager.SecretAgent.Error.UserCanceled", nil)`. -/
def errUserCanceled : DBusError :=
  ⟨"org.freedesktop.NetworkManager.SecretAgent.Error.UserCanceled", []⟩

/-- `dbus.NewError("org.freedesktop.NetworkManager.SecretAgent.Error.Failed", nil)`. -/
def errAgentFailed : DBusError :=
  ⟨"org.freedesktop.NetworkManager.SecretAgent.Error.Failed", []⟩

/-- `dbus.MakeFailedError(err)`: the generic D-Bus failure carrying the message. -/
def makeFailedError (msg : String) : DBusError :=
  ⟨"org.freedesktop.DBus.Error.Failed", [msg]⟩

/-! ## Reading the connection -/

/-- `readSSID` (lines 576-588). -/
def readSSID (conn : nmSettingMap) : String :=
  match conn.lookup "802-11-wireless" with
  | some w =>
    match w.lookup "ssid" with
    | some (Variant.bytes b) => b
    | some (Variant.str s) => s
    | _ => ""
  | none => ""

/-- `readConnTypeAndName` (lines 590-615): connection type, display name, VPN service. -/
def readConnTypeAndName (conn : nmSettingMap) : String × String × String :=
  let connType := (lookupStr conn "connection" "type").getD ""
  let name := (lookupStr conn "connection" "id").getD ""
  let svc := (lookupStr conn "vpn" "service-type").getD ""
  let name1 := if name = "" ∧ connType = "802-11-wireless" then readSSID conn else name
  (connType, name1, svc)

/-- `infer8021xFields` (lines 633-666). -/
def infer8021xFields (conn : nmSettingMap) : List String :=
  match conn.lookup "802-1x" with
  | none => ["identity", "password"]
  | some dot1x =>
    let fields : List String :=
      match dot1x.lookup "identity" with
      | some (Variant.str id) => if id ≠ "" then [] else ["identity"]
      | some _ => ["identity"]
      | none => ["identity"]
    let eapMethods : List String :=
      match dot1x.lookup "eap" with
      | some (Variant.strs methods) => methods
      | _ => []
    if eapMethods.length > 0 ∧ eapMethods.head? = some "tls" then
      fields ++ ["private-key-password"]
    else
      fields ++ ["password"]

/-- `fieldsNeeded` (lines 617-631). -/
def fieldsNeeded (setting : String) (hints : List String) (conn : nmSettingMap) : List String :=
  if setting = "802-11-wireless-security" then ["psk"]
  else if setting = "802-1x" then
    if hints.length > 0 then hints else infer8021xFields conn
  else if setting = "vpn" then hints
  else []

/-- `needsExternalBrowserAuth` (lines 758-777). -/
def needsExternalBrowserAuth (protocol authType username : String)
    (data : List (String × String)) : Bool :=
  if (match data.lookup "saml-auth-method" with
      | some method => method == "REDIRECT" || method == "POST"
      | none => false) then true
  else if authType ≠ "" ∧ authType ≠ "password" ∧ authType ≠ "cert" then true
  else if protocol = "gp" then
    if authType = "" ∧ username = "" then true else false
  else false

/-- `inferVPNFields` (lines 699-756). -/
def inferVPNFields (conn : nmSettingMap) (vpnService : String) : List String :=
  match vpnData conn with
  | none => ["password"]
  | some dataMap =>
    let connType := dictGet dataMap "connection-type"
    if strContains vpnService "openconnect" then
      let protocol := dictGet dataMap "protocol"
      let authType := dictGet dataMap "authtype"
      let username := dictGet dataMap "username"
      if authType = "cert" ∧ strStartsWith (dictGet dataMap "usercert") "pkcs11:" then
        ["key_pass"]
      else if needsExternalBrowserAuth protocol authType username dataMap ∧ protocol = "gp" then
        ["gp-saml"]
      else if username = "" then ["username", "password"]
      else ["password"]
    else if strContains vpnService "openvpn" then
      if (connType = "password" ∨ connType = "password-tls") ∧ dictGet dataMap "username" = "" then
        ["username", "password"]
      else ["password"]
    else if strContains vpnService "vpnc" ∨ strContains vpnService "l2tp"
        ∨ strContains vpnService "pptp" then
      if dictGet dataMap "username" = "" then ["username", "password"] else ["password"]
    else ["password"]

/-- `isPKCS11Auth` (lines 812-829). -/
def isPKCS11Auth (conn : nmSettingMap) (vpnService : String) : Bool :=
  if !strContains vpnService "openconnect" then false
  else
    match vpnData conn with
    | none => false
    | some dataMap =>
      decide (dictGet dataMap "authtype" = "cert")
        && strStartsWith (dictGet dataMap "usercert") "pkcs11:"

/-- `reasonFromFlags` (lines 864-882): `REQUEST_NEW` is bit `0x2`, `USER_REQUESTED` bit `0x4`. -/
def reasonFromFlags (flags : Nat) : String :=
  if flags &&& 2 ≠ 0 then "wrong-password"
  else if flags &&& 4 ≠ 0 then "user-requested"
  else "required"

/-- `buildGPSamlSecretsResponse` (lines 884-897). -/
def buildGPSamlSecretsResponse (settingName cookie host fingerprint : String) : nmSettingMap :=
  [(settingName,
    [("secrets", Variant.dict [("cookie", cookie), ("gateway", host), ("gwcert", fingerprint)])])]

/-- `vpnFieldMeta` (lines 779-810); `title` is `cases.Title(language.English).String`. -/
def vpnFieldMeta (title : String → String) (field : String) (_vpnService : String) :
    String × Bool :=
  if field = "gp-saml" then ("GlobalProtect SAML/SSO", false)
  else if field = "key_pass" then ("PIN", true)
  else if field = "password" then ("Password", true)
  else if field = "Xauth password" then ("IPSec Password", true)
  else if field = "IPSec secret" then ("IPSec Pre-Shared Key", true)
  else if field = "cert-pass" then ("Certificate Password", true)
  else if field = "http-proxy-password" then ("HTTP Proxy Password", true)
  else if field = "username" then ("Username", false)
  else if field = "Xauth username" then ("IPSec Username", false)
  else if field = "proxy-password" then ("Proxy Password", true)
  else if field = "private-key-password" then ("Private Key Password", true)
  else
    let spaced := String.mk (field.data.map (fun c => if c = '-' then ' ' else c))
    if strEndsWith field "password" ∨ strEndsWith field "secret" ∨ strEndsWith field "pass"
        ∨ strEndsWith field "psk" then
      (title spaced, true)
    else (title spaced, false)

/-- `buildFieldsInfo` (lines 668-697). -/
def buildFieldsInfo (title : String → String) (setting : String) (fields : List String)
    (vpnService : String) : List FieldInfo :=
  fields.map fun f =>
    if setting = "802-11-wireless-security" then
      { Name := f, Label := "Password", IsSecret := true }
    else if setting = "802-1x" then
      if f = "identity" then { Name := f, Label := "Username", IsSecret := false }
      else if f = "password" then { Name := f, Label := "Password", IsSecret := true }
      else { Name := f, Label := f, IsSecret := true }
    else if setting = "vpn" then
      { Name := f, Label := (vpnFieldMeta title f vpnService).1,
        IsSecret := (vpnFieldMeta title f vpnService).2 }
    else { Name := f, Label := f, IsSecret := true }

/-- Go `strconv.ParseUint(s, 10, 32)`: the value of a non-empty string of decimal digits
that fits 32 bits, and `none` for the error cases. -/
def parseUint32 (s : String) : Option Nat :=
  if s.data ≠ [] ∧ s.data.all (fun c => decide ('0' ≤ c ∧ c ≤ '9')) then
    let v := s.data.foldl (fun acc c => 10 * acc + (c.toNat - '0'.toNat)) 0
    if v < 2 ^ 32 then some v else none
  else none

/-- `readVPNPasswordFlags` (lines 831-862). -/
def readVPNPasswordFlags (conn : nmSettingMap) (settingName : String) : Nat :=
  if settingName ≠ "vpn" then 0xFFFF
  else
    match vpnData conn with
    | none => 0xFFFF
    | some dataMap =>
      match dataMap.lookup "password-flags" with
      | none => 0xFFFF
      | some flagsStr =>
        match parseUint32 flagsStr with
        | none => 0xFFFF
        | some flags64 => flags64 % 2 ^ 32

/-! ## `GetSecrets` (lines 115-518) -/

/-- The scoping gate of lines 140-163, for a non-nil backend: whether the request is
answered with `NoSecrets` there. -/
def scopeRejects (b : NetworkManagerBackend) (connType ssid : String) (conn : nmSettingMap) :
    Bool :=
  if connType = "802-11-wireless" then
    b.state.IsConnecting && decide (b.state.ConnectingSSID ≠ ssid)
  else if connType = "vpn" ∨ connType = "wireguard" then
    b.state.IsConnectingVPN
      && decide ((lookupStr conn "connection" "uuid").getD "" ≠ b.state.ConnectingVPNUUID)
  else false

/-- The `passwordFlags` of lines 194-212: `0xFFFF` unless the setting stores a `uint32`
under `psk-flags` (Wi-Fi security) or `password-flags` (802.1X). -/
def readPasswordFlags (conn : nmSettingMap) (settingName : String) : Nat :=
  if settingName = "802-11-wireless-security" then
    match conn.lookup "802-11-wireless-security" with
    | some wifiSecSettings =>
      match wifiSecSettings.lookup "psk-flags" with
      | some (Variant.u32 pwdFlags) => pwdFlags
      | _ => 0xFFFF
    | none => 0xFFFF
  else if settingName = "802-1x" then
    match conn.lookup "802-1x" with
    | some dot1xSettings =>
      match dot1xSettings.lookup "password-flags" with
      | some (Variant.u32 pwdFlags) => pwdFlags
      | _ => 0xFFFF
    | none => 0xFFFF
  else 0xFFFF

/-- How the block of lines 166-240 ends: with an immediate answer, or with the fields to
ask for. -/
inductive FieldsOutcome where
  | reply (out : Option nmSettingMap) (err : Option DBusError)
  | fields (fields : List String)
  deriving DecidableEq, Repr

/-- Lines 186-239: the fields are still empty after the VPN inference. -/
def resolveByFlags (conn : nmSettingMap) (settingName : String) : FieldsOutcome :=
  let passwordFlags := readPasswordFlags conn settingName
  if passwordFlags = 0xFFFF then FieldsOutcome.reply none (some errNoSecrets)
  else if passwordFlags &&& 4 ≠ 0 then FieldsOutcome.reply (some [(settingName, [])]) none
  else if passwordFlags &&& 1 ≠ 0 then
    if settingName = "802-11-wireless-security" then FieldsOutcome.fields ["psk"]
    else if settingName = "802-1x" then FieldsOutcome.fields (infer8021xFields conn)
    else FieldsOutcome.reply none (some errNoSecrets)
  else FieldsOutcome.reply (some [(settingName, [])]) none

/-- Lines 166-240. -/
def resolveFields (backend : Option NetworkManagerBackend) (conn : nmSettingMap)
    (settingName vpnSvc : String) (fields : List String) : FieldsOutcome :=
  if fields.length ≠ 0 then FieldsOutcome.fields fields
  else if settingName = "vpn" then
    match backend with
    | some b =>
      if !b.state.IsConnectingVPN then FieldsOutcome.reply none (some errNoSecrets)
      else if (inferVPNFields conn vpnSvc).length ≠ 0 then
        FieldsOutcome.fields (inferVPNFields conn vpnSvc)
      else resolveByFlags conn settingName
    | none => FieldsOutcome.reply none (some errNoSecrets)
  else resolveByFlags conn settingName

/-- The test `cached != nil && cached.ConnectionUUID == connUuid` on a cache slot. -/
def cacheHit {α : Type} (slot : Option α) (uuidOf : α → String) (connUuid : String) : Option α :=
  match slot with
  | some cached => if uuidOf cached = connUuid then some cached else none
  | none => none

/-- The reply `{settingName: {"secrets": {key: value}}}` of lines 276-279 and 295-298. -/
def singleSecretReply (settingName key value : String) : nmSettingMap :=
  [(settingName, [("secrets", Variant.dict [(key, value)])])]

/-- Lines 264-370, entered when `settingName == "vpn"` and the backend is not nil: the
answer from a cache or from the SAML flow, or `none` when the code falls through to the
prompt. -/
def vpnCacheStage (env : Env) (b : NetworkManagerBackend) (conn : nmSettingMap)
    (path settingName connUuid : String) (fields : List String) : Option GetSecretsResult :=
  match (if fields = ["key_pass"] then
          cacheHit b.cachedPKCS11PIN (fun c => c.ConnectionUUID) connUuid else none) with
  | some cached =>
    some { backend := some { b with cachedPKCS11PIN := none }
           out := some (singleSecretReply settingName "key_pass" cached.PIN)
           err := none, effects := [] }
  | none =>
    match cacheHit b.cachedVPNCreds (fun c => c.ConnectionUUID) connUuid with
    | some cached =>
      some { backend := some
               { b with
                 cachedVPNCreds := none
                 pendingVPNSave :=
                   if cached.SavePassword then
                     some { ConnectionPath := path, Username := "", Password := cached.Password,
                            SavePassword := true }
                   else b.pendingVPNSave }
             out := some (singleSecretReply settingName "password" cached.Password)
             err := none, effects := [] }
    | none =>
      match cacheHit b.cachedGPSamlCookie (fun c => c.ConnectionUUID) connUuid with
      | some cachedGPSaml =>
        some { backend := some b
               out := some (buildGPSamlSecretsResponse settingName cachedGPSaml.Cookie
                 cachedGPSaml.Host cachedGPSaml.Fingerprint)
               err := none, effects := [] }
      | none =>
        if fields = ["gp-saml"] then
          let gateway := match vpnData conn with
            | some dataMap => dictGet dataMap "gateway"
            | none => ""
          let protocol := match vpnData conn with
            | some dataMap => dictGet dataMap "protocol"
            | none => ""
          if protocol ≠ "gp" then
            some { backend := some b, out := none
                   err := some (makeFailedError
                     ("gp-saml auth only supported for GlobalProtect (protocol=gp), got: "
                       ++ protocol))
                   effects := [] }
          else
            match env.samlAuth gateway protocol with
            | Except.error e =>
              some { backend := some b, out := none
                     err := some (makeFailedError
                       ("GlobalProtect SAML authentication failed: " ++ e))
                     effects := [AgentEffect.samlAuth gateway protocol] }
            | Except.ok authResult =>
              some { backend := some
                       { b with
                         cachedGPSamlCookie := some
                           { ConnectionUUID := connUuid, Cookie := authResult.Cookie
                             Host := authResult.Host, User := authResult.User
                             Fingerprint := authResult.Fingerprint } }
                     out := some (buildGPSamlSecretsResponse settingName authResult.Cookie
                       authResult.Host authResult.Fingerprint)
                     err := none
                     effects := [AgentEffect.samlAuth gateway protocol] }
        else none

/-- Lines 399-435: the clean-up after a failed `Wait`, for a non-nil backend. The
connecting fields are cleared when the backend was connecting; the calls
`ForgetWiFiNetwork`, `DisconnectVPN` and `onStateChange` are recorded as effects. -/
def cancelCleanup (b : NetworkManagerBackend) (connType : String) :
    NetworkManagerBackend × List AgentEffect :=
  let wasConnecting := b.state.IsConnecting
  let wasConnectingVPN := b.state.IsConnectingVPN
  let cancelledSSID := b.state.ConnectingSSID
  let cancelledVPNUUID := b.state.ConnectingVPNUUID
  let b1 : NetworkManagerBackend :=
    if wasConnecting || wasConnectingVPN then
      { b with
        state :=
          { IsConnecting := false, ConnectingSSID := "", IsConnectingVPN := false
            ConnectingVPNUUID := "" } }
    else b
  (b1,
   (if wasConnecting = true ∧ cancelledSSID ≠ "" ∧ connType = "802-11-wireless" then
      [AgentEffect.forgetWiFiNetwork cancelledSSID] else [])
   ++ (if wasConnectingVPN = true ∧ cancelledVPNUUID ≠ "" then
      [AgentEffect.disconnectVPN cancelledVPNUUID] else [])
   ++ (if (wasConnecting || wasConnectingVPN) = true ∧ b.onStateChange = true then
      [AgentEffect.stateChanged] else []))

/-- The loop of lines 453-458 for `vpnUsername`: the value stored under `username` when
the setting is `vpn`. -/
def replyUsername (settingName : String) (secrets : List (String × String)) : String :=
  secrets.foldl (fun acc kv => if settingName = "vpn" ∧ kv.1 = "username" then kv.2 else acc) ""

/-- Lines 447-517: the answer built from a reply of the prompt. -/
def applyReply (backend : Option NetworkManagerBackend) (reply : PromptReply)
    (path settingName connUuid : String) : GetSecretsResult :=
  let sec : nmVariantMap := reply.Secrets.map (fun kv => (kv.1, Variant.str kv.2))
  let vpnUsername := replyUsername settingName reply.Secrets
  let pin := dictGet reply.Secrets "key_pass"
  let isPKCS11 := (reply.Secrets.lookup "key_pass").isSome
  let out : nmSettingMap :=
    if settingName = "vpn" then
      [(settingName,
        [("secrets", Variant.dict (reply.Secrets.filter (fun kv => kv.1 != "username")))])]
    else if settingName = "802-1x" then
      [(settingName,
        (reply.Secrets.filter (fun kv =>
            kv.1 == "password" || kv.1 == "private-key-password"
              || kv.1 == "phase2-private-key-password" || kv.1 == "pin")).map
          (fun kv => (kv.1, Variant.str kv.2)))]
    else [(settingName, sec)]
  let effects : List AgentEffect :=
    if settingName = "802-1x" then
      match reply.Secrets.lookup "identity" with
      | some identity =>
        if identity ≠ "" then [AgentEffect.save8021xIdentity path identity] else []
      | none => []
    else []
  let backend1 : Option NetworkManagerBackend :=
    match backend with
    | some b =>
      if settingName = "vpn" ∧ isPKCS11 = true then
        some { b with cachedPKCS11PIN := some { ConnectionUUID := connUuid, PIN := pin } }
      else some b
    | none => none
  let backend2 : Option NetworkManagerBackend :=
    match backend1 with
    | some b =>
      if settingName = "vpn" ∧ isPKCS11 = false ∧ (vpnUsername ≠ "" ∨ reply.Save = true) then
        some { b with
               pendingVPNSave := some
                 { ConnectionPath := path, Username := vpnUsername
                   Password := dictGet reply.Secrets "password", SavePassword := reply.Save } }
      else some b
    | none => none
  { backend := backend2, out := some out, err := none, effects := effects }

/-- Lines 372-518: post the prompt, wait for the reply, answer. The effect
`AgentEffect.prompt req` records the call `a.prompts.Ask(ctx, req)`. -/
def promptStage (env : Env) (backend : Option NetworkManagerBackend) (req : PromptRequest)
    (path settingName connType connUuid : String) : GetSecretsResult :=
  match env.ask req with
  | Except.error e =>
    { backend := backend, out := none, err := some (makeFailedError e.message)
      effects := [AgentEffect.prompt req] }
  | Except.ok token =>
    match env.wait token with
    | (reply, some err) =>
      let cleaned : Option NetworkManagerBackend × List AgentEffect :=
        match backend with
        | some b => (some (cancelCleanup b connType).1, (cancelCleanup b connType).2)
        | none => (none, [])
      { backend := cleaned.1, out := none
        err := some (if reply.Cancel = true ∨ err = PromptError.cancelled then errUserCanceled
                     else errAgentFailed)
        effects := AgentEffect.prompt req :: cleaned.2 }
    | (reply, none) =>
      let r := applyReply backend reply path settingName connUuid
      { r with effects := AgentEffect.prompt req :: r.effects }

/-- The prompt reason of lines 242-248. -/
def promptReason (env : Env) (conn : nmSettingMap) (settingName connType ssid vpnSvc : String)
    (flags : Nat) : String :=
  let reason0 := reasonFromFlags flags
  let reason1 :=
    match env.wasRecentlyFailed with
    | some wasRecentlyFailed =>
      if connType = "802-11-wireless" ∧ wasRecentlyFailed ssid = true then "wrong-password"
      else reason0
    | none => reason0
  if settingName = "vpn" ∧ isPKCS11Auth conn vpnSvc = true then "pkcs11" else reason1

/-- `SecretAgent.GetSecrets` (lines 115-518). `backend` is `a.backend` (`none` for nil);
`flags` is a `uint32`. -/
def GetSecrets (env : Env) (backend : Option NetworkManagerBackend) (conn : nmSettingMap)
    (path settingName : String) (hints : List String) (flags : Nat) : GetSecretsResult :=
  let connType := (readConnTypeAndName conn).1
  let displayName := (readConnTypeAndName conn).2.1
  let vpnSvc := (readConnTypeAndName conn).2.2
  let ssid := readSSID conn
  let fields0 := fieldsNeeded settingName hints conn
  if (match backend with
      | some b => scopeRejects b connType ssid conn
      | none => false) then
    { backend := backend, out := none, err := some errNoSecrets, effects := [] }
  else
    match resolveFields backend conn settingName vpnSvc fields0 with
    | FieldsOutcome.reply out err =>
      { backend := backend, out := out, err := err, effects := [] }
    | FieldsOutcome.fields fields =>
      let reason := promptReason env conn settingName connType ssid vpnSvc flags
      let connId := (lookupStr conn "connection" "id").getD ""
      let connUuid := (lookupStr conn "connection" "uuid").getD ""
      match (match backend with
             | some b =>
               if settingName = "vpn" then
                 vpnCacheStage env b conn path settingName connUuid fields
               else none
             | none => none) with
      | some r => r
      | none =>
        promptStage env backend
          { Name := displayName, SSID := ssid, ConnType := connType, VpnService := vpnSvc
            SettingName := settingName, Fields := fields
            FieldsInfo := buildFieldsInfo env.title settingName fields vpnSvc
            Hints := hints, Reason := reason, ConnectionId := connId
            ConnectionUuid := connUuid, ConnectionPath := path }
          path settingName connType connUuid

/-! ## Concrete requests used as examples -/

/-- An environment whose prompt is answered at once with a PSK and whose SAML helper is
not installed. -/
def pskEnv : Env :=
  { wasRecentlyFailed := none
    samlAuth := fun _ _ => Except.error "gp-saml-gui not found"
    ask := fun _ => Except.ok "token-1"
    wait := fun _ => ({ Secrets := [("psk", "hunter2")], Save := false, Cancel := false }, none)
    title := fun s => s }

/-- A backend that is not connecting to anything and has nothing cached. -/
def idleBackend : NetworkManagerBackend :=
  { state := { IsConnecting := false, ConnectingSSID := "", IsConnectingVPN := false
               ConnectingVPNUUID := "" }
    cachedPKCS11PIN := none, cachedVPNCreds := none, cachedGPSamlCookie := none
    pendingVPNSave := none, onStateChange := false }

/-- A backend that is connecting to the Wi-Fi network `Alpha`. -/
def alphaBackend : NetworkManagerBackend :=
  { idleBackend with
    state := { IsConnecting := true, ConnectingSSID := "Alpha", IsConnectingVPN := false
               ConnectingVPNUUID := "" } }

/-- A backend that is activating the VPN with UUID `U`, with nothing cached. -/
def vpnBackend : NetworkManagerBackend :=
  { idleBackend with
    state := { IsConnecting := false, ConnectingSSID := "", IsConnectingVPN := true
               ConnectingVPNUUID := "U" } }

/-- A Wi-Fi connection with SSID `Beta`. -/
def wifiBetaConn : nmSettingMap :=
  [("connection",
      [("type", Variant.str "802-11-wireless"), ("id", Variant.str "Beta"),
       ("uuid", Variant.str "w-1")]),
   ("802-11-wireless", [("ssid", Variant.bytes "Beta")])]

/-- An openconnect GlobalProtect VPN connection with UUID `U`, a stored username and
neither `authtype` nor `saml-auth-method`. -/
def gpUserConn : nmSettingMap :=
  [("connection",
      [("type", Variant.str "vpn"), ("id", Variant.str "Corp"), ("uuid", Variant.str "U")]),
   ("vpn",
      [("service-type", Variant.str "org.freedesktop.NetworkManager.openconnect"),
       ("data", Variant.dict
          [("protocol", "gp"), ("gateway", "vpn.example.com"), ("username", "john")])])]

/-- The connection `gpUserConn` with `saml-auth-method=REDIRECT` added. -/
def gpSamlConn : nmSettingMap :=
  [("connection",
      [("type", Variant.str "vpn"), ("id", Variant.str "Corp"), ("uuid", Variant.str "U")]),
   ("vpn",
      [("service-type", Variant.str "org.freedesktop.NetworkManager.openconnect"),
       ("data", Variant.dict
          [("protocol", "gp"), ("gateway", "vpn.example.com"), ("username", "john"),
           ("saml-auth-method", "REDIRECT")])])]

/-- The backend `vpnBackend` with all three caches filled for the connection `U`. -/
def allCachedBackend : NetworkManagerBackend :=
  { vpnBackend with
    cachedPKCS11PIN := some { ConnectionUUID := "U", PIN := "1234" }
    cachedVPNCreds := some { ConnectionUUID := "U", Password := "pw", SavePassword := false }
    cachedGPSamlCookie := some
      { ConnectionUUID := "U", Cookie := "authcookie=abc", Host := "vpn.example.com"
        User := "john", Fingerprint := "pin-sha256:ABCD" } }

/-- The backend `vpnBackend` with only the GlobalProtect SAML cookie cached for `U`. -/
def samlCachedBackend : NetworkManagerBackend :=
  { vpnBackend with
    cachedGPSamlCookie := some
      { ConnectionUUID := "U", Cookie := "authcookie=abc", Host := "vpn.example.com"
        User := "john", Fingerprint := "pin-sha256:ABCD" } }

/-- An openvpn connection with UUID `U`, certificate authentication
(`connection-type=tls`), no stored username, and `password-flags=4`. -/
def openvpnTlsConn : nmSettingMap :=
  [("connection",
      [("type", Variant.str "vpn"), ("id", Variant.str "Office"), ("uuid", Variant.str "U")]),
   ("vpn",
      [("service-type", Variant.str "org.freedesktop.NetworkManager.openvpn"),
       ("data", Variant.dict [("connection-type", "tls"), ("password-flags", "4")])])]

/-- An openvpn connection with UUID `U`, `connection-type=password` and no stored
username. -/
def openvpnPasswordConn : nmSettingMap :=
  [("connection",
      [("type", Variant.str "vpn"), ("id", Variant.str "Office"), ("uuid", Variant.str "U")]),
   ("vpn",
      [("service-type", Variant.str "org.freedesktop.NetworkManager.openvpn"),
       ("data", Variant.dict [("connection-type", "password")])])]

/-- An openconnect GlobalProtect connection with a PKCS11 client certificate, a stored
username and `saml-auth-method=REDIRECT`. -/
def pkcs11Conn : nmSettingMap :=
  [("connection",
      [("type", Variant.str "vpn"), ("id", Variant.str "Corp"), ("uuid", Variant.str "U")]),
   ("vpn",
      [("service-type", Variant.str "org.freedesktop.NetworkManager.openconnect"),
       ("data", Variant.dict
          [("protocol", "gp"), ("authtype", "cert"), ("username", "john"),
           ("usercert", "pkcs11:model=PKCS%2315%20emulated;manufacturer=piv_II"),
           ("saml-auth-method", "REDIRECT")])])]

/-- An 802.1X Wi-Fi connection for the network `Campus` with a stored identity and EAP
method TLS. -/
def eapTlsConn : nmSettingMap :=
  [("connection",
      [("type", Variant.str "802-11-wireless"), ("id", Variant.str "Campus"),
       ("uuid", Variant.str "w-2")]),
   ("802-11-wireless", [("ssid", Variant.bytes "Campus")]),
   ("802-1x", [("identity", Variant.str "alice"), ("eap", Variant.strs ["tls"])])]

/-- The EAP methods the connection stores: `conn["802-1x"]["eap"]` as a `[]string`,
empty when absent or of another type. -/
def eapMethods (conn : nmSettingMap) : List String :=
  match conn.lookup "802-1x" with
  | some dot1x =>
    match dot1x.lookup "eap" with
    | some (Variant.strs methods) => methods
    | _ => []
  | none => []

/-- Whether the connection stores a non-empty 802.1X identity:
`conn["802-1x"]["identity"]` is a non-empty string. -/
def hasStoredIdentity (conn : nmSettingMap) : Bool :=
  match lookupStr conn "802-1x" "identity" with
  | some id => id != ""
  | none => false

/-- The `PromptRequest` of lines 375-388, for the fields that are asked for. -/
def promptRequestOf (env : Env) (conn : nmSettingMap) (path settingName : String)
    (hints : List String) (flags : Nat) (fields : List String) : PromptRequest :=
  { Name := (readConnTypeAndName conn).2.1
    SSID := readSSID conn
    ConnType := (readConnTypeAndName conn).1
    VpnService := (readConnTypeAndName conn).2.2
    SettingName := settingName
    Fields := fields
    FieldsInfo := buildFieldsInfo env.title settingName fields (readConnTypeAndName conn).2.2
    Hints := hints
    Reason := promptReason env conn settingName (readConnTypeAndName conn).1 (readSSID conn)
      (readConnTypeAndName conn).2.2 flags
    ConnectionId := (lookupStr conn "connection" "id").getD ""
    ConnectionUuid := (lookupStr conn "connection" "uuid").getD ""
    ConnectionPath := path }

/-- An environment whose prompt is answered with a username and a password, to be saved. -/
def passwordEnv : Env :=
  { wasRecentlyFailed := none
    samlAuth := fun _ _ => Except.error "gp-saml-gui not found"
    ask := fun _ => Except.ok "token-2"
    wait := fun _ =>
      ({ Secrets := [("username", "john"), ("password", "pw")], Save := true, Cancel := false },
       none)
    title := fun s => s }

/-- An environment whose prompt is answered with a PKCS11 PIN, to be saved. -/
def pinEnv : Env :=
  { wasRecentlyFailed := none
    samlAuth := fun _ _ => Except.error "gp-saml-gui not found"
    ask := fun _ => Except.ok "token-3"
    wait := fun _ => ({ Secrets := [("key_pass", "1234")], Save := true, Cancel := false }, none)
    title := fun s => s }

/-- An environment whose prompt is answered with the raw 802.1X password. -/
def rawPasswordEnv : Env :=
  { wasRecentlyFailed := none
    samlAuth := fun _ _ => Except.error "gp-saml-gui not found"
    ask := fun _ => Except.ok "token-4"
    wait := fun _ => ({ Secrets := [("password-raw", "abc")], Save := false, Cancel := false }, none)
    title := fun s => s }

/-- An environment whose prompt is answered with an identity and a password. -/
def identityEnv : Env :=
  { wasRecentlyFailed := none
    samlAuth := fun _ _ => Except.error "gp-saml-gui not found"
    ask := fun _ => Except.ok "token-5"
    wait := fun _ =>
      ({ Secrets := [("identity", "alice"), ("password", "pw")], Save := false, Cancel := false },
       none)
    title := fun s => s }

/-- An environment whose prompt is cancelled by the user. -/
def cancelEnv : Env :=
  { wasRecentlyFailed := none
    samlAuth := fun _ _ => Except.error "gp-saml-gui not found"
    ask := fun _ => Except.ok "token-6"
    wait := fun _ => ({ Secrets := [], Save := false, Cancel := true }, some PromptError.cancelled)
    title := fun s => s }

/-- An environment whose prompt times out. -/
def timeoutEnv : Env :=
  { wasRecentlyFailed := none
    samlAuth := fun _ _ => Except.error "gp-saml-gui not found"
    ask := fun _ => Except.ok "token-7"
    wait := fun _ => ({ Secrets := [], Save := false, Cancel := false }, some PromptError.timeout)
    title := fun s => s }

/-- A backend that is not connecting but still records `Alpha` as its connecting SSID. -/
def staleBackend : NetworkManagerBackend :=
  { idleBackend with
    state := { IsConnecting := false, ConnectingSSID := "Alpha", IsConnectingVPN := false
               ConnectingVPNUUID := "" } }

/-- A Wi-Fi connection with SSID `Alpha`. -/
def wifiAlphaConn : nmSettingMap :=
  [("connection",
      [("type", Variant.str "802-11-wireless"), ("id", Variant.str "Alpha"),
       ("uuid", Variant.str "w-0")]),
   ("802-11-wireless", [("ssid", Variant.bytes "Alpha")])]

end Network

namespace Screenshot

/-! ## Render slots of the region selector (`screenshot/region.go`) -/

/-- The pixel data of a `ShmBuffer`. -/
abbrev Pixels := List Nat

/-- `RenderSlot`: the contents of its buffer `shm` and its `busy` flag. The pool and the
`wl_buffer` are the slot's identity, which is its index in `OutputSurface.slots`. -/
structure RenderSlot where
  shm : Pixels
  busy : Bool
  deriving DecidableEq, Repr

/-- The part of `OutputSurface` that the redraw path reads and writes. `slots` is the
array `[3]*RenderSlot`, a nil entry being `none`. -/
structure OutputSurface where
  screenBuf : Option Pixels
  screenBufNoCursor : Option Pixels
  slots : List (Option RenderSlot)
  slotsReady : Bool
  deriving DecidableEq, Repr

/-- What a redraw paints with: `ShmBuffer.CopyFrom` (destination contents, source
contents, giving the new destination contents) and `RegionSelector.drawOverlay` on the
slot's buffer. Neither is part of the files at hand. -/
structure Painter where
  copyFrom : Pixels → Pixels → Pixels
  drawOverlay : Pixels → Pixels

/-- `RegionSelector.getSourceBuffer` (lines 745-750). -/
def getSourceBuffer (showCapturedCursor : Bool) (os : OutputSurface) : Option Pixels :=
  if !showCapturedCursor && os.screenBufNoCursor.isSome then os.screenBufNoCursor
  else os.screenBuf

/-- The loop of `acquireFreeSlot` (lines 710-714) on the slot array: the index of the
first slot that is not nil and not busy. -/
def firstFree : List (Option RenderSlot) → Option Nat
  | [] => none
  | none :: rest => (firstFree rest).map (fun i => i + 1)
  | some slot :: rest => if !slot.busy then some 0 else (firstFree rest).map (fun i => i + 1)

/-- `OutputSurface.acquireFreeSlot` (lines 709-716); the returned slot is named by its
index, `none` is the nil result. -/
def acquireFreeSlot (os : OutputSurface) : Option Nat := firstFree os.slots

/-- The slot array with `f` applied to the slot at index `i` (nothing changes when the
index is out of range or the entry is nil). -/
def updateSlot (f : RenderSlot → RenderSlot) :
    Nat → List (Option RenderSlot) → List (Option RenderSlot)
  | _, [] => []
  | 0, s :: rest => s.map f :: rest
  | i + 1, s :: rest => s :: updateSlot f i rest

/-- `RegionSelector.redrawSurface` (lines 752-786): the surface afterwards and the index
of the slot whose buffer was attached and committed, if any. -/
def redrawSurface (painter : Painter) (showCapturedCursor : Bool) (os : OutputSurface) :
    OutputSurface × Option Nat :=
  match getSourceBuffer showCapturedCursor os with
  | none => (os, none)
  | some srcBuf =>
    if !os.slotsReady then (os, none)
    else
      match acquireFreeSlot os with
      | none => (os, none)
      | some i =>
        ({ os with
           slots := updateSlot
             (fun slot =>
               { shm := painter.drawOverlay (painter.copyFrom slot.shm srcBuf), busy := true })
             i os.slots },
         some i)

/-- The release handler installed by `initRenderBuffer` (lines 699-702) for the buffer
of slot `i`: `slotRef.busy = false`. -/
def releaseSlot (i : Nat) (os : OutputSurface) : OutputSurface :=
  { os with slots := updateSlot (fun slot => { slot with busy := false }) i os.slots }

/-- The loop of `initRenderBuffer` (lines 672-705) over the slot indices still to do.
`alloc i` is the buffer created for slot `i`, `none` when one of the three creation
calls fails. The flag tells whether the loop ran to its end. -/
def initSlots (alloc : Nat → Option Pixels) : List Nat → OutputSurface → OutputSurface × Bool
  | [], os => (os, true)
  | i :: rest, os =>
    match alloc i with
    | none => (os, false)
    | some buf =>
      initSlots alloc rest
        { os with slots := os.slots.set i (some { shm := buf, busy := false }) }

/-- `RegionSelector.initRenderBuffer` (lines 667-707). -/
def initRenderBuffer (alloc : Nat → Option Pixels) (os : OutputSurface) : OutputSurface :=
  match os.screenBuf with
  | none => os
  | some _ =>
    if (initSlots alloc [0, 1, 2] os).2 then
      { (initSlots alloc [0, 1, 2] os).1 with slotsReady := true }
    else (initSlots alloc [0, 1, 2] os).1

/-- Whether a slot entry is a busy slot. -/
def isBusy : Option RenderSlot → Bool
  | some slot => slot.busy
  | none => false

/-- The number of busy slots of a surface. -/
def busyCount (os : OutputSurface) : Nat := os.slots.countP isBusy

/-- What happens to a surface: a `redrawSurface` call, or the `wl_buffer` release event
of slot `i`. -/
inductive SurfaceEvent where
  | redraw (painter : Painter)
  | release (i : Nat)

/-- The surface after one event. -/
def surfaceStep (showCapturedCursor : Bool) (os : OutputSurface) : SurfaceEvent → OutputSurface
  | SurfaceEvent.redraw painter => (redrawSurface painter showCapturedCursor os).1
  | SurfaceEvent.release i => releaseSlot i os

/-- The surface after a sequence of events. -/
def surfaceRun (showCapturedCursor : Bool) (os : OutputSurface) (events : List SurfaceEvent) :
    OutputSurface :=
  events.foldl (surfaceStep showCapturedCursor) os

/-- A painter that copies the source over the slot and draws nothing. -/
def plainPainter : Painter :=
  { copyFrom := fun _ src => src, drawOverlay := fun px => px }

/-- A surface with a captured screen of four pixels and its zero-valued slot array. -/
def capturedSurface : OutputSurface :=
  { screenBuf := some [1, 2, 3, 4], screenBufNoCursor := none
    slots := [none, none, none], slotsReady := false }

/-- The surface `capturedSurface` after a successful `initRenderBuffer`. -/
def readySurface : OutputSurface :=
  initRenderBuffer (fun _ => some [0, 0, 0, 0]) capturedSurface

end Screenshot

namespace Freedesktop

/-- One operation on the hub, `SetScreenLockActive` included. -/
inductive HubOp where
  | hub (op : Op)
  | setScreenLockActive (active : Bool)
  deriving DecidableEq, Repr

/-- The state after one operation. -/
def hubStep (m : Manager) : HubOp → Manager
  | HubOp.hub op => step m op
  | HubOp.setScreenLockActive active => (SetScreenLockActive m active).1

/-- The state after a sequence of operations, applied left to right. -/
def hubRun (m : Manager) (ops : List HubOp) : Manager := ops.foldl hubStep m

/-- The `Inhibited` flag tells whether the inhibitor list is non-empty. -/
def FlagAccurate (m : Manager) : Prop :=
  m.Screensaver.Inhibited = decide (m.Screensaver.Inhibitors.length > 0)

end Freedesktop

namespace GoLib

/-- Go `strings.TrimPrefix(s, pre)`. -/
def strTrimPrefix (s pre : String) : String :=
  if pre.data.isPrefixOf s.data then String.mk (s.data.drop pre.data.length) else s

/-- Go `unicode.IsSpace`: the characters with the Unicode White_Space property. -/
def isSpace (c : Char) : Bool :=
  decide (c.toNat ∈ [9, 10, 11, 12, 13, 32, 0x85, 0xA0, 0x1680, 0x2028, 0x2029, 0x202F,
      0x205F, 0x3000])
    || decide (0x2000 ≤ c.toNat ∧ c.toNat ≤ 0x200A)

/-- The scan of `strings.Fields`: `cur` is the word read so far. -/
def fieldsAux : List Char → List Char → List (List Char)
  | [], cur => if cur = [] then [] else [cur]
  | c :: cs, cur =>
    if isSpace c then
      if cur = [] then fieldsAux cs [] else cur :: fieldsAux cs []
    else fieldsAux cs (cur ++ [c])

/-- Go `strings.Fields(s)`: the maximal runs of non-space characters, in order. -/
def strFields (s : String) : List String := (fieldsAux s.data []).map String.mk

/-- The pieces of `strings.SplitSeq(data, "\n")` on the character list: the text between
consecutive newlines; the empty text has the one piece `[]`. -/
def splitNewline : List Char → List (List Char)
  | [] => [[]]
  | c :: cs =>
    if c = Char.ofNat 10 then [] :: splitNewline cs
    else
      match splitNewline cs with
      | line :: rest => (c :: line) :: rest
      | [] => [[c]]

end GoLib

namespace Network

open GoLib

/-- `unshellQuote` (`backend_networkmanager_gp_saml.go`, lines 172-180). The quotes are
the characters 39 and 34, one byte each, so that the first and last byte of the Go
string are the first and last character here. -/
def unshellQuote (s : String) : String :=
  if s.data.length ≥ 2 then
    if (s.data.head? = some (Char.ofNat 39) ∧ s.data.getLast? = some (Char.ofNat 39))
        ∨ (s.data.head? = some (Char.ofNat 34) ∧ s.data.getLast? = some (Char.ofNat 34)) then
      String.mk (s.data.drop 1).dropLast
    else s
  else s

/-- The body of the loop of `parseGPSamlFromCommandLine` (lines 188-202) for one word. -/
def parseGPSamlPart (result : GpSamlAuthResult) (part : String) : GpSamlAuthResult :=
  if strStartsWith part "--cookie=" then
    if result.Cookie = "" then { result with Cookie := strTrimPrefix part "--cookie=" }
    else result
  else if strStartsWith part "--servercert=" then
    if result.Fingerprint = "" then
      { result with Fingerprint := strTrimPrefix part "--servercert=" }
    else result
  else if strStartsWith part "--user=" then
    if result.User = "" then { result with User := strTrimPrefix part "--user=" }
    else result
  else result

/-- `parseGPSamlFromCommandLine` (lines 182-203): the result record after the call. -/
def parseGPSamlFromCommandLine (line : String) (result : GpSamlAuthResult) :
    GpSamlAuthResult :=
  if !strContains line "openconnect" then result
  else (strFields line).foldl parseGPSamlPart result

/-- The first non-empty value that the words of a line give to a flag: the text after
the flag of the first word that starts with the flag and has text after it, and the
empty string when there is no such word. -/
def firstFlagValue (flag : String) (words : List String) : String :=
  (((words.filter (fun w => strStartsWith w flag)).map (fun w => strTrimPrefix w flag)).find?
    (fun v => v != "")).getD ""

end Network

namespace Utils

open GoLib

/-- `HasGroupData` (`utils/group.go`, lines 20-28): the loop over the lines returns at
the first line that starts with `groupName + ":"`. -/
def HasGroupData (groupName data : String) : Bool :=
  (splitNewline data.data).any (fun line => (groupName.data ++ [':']).isPrefixOf line)

/-- `FindGroupData` (lines 30-37). -/
def FindGroupData (data : String) : List String → String × Bool
  | [] => ("", false)
  | candidate :: rest =>
    if HasGroupData candidate data then (candidate, true) else FindGroupData data rest

/-- A group file in the form of `/etc/group`. -/
def sampleGroupData : String :=
  String.mk ("root:x:0:".data ++ [Char.ofNat 10] ++ "video:x:44:greeter,alice".data
    ++ [Char.ofNat 10] ++ "greeter:x:973:".data ++ [Char.ofNat 10]
    ++ "docker:x:960:alice".data ++ [Char.ofNat 10])

end Utils

namespace Matugen

/-! ## The matugen job queue (`matugen/queue.go`) -/

/-- A Go channel with a buffer: the values sent and not yet received, the capacity, and
whether it was closed. -/
structure Chan (α : Type) where
  buf : List α
  cap : Nat
  closed : Bool
  deriving DecidableEq, Repr

/-- Go `make(chan α, cap)`. -/
def makeChan {α : Type} (cap : Nat) : Chan α := { buf := [], cap := cap, closed := false }

/-- The statement `c <- v` in a step that has to run to its end: `none` when the send
panics (closed channel) or cannot complete (full buffer, nobody receiving). -/
def Chan.send {α : Type} (c : Chan α) (v : α) : Option (Chan α) :=
  if c.closed then none
  else if c.buf.length < c.cap then some { c with buf := c.buf ++ [v] }
  else none

/-- The statement `select { case c <- v: default: }`: `none` when it panics (closed
channel); a full buffer drops the value. -/
def Chan.trySend {α : Type} (c : Chan α) (v : α) : Option (Chan α) :=
  if c.closed then none
  else if c.buf.length < c.cap then some { c with buf := c.buf ++ [v] }
  else some c

/-- Go `close(c)`: `none` when it panics (channel closed already). -/
def Chan.close {α : Type} (c : Chan α) : Option (Chan α) :=
  if c.closed then none else some { c with closed := true }

/-- The values of type `error` that the queue handles: `context.Canceled` and any other
error (named by its message). -/
inductive RunError where
  | contextCanceled
  | other (msg : String)
  deriving DecidableEq, Repr

/-- `Result` (lines 11-14); a nil `Error` is `none`. -/
structure Result where
  Success : Bool
  Error : Option RunError
  deriving DecidableEq, Repr

/-- `QueuedJob` (lines 16-21). `Opts` is the type `Options`, which is not part of the
files at hand. The context and its cancel function are the flag `cancelled`: whether
`Cancel` was called. -/
structure QueuedJob (Opts : Type) where
  Options : Opts
  Done : Chan Result
  cancelled : Bool
  deriving DecidableEq, Repr

/-- `Queue` (lines 23-28) under its mutex. `jobs` is the heap of the jobs allocated so
far, in allocation order; a `*QueuedJob` is an index into it and nil is `none`. -/
structure Queue (Opts : Type) where
  jobs : List (QueuedJob Opts)
  current : Option Nat
  pending : Option Nat
  jobDone : Chan Unit
  deriving DecidableEq, Repr

/-- The queue that `GetQueue` creates (lines 33-40). -/
def GetQueue {Opts : Type} : Queue Opts :=
  { jobs := [], current := none, pending := none, jobDone := makeChan 1 }

/-- `Result{Success: false, Error: context.Canceled}`. -/
def cancelResult : Result := { Success := false, Error := some RunError.contextCanceled }

/-- Lines 55-60 of `Submit`: with a pending job, `q.pending.Cancel()`,
`q.pending.Done <- Result{...}`, `close(q.pending.Done)`. The heap afterwards. -/
def cancelPending {Opts : Type} (jobs : List (QueuedJob Opts)) :
    Option Nat → Option (List (QueuedJob Opts))
  | none => some jobs
  | some p =>
    match jobs[p]? with
    | none => none
    | some pj =>
      match pj.Done.send cancelResult with
      | none => none
      | some ch =>
        match ch.close with
        | none => none
        | some ch1 => some (jobs.set p { pj with Done := ch1, cancelled := true })

/-- The job that `Submit` allocates (lines 46-51). -/
def newJob {Opts : Type} (opts : Opts) : QueuedJob Opts :=
  { Options := opts, Done := makeChan 1, cancelled := false }

/-- `Queue.Submit` (lines 42-74) as one step: the queue afterwards, the new job (whose
`Done` channel is the returned channel) and whether `go q.runWorker()` was executed.
`none` when the call panics or cannot complete. -/
def Submit {Opts : Type} (q : Queue Opts) (opts : Opts) : Option (Queue Opts × Nat × Bool) :=
  match cancelPending (q.jobs ++ [newJob opts]) q.pending with
  | none => none
  | some jobs1 =>
    match q.current with
    | some _ => some ({ q with jobs := jobs1, pending := some q.jobs.length }, q.jobs.length, false)
    | none => some ({ q with jobs := jobs1, current := some q.jobs.length }, q.jobs.length, true)

/-- Lines 114-120 of `finishJob`: with a current job, the non-blocking send of the
result on its `Done` channel and the close of that channel. The heap afterwards. -/
def finishCurrent {Opts : Type} (jobs : List (QueuedJob Opts)) (result : Result) :
    Option Nat → Option (List (QueuedJob Opts))
  | none => some jobs
  | some c =>
    match jobs[c]? with
    | none => none
    | some cj =>
      match cj.Done.trySend result with
      | none => none
      | some ch =>
        match ch.close with
        | none => none
        | some ch1 => some (jobs.set c { cj with Done := ch1 })

/-- `Queue.finishJob` (lines 110-131) as one step; `none` when it panics. -/
def finishJob {Opts : Type} (q : Queue Opts) (result : Result) : Option (Queue Opts) :=
  match finishCurrent q.jobs result q.current with
  | none => none
  | some jobs1 =>
    match q.pending with
    | some p => some { q with jobs := jobs1, current := some p, pending := none }
    | none =>
      match q.jobDone.trySend () with
      | none => none
      | some ch => some { q with jobs := jobs1, current := none, pending := none, jobDone := ch }

/-- A call on the queue: `Submit(opts)` by a client, `finishJob(result)` by a worker. -/
inductive QueueOp (Opts : Type) where
  | submit (opts : Opts)
  | finish (result : Result)
  deriving DecidableEq, Repr

/-- The queue after one call. -/
def queueStep {Opts : Type} (q : Queue Opts) : QueueOp Opts → Option (Queue Opts)
  | QueueOp.submit opts => (Submit q opts).map (fun r => r.1)
  | QueueOp.finish result => finishJob q result

/-- The queue after a sequence of calls, `none` when one of them panics or cannot
complete. -/
def queueRun {Opts : Type} (q : Queue Opts) : List (QueueOp Opts) → Option (Queue Opts)
  | [] => some q
  | op :: rest =>
    match queueStep q op with
    | none => none
    | some q1 => queueRun q1 rest

/-- A job as `Submit` allocates it and nothing has touched it since. -/
def Untouched {Opts : Type} (q : Queue Opts) (i : Nat) : Prop :=
  ∃ j, q.jobs[i]? = some j ∧ j.Done = makeChan 1 ∧ j.cancelled = false

/-- The invariant of the queue: a pending job exists only next to a current one, the
two are different jobs of the heap, and neither was cancelled or notified. -/
def QueueOk {Opts : Type} (q : Queue Opts) : Prop :=
  (q.current = none → q.pending = none)
  ∧ (∀ c, q.current = some c → Untouched q c)
  ∧ (∀ p, q.pending = some p → Untouched q p ∧ q.current ≠ some p)
  ∧ q.jobDone.closed = false

/-- A job of the heap that the queue no longer points to. -/
def Retired {Opts : Type} (q : Queue Opts) (i : Nat) : Prop :=
  i < q.jobs.length ∧ q.current ≠ some i ∧ q.pending ≠ some i

end Matugen

namespace Screenshot

/-! ## `blitBuffer` (`screenshot/screenshot.go`) -/

/-- The part of `ShmBuffer` that `blitBuffer` reads: the dimensions in pixels, the
length of a row in bytes, and the bytes of `Data()`. The type is defined outside the
files at hand; the fields are Go `int`s. -/
structure ShmBuffer where
  Width : Int
  Height : Int
  Stride : Int
  Data : List Nat
  deriving DecidableEq, Repr

/-- The read `data[i]`: `none` when the index is out of range (the Go runtime panics). -/
def readByte (data : List Nat) (i : Int) : Option Nat :=
  if i < 0 then none else data[i.toNat]?

/-- The write `data[i] = v`: `none` when the index is out of range. -/
def writeByte (data : List Nat) (i : Int) (v : Nat) : Option (List Nat) :=
  if i < 0 ∨ (data.length : Int) ≤ i then none else some (data.set i.toNat v)

/-- Lines 445-448 of `blitBuffer`: the four byte assignments of one pixel, in order. -/
def copyPixel (srcData dstData : List Nat) (si di : Int) : Option (List Nat) :=
  (readByte srcData (si + 0)).bind fun b0 =>
  (writeByte dstData (di + 0) b0).bind fun d0 =>
  (readByte srcData (si + 1)).bind fun b1 =>
  (writeByte d0 (di + 1) b1).bind fun d1 =>
  (readByte srcData (si + 2)).bind fun b2 =>
  (writeByte d1 (di + 2) b2).bind fun d2 =>
  (readByte srcData (si + 3)).bind fun b3 =>
  writeByte d2 (di + 3) b3

/-- The inner loop of `blitBuffer` (lines 432-449) over the values of `srcX` still to
do, on the destination bytes so far. -/
def blitPixels (srcData : List Nat) (dstWidth dstX srcRowOff dstRowOff : Int) :
    List Nat → List Nat → Option (List Nat)
  | [], dstData => some dstData
  | srcX :: rest, dstData =>
    if dstX + (srcX : Int) < 0 ∨ dstX + (srcX : Int) ≥ dstWidth then
      blitPixels srcData dstWidth dstX srcRowOff dstRowOff rest dstData
    else if srcRowOff + (srcX : Int) * 4 + 3 ≥ (srcData.length : Int)
        ∨ dstRowOff + (dstX + (srcX : Int)) * 4 + 3 ≥ (dstData.length : Int) then
      blitPixels srcData dstWidth dstX srcRowOff dstRowOff rest dstData
    else
      match copyPixel srcData dstData (srcRowOff + (srcX : Int) * 4)
          (dstRowOff + (dstX + (srcX : Int)) * 4) with
      | none => none
      | some dstData1 => blitPixels srcData dstWidth dstX srcRowOff dstRowOff rest dstData1

/-- The row of the source that is copied for `srcY` (lines 421-424). -/
def actualSrcY (src : ShmBuffer) (yInverted : Bool) (srcY : Int) : Int :=
  if yInverted then src.Height - 1 - srcY else srcY

/-- The outer loop of `blitBuffer` (lines 420-450) over the values of `srcY` still to
do. -/
def blitRows (dst src : ShmBuffer) (dstX dstY : Int) (yInverted : Bool) :
    List Nat → List Nat → Option (List Nat)
  | [], dstData => some dstData
  | srcY :: rest, dstData =>
    if dstY + (srcY : Int) < 0 ∨ dstY + (srcY : Int) ≥ dst.Height then
      blitRows dst src dstX dstY yInverted rest dstData
    else
      match blitPixels src.Data dst.Width dstX (actualSrcY src yInverted srcY * src.Stride)
          ((dstY + (srcY : Int)) * dst.Stride) (List.range src.Width.toNat) dstData with
      | none => none
      | some dstData1 => blitRows dst src dstX dstY yInverted rest dstData1

/-- `Screenshoter.blitBuffer` (lines 416-453): the bytes of `dst` afterwards, `none`
when an access is out of range. -/
def blitBuffer (dst src : ShmBuffer) (dstX dstY : Int) (yInverted : Bool) :
    Option (List Nat) :=
  blitRows dst src dstX dstY yInverted (List.range src.Height.toNat) dst.Data

/-- A buffer of 4-byte pixels whose rows do not overlap and lie inside its data. -/
def WellFormed (b : ShmBuffer) : Prop :=
  0 ≤ b.Width ∧ 0 ≤ b.Height ∧ 4 * b.Width ≤ b.Stride
    ∧ b.Stride * b.Height ≤ (b.Data.length : Int)

/-- A source buffer of 2 x 2 pixels with the bytes 1 to 16. -/
def sampleSrc : ShmBuffer :=
  { Width := 2, Height := 2, Stride := 8,
    Data := [1, 2, 3, 4, 5, 6, 7, 8, 9, 10, 11, 12, 13, 14, 15, 16] }

/-- A cleared destination buffer of 2 x 2 pixels. -/
def sampleDst : ShmBuffer :=
  { Width := 2, Height := 2, Stride := 8,
    Data := [0, 0, 0, 0, 0, 0, 0, 0, 0, 0, 0, 0, 0, 0, 0, 0] }

end Screenshot

namespace Screenshot

/-! ## `captureAllScreens` (`screenshot/screenshot.go`) -/

/-- The operations of Go's `float64` that `captureAllScreens` uses, on a type `F` that
stands for `float64`: the conversion `float64(n)` of an `int32`, the constant `1.0`, the
tests `s > 0` and `s <= 0` (both are false for a NaN), and `int(a * b)`, the binary64
product converted to `int`. They are parameters: what is proved holds for every
interpretation of them, so for the arithmetic of IEEE 754 as well. -/
structure Float64Ops (F : Type) where
  ofInt32 : Int → F
  one : F
  gtZero : F → Bool
  leZero : F → Bool
  mulToInt : F → F → Int

/-- The integers as `float64` values: binary64 holds every integer below `2 ^ 53` in
absolute value and computes the product of two of them exactly when the product is
below `2 ^ 53` as well, which is the case for the coordinates and scales used with it
here. -/
def integerFloats : Float64Ops Int :=
  { ofInt32 := fun n => n, one := 1, gtZero := fun s => decide (s > 0),
    leZero := fun s => decide (s ≤ 0), mulToInt := fun a b => a * b }

/-- The conversion `int32(v)`. -/
def toInt32 (v : Int) : Int := (v + 2 ^ 31) % 2 ^ 32 - 2 ^ 31

/-- The fields of `WaylandOutput` (lines 13-23) that `captureAllScreens` reads. -/
structure WaylandOutput where
  name : String
  x : Int
  y : Int
  scale : Int
  deriving DecidableEq, Repr

/-- `Region` (`types.go`, lines 29-35). -/
structure Region where
  X : Int
  Y : Int
  Width : Int
  Height : Int
  Output : String
  deriving DecidableEq, Repr

/-- `CaptureResult` (lines 25-30). -/
structure CaptureResult where
  Buffer : ShmBuffer
  Region : Region
  YInverted : Bool
  Format : Nat
  deriving DecidableEq, Repr

/-- `Compositor` (`compositor.go`, lines 16-26). -/
inductive Compositor where
  | Unknown
  | Hyprland
  | Sway
  | Niri
  | DWL
  | Scroll
  | Miracle
  deriving DecidableEq, Repr

/-- What `captureAllScreens` gets from outside the process: the detected compositor,
the answers of `GetHyprlandMonitorGeometry` (`x`, `y` when `ok`),
`GetHyprlandMonitorScale` and `getOutputInfo` (`x`, `y` when `ok`) for an output name,
the result of `captureWholeOutput` (`none` for an error), and whether
`CreateShmBuffer` succeeds for a width, height and stride. -/
structure CaptureEnv (F : Type) where
  compositor : Compositor
  hyprlandGeometry : String → Option (Int × Int)
  hyprlandScale : String → F
  outputInfo : String → Option (Int × Int)
  captureWholeOutput : WaylandOutput → Option CaptureResult
  createShmBuffer : Int → Int → Int → Bool

/-- Lines 327-344: the origin and the scale of an output after the compositor-specific
overrides and the default `scale = 1.0` for a scale that is not positive. -/
def outputGeometry {F : Type} (fl : Float64Ops F) (env : CaptureEnv F)
    (output : WaylandOutput) : Int × Int × F :=
  let geo : Int × Int × F :=
    match env.compositor with
    | Compositor.Hyprland =>
      let xy := (env.hyprlandGeometry output.name).getD (output.x, output.y)
      let s := env.hyprlandScale output.name
      (xy.1, xy.2, if fl.gtZero s then s else fl.ofInt32 output.scale)
    | Compositor.DWL =>
      let xy := (env.outputInfo output.name).getD (output.x, output.y)
      (xy.1, xy.2, fl.ofInt32 output.scale)
    | _ => (output.x, output.y, fl.ofInt32 output.scale)
  (geo.1, geo.2.1, if fl.leZero geo.2.2 then fl.one else geo.2.2)

/-- Lines 346-347: `physX := int(float64(outX) * scale)` and `physY` likewise. -/
def physOrigin {F : Type} (fl : Float64Ops F) (env : CaptureEnv F) (output : WaylandOutput) :
    Int × Int :=
  (fl.mulToInt (fl.ofInt32 (outputGeometry fl env output).1) (outputGeometry fl env output).2.2,
   fl.mulToInt (fl.ofInt32 (outputGeometry fl env output).2.1)
     (outputGeometry fl env output).2.2)

/-- The local type `capturedOutput` (lines 307-312). -/
structure capturedOutput where
  output : WaylandOutput
  result : CaptureResult
  physX : Int
  physY : Int
  deriving DecidableEq, Repr

/-- The variables of the capture loop: `captured`, `minX`, `minY`, `maxX`, `maxY`,
`first`. -/
structure LoopState where
  captured : List capturedOutput
  minX : Int
  minY : Int
  maxX : Int
  maxY : Int
  first : Bool
  deriving DecidableEq, Repr

/-- The variables before the loop (lines 313-316). -/
def initLoopState : LoopState :=
  { captured := [], minX := 0, minY := 0, maxX := 0, maxY := 0, first := true }

/-- One round of the capture loop (lines 318-376). -/
def captureStep {F : Type} (fl : Float64Ops F) (env : CaptureEnv F) (st : LoopState)
    (output : WaylandOutput) : LoopState :=
  match env.captureWholeOutput output with
  | none => st
  | some result =>
    let physX := (physOrigin fl env output).1
    let physY := (physOrigin fl env output).2
    let captured := st.captured ++ [⟨output, result, physX, physY⟩]
    let right := physX + result.Buffer.Width
    let bottom := physY + result.Buffer.Height
    if st.first then
      { captured := captured, minX := physX, minY := physY, maxX := right, maxY := bottom,
        first := false }
    else
      { captured := captured,
        minX := if physX < st.minX then physX else st.minX,
        minY := if physY < st.minY then physY else st.minY,
        maxX := if right > st.maxX then right else st.maxX,
        maxY := if bottom > st.maxY then bottom else st.maxY,
        first := false }

/-- The capture loop over the outputs. -/
def captureLoop {F : Type} (fl : Float64Ops F) (env : CaptureEnv F)
    (outputs : List WaylandOutput) : LoopState :=
  outputs.foldl (captureStep fl env) initLoopState

/-- A call `s.blitBuffer(composite, src, dstX, dstY, yInverted)`. -/
structure BlitCall where
  src : ShmBuffer
  dstX : Int
  dstY : Int
  yInverted : Bool
  deriving DecidableEq, Repr

/-- The variable `format` after the last loop (lines 400-404): the first format that is
not zero. -/
def firstFormat (captured : List capturedOutput) : Nat :=
  captured.foldl (fun format c => if format = 0 then c.result.Format else format) 0

/-- What `captureAllScreens` returns: an error, the result of the one output that there
is or that was captured, or a composite: the width, height and stride passed to
`CreateShmBuffer`, the blits into the cleared buffer, in order, and the `Region` and
`Format` of the result. -/
inductive CaptureOutcome where
  | error (msg : String)
  | whole (result : Option CaptureResult)
  | single (result : CaptureResult)
  | composite (width height stride : Int) (blits : List BlitCall) (region : Region)
      (format : Nat)
  deriving DecidableEq, Repr

/-- `Screenshoter.captureAllScreens` (lines 290-414) on the outputs in the order in which
the map `s.outputs` is iterated. -/
def captureAllScreens {F : Type} (fl : Float64Ops F) (env : CaptureEnv F)
    (outputs : List WaylandOutput) : CaptureOutcome :=
  if outputs.length = 0 then CaptureOutcome.error "no outputs available"
  else if outputs.length = 1 then
    CaptureOutcome.whole (outputs.head?.bind env.captureWholeOutput)
  else
    let st := captureLoop fl env outputs
    if st.captured.length = 0 then CaptureOutcome.error "failed to capture any outputs"
    else if st.captured.length = 1 then
      match st.captured.head? with
      | some c => CaptureOutcome.single c.result
      | none => CaptureOutcome.error "failed to capture any outputs"
    else
      let totalW := st.maxX - st.minX
      let totalH := st.maxY - st.minY
      if !env.createShmBuffer totalW totalH (totalW * 4) then
        CaptureOutcome.error "create composite buffer"
      else
        CaptureOutcome.composite totalW totalH (totalW * 4)
          (st.captured.map fun c =>
            ⟨c.result.Buffer, c.physX - st.minX, c.physY - st.minY, c.result.YInverted⟩)
          ⟨toInt32 st.minX, toInt32 st.minY, toInt32 totalW, toInt32 totalH, ""⟩
          (firstFormat st.captured)

/-- The capture of an output of the given buffer size (the bytes are left out). -/
def captureOf (width height : Int) : CaptureResult :=
  { Buffer := { Width := width, Height := height, Stride := width * 4, Data := [] },
    Region := ⟨0, 0, width, height, ""⟩, YInverted := false, Format := 1 }

/-- Two outputs side by side: `DP-1`, 1920 x 1080 at scale 1 at logical (0, 0), and
`DP-2`, 2560 x 1440 at scale 2 at logical (1920, 0). -/
def mosaicOutputs : List WaylandOutput :=
  [⟨"DP-1", 0, 0, 1⟩, ⟨"DP-2", 1920, 0, 2⟩]

/-- A compositor without overrides on which `DP-1` is captured into a 1920 x 1080 buffer
and `DP-2` into a 5120 x 2880 buffer. -/
def mosaicEnv : CaptureEnv Int :=
  { compositor := Compositor.Sway
    hyprlandGeometry := fun _ => none
    hyprlandScale := fun _ => 0
    outputInfo := fun _ => none
    captureWholeOutput := fun o =>
      if o.name = "DP-1" then some (captureOf 1920 1080)
      else if o.name = "DP-2" then some (captureOf 5120 2880)
      else none
    createShmBuffer := fun _ _ _ => true }

/-- The box `minX`, `minY`, `maxX`, `maxY` of a loop state is the union bounding box of
the captured buffers placed at their physical origins: it contains each of them and
each of its four sides is reached by one of them. -/
def IsBoundingBox (st : LoopState) : Prop :=
  (∀ c ∈ st.captured, st.minX ≤ c.physX ∧ st.minY ≤ c.physY
      ∧ c.physX + c.result.Buffer.Width ≤ st.maxX
      ∧ c.physY + c.result.Buffer.Height ≤ st.maxY)
    ∧ (∃ c ∈ st.captured, c.physX = st.minX)
    ∧ (∃ c ∈ st.captured, c.physY = st.minY)
    ∧ (∃ c ∈ st.captured, c.physX + c.result.Buffer.Width = st.maxX)
    ∧ (∃ c ∈ st.captured, c.physY + c.result.Buffer.Height = st.maxY)

/-- The entry of `captured` for an output, when its capture succeeds. -/
def capturedOf {F : Type} (fl : Float64Ops F) (env : CaptureEnv F) (output : WaylandOutput) :
    Option capturedOutput :=
  (env.captureWholeOutput output).map fun result =>
    ⟨output, result, (physOrigin fl env output).1, (physOrigin fl env output).2⟩

end Screenshot

namespace Screenshot

/-! ## Pre-capture of all outputs (`screenshot/region.go`) -/

/-- Why a pre-capture called `onReady`: the `CaptureOutput` request failed, or the ready
or the failed event of its frame arrived. -/
inductive Cause where
  | requestError
  | ready
  | failed
  deriving DecidableEq, Repr

/-- How far the buffer handler of a frame gets (lines 387-417): the stride check fails,
`CreateShmBuffer` fails, `CreatePool` fails, `CreateBuffer` fails, or `frame.Copy` is
called (with or without an error). -/
inductive BufferOutcome where
  | invalidStride
  | createFailed
  | poolFailed
  | wlBufferFailed
  | copyCalled (copyErr : Bool)
  deriving DecidableEq, Repr

/-- Whether the buffer handler reaches `capturedBuf = buf` (line 399). -/
def BufferOutcome.setsBuffer : BufferOutcome → Bool
  | BufferOutcome.invalidStride => false
  | BufferOutcome.createFailed => false
  | _ => true

/-- The events of a screencopy frame. -/
inductive FrameEvent where
  | buffer (outcome : BufferOutcome)
  | flags (yInverted : Bool)
  | ready
  | failed
  deriving DecidableEq, Repr

/-- What one call of `r.ctx.Dispatch()` does: it returns an error, or it delivers events
to the handlers of the frames named by their index. `Dispatch` is not part of the files
at hand. -/
inductive DispatchResult where
  | error (msg : String)
  | events (evs : List (Nat × FrameEvent))
  deriving DecidableEq, Repr

/-- One call of `preCaptureOutput`: its output (by index) and `withCursor`, whether the
`CaptureOutput` request gave a frame, whether `frame.Destroy()` was called, whether
`capturedBuf` is set, whether the buffer was stored in the `PreCapture` record, and the
calls of `onReady` so far. -/
structure PreCaptureFrame where
  output : Nat
  withCursor : Bool
  requested : Bool
  destroyed : Bool
  capturedBuf : Bool
  stored : Bool
  signals : List Cause
  deriving DecidableEq, Repr

/-- The variables of `preCaptureAllOutputs`: the pre-captures started, `pending` (the
capacity of `done`), the number of values in the channel `done`, and the loop
counter `i`. -/
structure PreCaptureState where
  frames : List PreCaptureFrame
  pending : Nat
  done : Nat
  i : Nat
  deriving DecidableEq, Repr

/-- The slice of pre-captures with one more `onReady` call noted for number `k`. -/
def recordSignal (cause : Cause) (k : Nat) (frames : List PreCaptureFrame) :
    List PreCaptureFrame :=
  match frames[k]? with
  | some f => frames.set k { f with signals := f.signals ++ [cause] }
  | none => frames

/-- The callback `onReady` of pre-capture `k`, `func() { done <- struct{}{} }` (lines
353-354): `none` when the send cannot complete because the channel is full (the only
receiver is the caller itself). -/
def onReady (cause : Cause) (k : Nat) (st : PreCaptureState) : Option PreCaptureState :=
  if st.done < st.pending then
    some { st with done := st.done + 1, frames := recordSignal cause k st.frames }
  else none

/-- `preCaptureOutput` up to the installation of the handlers (lines 370-382):
`requestFails` tells whether `CaptureOutput` returns an error. -/
def preCaptureOutput (requestFails : Nat → Bool → Bool) (output : Nat) (withCursor : Bool)
    (st : PreCaptureState) : Option PreCaptureState :=
  if requestFails output withCursor then
    onReady Cause.requestError st.frames.length
      { st with frames := st.frames ++ [⟨output, withCursor, false, false, false, false, []⟩] }
  else
    some { st with frames := st.frames ++ [⟨output, withCursor, true, false, false, false, []⟩] }

/-- The first loop of `preCaptureAllOutputs` (lines 349-355) over the outputs still to
do. -/
def startOutputs (requestFails : Nat → Bool → Bool) :
    List Nat → PreCaptureState → Option PreCaptureState
  | [], st => some st
  | output :: rest, st =>
    match preCaptureOutput requestFails output true st with
    | none => none
    | some st1 =>
      match preCaptureOutput requestFails output false st1 with
      | none => none
      | some st2 => startOutputs requestFails rest st2

/-- The handlers of frame `k` (lines 385-477) on one event. A frame that was never
created or that was destroyed has no handlers to run: `Destroy` removes the proxy, so
that the library delivers nothing more to it. The flags event changes `pc.yInverted`
only, which is not recorded here. -/
def handleEvent (st : PreCaptureState) (k : Nat) (ev : FrameEvent) : Option PreCaptureState :=
  match st.frames[k]? with
  | none => some st
  | some f =>
    if !f.requested || f.destroyed then some st
    else
      match ev with
      | FrameEvent.buffer outcome =>
        some { st with
          frames := st.frames.set k
            { f with capturedBuf := if outcome.setsBuffer then true else f.capturedBuf } }
      | FrameEvent.flags _ => some st
      | FrameEvent.ready =>
        onReady Cause.ready k
          { st with
            frames := st.frames.set k { f with destroyed := true, stored := f.capturedBuf } }
      | FrameEvent.failed =>
        onReady Cause.failed k
          { st with frames := st.frames.set k { f with destroyed := true } }

/-- The events of one `Dispatch` call, handled in order. -/
def dispatchEvents : List (Nat × FrameEvent) → PreCaptureState → Option PreCaptureState
  | [], st => some st
  | e :: rest, st =>
    match handleEvent st e.1 e.2 with
    | none => none
    | some st1 => dispatchEvents rest st1

/-- How `preCaptureAllOutputs` ends: it returns nil, it returns the error of `Dispatch`,
or it does not return (a call inside it never completes). -/
inductive PreCaptureResult where
  | ok (st : PreCaptureState)
  | err (msg : String) (st : PreCaptureState)
  | blocked (st : PreCaptureState)
  deriving DecidableEq, Repr

/-- The second loop of `preCaptureAllOutputs` (lines 357-366) on the results of the
`Dispatch` calls still to come; when the loop needs one more than there are, the call
does not return. -/
def waitLoop : List DispatchResult → PreCaptureState → PreCaptureResult
  | [], st => if st.i < st.pending then PreCaptureResult.blocked st else PreCaptureResult.ok st
  | r :: rest, st =>
    if st.i < st.pending then
      match r with
      | DispatchResult.error msg => PreCaptureResult.err msg st
      | DispatchResult.events evs =>
        match dispatchEvents evs st with
        | none => PreCaptureResult.blocked st
        | some st1 =>
          if st1.done > 0 then waitLoop rest { st1 with done := st1.done - 1, i := st1.i + 1 }
          else waitLoop rest st1
    else PreCaptureResult.ok st

/-- `RegionSelector.preCaptureAllOutputs` (lines 338-368) for `n` outputs. -/
def preCaptureAllOutputs (n : Nat) (requestFails : Nat → Bool → Bool)
    (script : List DispatchResult) : PreCaptureResult :=
  match startOutputs requestFails (List.range n)
      { frames := [], pending := n * 2, done := 0, i := 0 } with
  | none => PreCaptureResult.blocked { frames := [], pending := n * 2, done := 0, i := 0 }
  | some st => waitLoop script st

/-- Lines 150-156 of `Run`: whether `createSurfaces` is called. -/
def surfacesCreated (n : Nat) (requestFails : Nat → Bool → Bool)
    (script : List DispatchResult) : Bool :=
  match preCaptureAllOutputs n requestFails script with
  | PreCaptureResult.ok _ => true
  | _ => false

/-- The number of `onReady` calls of all pre-captures. -/
def signalCount (frames : List PreCaptureFrame) : Nat :=
  (frames.map fun f => f.signals.length).sum

/-- The output and the cursor flag of each pre-capture. -/
def frameKeys (frames : List PreCaptureFrame) : List (Nat × Bool) :=
  frames.map fun f => (f.output, f.withCursor)

/-- The three conditions a pre-capture can be in: the request failed and that was
signalled; the frame is alive and nothing was signalled; the frame was destroyed and
its ready or failed event was signalled. -/
def FrameOk (f : PreCaptureFrame) : Prop :=
  (f.requested = false ∧ f.signals = [Cause.requestError])
    ∨ (f.requested = true ∧ f.destroyed = false ∧ f.signals = [])
    ∨ (f.requested = true ∧ f.destroyed = true
        ∧ (f.signals = [Cause.ready] ∨ f.signals = [Cause.failed]))

/-- The invariant of `preCaptureAllOutputs`: every pre-capture is in one of the three
conditions, and the values sent on `done` are those still in the channel and those
received. -/
def PreCaptureInv (st : PreCaptureState) : Prop :=
  (∀ f ∈ st.frames, FrameOk f) ∧ st.done + st.i = signalCount st.frames

/-- The variables at the end of a run. -/
def resultState : PreCaptureResult → PreCaptureState
  | PreCaptureResult.ok st => st
  | PreCaptureResult.err _ st => st
  | PreCaptureResult.blocked st => st

/-- The pre-captures that the outputs ask for: for each output, in order, one with and
one without cursor. -/
def expectedKeys : List Nat → List (Nat × Bool)
  | [] => []
  | output :: rest => (output, true) :: (output, false) :: expectedKeys rest

/-- No `Dispatch` call of the script delivers the ready or the failed event of frame
`k`. -/
def NoTerminal (k : Nat) (script : List DispatchResult) : Prop :=
  ∀ evs, DispatchResult.events evs ∈ script →
    (k, FrameEvent.ready) ∉ evs ∧ (k, FrameEvent.failed) ∉ evs

/-- No `CaptureOutput` request fails. -/
def noRequestFails : Nat → Bool → Bool := fun _ _ => false

/-- A run for one output: both frames get their buffer event, the frame without cursor
fails, the frame with cursor becomes ready. -/
def sampleScript : List DispatchResult :=
  [DispatchResult.events [(0, FrameEvent.buffer (BufferOutcome.copyCalled false)),
      (0, FrameEvent.flags false)],
   DispatchResult.events [(1, FrameEvent.buffer BufferOutcome.poolFailed)],
   DispatchResult.events [(1, FrameEvent.failed)],
   DispatchResult.events [(0, FrameEvent.ready), (0, FrameEvent.failed)]]

/-- A run for one output in which the buffer handler of the frame with cursor stops at
the stride check, so that no copy is requested for it, and the frame without cursor
becomes ready. -/
def stuckScript : List DispatchResult :=
  [DispatchResult.events [(0, FrameEvent.buffer BufferOutcome.invalidStride)],
   DispatchResult.events [(1, FrameEvent.buffer (BufferOutcome.copyCalled false)),
     (1, FrameEvent.ready)]]

end Screenshot

/-! # Theorems -/

namespace Freedesktop

open GoLib

/-! ## Helper lemmas on the hub -/

theorem splitByPeer_foldl (peer : String) (l : List ScreensaverInhibitor)
    (acc : List ScreensaverInhibitor × List ScreensaverInhibitor) :
    l.foldl
      (fun acc inh => if inh.Peer = peer then (acc.1, acc.2 ++ [inh]) else (acc.1 ++ [inh], acc.2))
      acc
    = (acc.1 ++ l.filter (fun inh => decide (inh.Peer ≠ peer)),
       acc.2 ++ l.filter (fun inh => decide (inh.Peer = peer))) := by
  induction l generalizing acc with
  | nil => simp
  | cons a t ih =>
    rw [List.foldl_cons, ih]
    by_cases h : a.Peer = peer <;> simp [h]

theorem splitByPeer_eq (peer : String) (l : List ScreensaverInhibitor) :
    splitByPeer peer l
    = (l.filter (fun inh => decide (inh.Peer ≠ peer)),
       l.filter (fun inh => decide (inh.Peer = peer))) := by
  unfold splitByPeer
  rw [splitByPeer_foldl]
  simp

theorem removeInhibitorsByPeer_inhibitors (m : Manager) (peer : String) :
    (removeInhibitorsByPeer m peer).1.Screensaver.Inhibitors
    = m.Screensaver.Inhibitors.filter (fun inh => decide (inh.Peer ≠ peer)) := by
  unfold removeInhibitorsByPeer
  simp only [splitByPeer_eq]
  split
  · rename_i h
    have h0 : m.Screensaver.Inhibitors.filter (fun inh => decide (inh.Peer = peer)) = [] :=
      List.length_eq_zero.mp h
    rw [List.filter_eq_nil_iff] at h0
    symm
    rw [List.filter_eq_self]
    intro a ha
    have := h0 a ha
    simpa using this
  · rfl

theorem removeInhibitorsByPeer_counter (m : Manager) (peer : String) :
    (removeInhibitorsByPeer m peer).1.screensaverCookieCounter = m.screensaverCookieCounter := by
  unfold removeInhibitorsByPeer
  by_cases h : (splitByPeer peer m.Screensaver.Inhibitors).2.length = 0 <;> simp [h]

theorem removeFirstCookie_none (cookie : Nat) (l : List ScreensaverInhibitor)
    (h : removeFirstCookie cookie l = none) :
    l.filter (fun inh => decide (inh.Cookie ≠ cookie)) = l := by
  induction l with
  | nil => rfl
  | cons a t ih =>
    unfold removeFirstCookie at h
    by_cases hc : a.Cookie ≠ cookie
    · rw [if_pos hc] at h
      have ht : removeFirstCookie cookie t = none := by
        cases hr : removeFirstCookie cookie t with
        | none => rfl
        | some r => rw [hr] at h; simp at h
      rw [List.filter_cons_of_pos (by simpa using hc), ih ht]
    · rw [if_neg hc] at h
      exact absurd h (by simp)

theorem removeFirstCookie_some (cookie : Nat) (l r : List ScreensaverInhibitor)
    (hnd : (l.map (fun inh => inh.Cookie)).Nodup)
    (h : removeFirstCookie cookie l = some r) :
    r = l.filter (fun inh => decide (inh.Cookie ≠ cookie)) := by
  induction l generalizing r with
  | nil => simp [removeFirstCookie] at h
  | cons a t ih =>
    rw [List.map_cons, List.nodup_cons] at hnd
    unfold removeFirstCookie at h
    by_cases hc : a.Cookie ≠ cookie
    · rw [if_pos hc] at h
      cases hr : removeFirstCookie cookie t with
      | none => rw [hr] at h; simp at h
      | some r1 =>
        rw [hr] at h
        simp only [Option.map_some', Option.some.injEq] at h
        rw [List.filter_cons_of_pos (by simpa using hc), ← ih r1 hnd.2 hr, h]
    · rw [if_neg hc, Option.some.injEq] at h
      have hc1 : a.Cookie = cookie := not_not.mp hc
      rw [List.filter_cons_of_neg (by simpa using hc1), ← h]
      symm
      rw [List.filter_eq_self]
      intro b hb
      have : b.Cookie ≠ a.Cookie := by
        intro hba
        exact hnd.1 (List.mem_map.mpr ⟨b, hb, hba⟩)
      simpa [← hc1] using this

theorem UnInhibit_inhibitors (m : Manager) (sender : String) (cookie : Nat)
    (hnd : (m.Screensaver.Inhibitors.map (fun inh => inh.Cookie)).Nodup) :
    (UnInhibit m sender cookie).1.Screensaver.Inhibitors
    = m.Screensaver.Inhibitors.filter (fun inh => decide (inh.Cookie ≠ cookie)) := by
  unfold UnInhibit
  cases hr : removeFirstCookie cookie m.Screensaver.Inhibitors with
  | none => simp only; exact (removeFirstCookie_none cookie _ hr).symm
  | some r => simp only; exact removeFirstCookie_some cookie _ r hnd hr

theorem UnInhibit_counter (m : Manager) (sender : String) (cookie : Nat) :
    (UnInhibit m sender cookie).1.screensaverCookieCounter = m.screensaverCookieCounter := by
  unfold UnInhibit
  split <;> rfl


theorem Inhibit_recorded_manager (m : Manager) (sender appName reason : String) (now : Int)
    (h : isRecorded (Op.inhibit sender appName reason now) = true) :
    (Inhibit m sender appName reason now).manager
    = { m with
        screensaverCookieCounter := (newInhibitor m sender appName reason now).Cookie
        Screensaver :=
          { m.Screensaver with
            Inhibitors := m.Screensaver.Inhibitors ++ [newInhibitor m sender appName reason now]
            Inhibited := true } } := by
  simp only [isRecorded, Bool.and_eq_true, bne_iff_ne, ne_eq, Bool.not_eq_true'] at h
  obtain ⟨⟨h1, h2⟩, h3⟩ := h
  simp [Inhibit, h1, h2, h3]

theorem Inhibit_not_recorded_manager (m : Manager) (sender appName reason : String) (now : Int)
    (h : isRecorded (Op.inhibit sender appName reason now) = false) :
    (Inhibit m sender appName reason now).manager = m := by
  unfold Inhibit
  by_cases h1 : appName = ""
  · simp [h1]
  by_cases h2 : reason = ""
  · simp [h1, h2]
  have h3 : isAudioOnly reason = true := by
    simpa [isRecorded, h1, h2] using h
  simp [h1, h2, h3]

theorem step_not_recorded_inhibit (m : Manager) (sender appName reason : String) (now : Int)
    (h : isRecorded (Op.inhibit sender appName reason now) = false) :
    step m (Op.inhibit sender appName reason now) = m :=
  Inhibit_not_recorded_manager m sender appName reason now h

theorem cookiesFresh_inhibit (m : Manager) (n : Nat) (sender appName reason : String) (now : Int)
    (hinv : CookiesFresh m n) (hn : n + 1 ≤ 2 ^ 32)
    (h : isRecorded (Op.inhibit sender appName reason now) = true) :
    CookiesFresh (step m (Op.inhibit sender appName reason now)) (n + 1) := by
  obtain ⟨hc, hnd, hk⟩ := hinv
  have hstep : step m (Op.inhibit sender appName reason now)
      = (Inhibit m sender appName reason now).manager := rfl
  rw [hstep, Inhibit_recorded_manager m sender appName reason now h]
  have hcookie : (newInhibitor m sender appName reason now).Cookie = (n + 1) % 2 ^ 32 := by
    show (m.screensaverCookieCounter + 1) % 2 ^ 32 = (n + 1) % 2 ^ 32
    rw [hc]
    omega
  refine ⟨hcookie, ?_, ?_⟩
  · show ((m.Screensaver.Inhibitors ++ [newInhibitor m sender appName reason now]).map
        (fun inh => inh.Cookie)).Nodup
    rw [List.map_append, List.map_singleton, hcookie]
    refine List.Nodup.append hnd (List.nodup_singleton _) ?_
    rw [List.disjoint_singleton]
    intro hmem
    obtain ⟨inh, hin, heq⟩ := List.mem_map.mp hmem
    obtain ⟨k, hk1, hk2, hk3⟩ := hk inh hin
    have : k % 2 ^ 32 = (n + 1) % 2 ^ 32 := by rw [← hk3]; exact heq
    omega
  · intro inh hin
    have hin1 : inh ∈ m.Screensaver.Inhibitors ++ [newInhibitor m sender appName reason now] := hin
    rcases List.mem_append.mp hin1 with h1 | h1
    · obtain ⟨k, hk1, hk2, hk3⟩ := hk inh h1
      exact ⟨k, hk1, by omega, hk3⟩
    · rw [List.mem_singleton] at h1
      exact ⟨n + 1, by omega, le_refl _, by rw [h1, hcookie]⟩

theorem cookiesFresh_sublist (m m1 : Manager) (n : Nat) (hinv : CookiesFresh m n)
    (hc : m1.screensaverCookieCounter = m.screensaverCookieCounter)
    (hs : List.Sublist m1.Screensaver.Inhibitors m.Screensaver.Inhibitors) :
    CookiesFresh m1 n := by
  obtain ⟨h1, hnd, hk⟩ := hinv
  refine ⟨by rw [hc, h1], ?_, ?_⟩
  · exact List.Nodup.sublist (List.Sublist.map _ hs) hnd
  · intro inh hin
    exact hk inh (hs.subset hin)

theorem cookiesFresh_unInhibit (m : Manager) (n : Nat) (sender : String) (cookie : Nat)
    (hinv : CookiesFresh m n) :
    CookiesFresh (step m (Op.unInhibit sender cookie)) n := by
  refine cookiesFresh_sublist m _ n hinv (UnInhibit_counter m sender cookie) ?_
  show List.Sublist (UnInhibit m sender cookie).1.Screensaver.Inhibitors _
  rw [UnInhibit_inhibitors m sender cookie hinv.2.1]
  exact List.filter_sublist _

theorem cookiesFresh_peerDeath (m : Manager) (n : Nat) (peer : String)
    (hinv : CookiesFresh m n) :
    CookiesFresh (step m (Op.peerDeath peer)) n := by
  refine cookiesFresh_sublist m _ n hinv (removeInhibitorsByPeer_counter m peer) ?_
  show List.Sublist (removeInhibitorsByPeer m peer).1.Screensaver.Inhibitors _
  rw [removeInhibitorsByPeer_inhibitors]
  exact List.filter_sublist _

theorem cookiesFresh_step (m : Manager) (n : Nat) (op : Op) (hinv : CookiesFresh m n)
    (hn : n + recordedCount [op] ≤ 2 ^ 32) :
    CookiesFresh (step m op) (n + recordedCount [op]) := by
  cases op with
  | inhibit sender appName reason now =>
    by_cases h : isRecorded (Op.inhibit sender appName reason now) = true
    · have hcnt : recordedCount [Op.inhibit sender appName reason now] = 1 := by
        simp [recordedCount, h]
      rw [hcnt] at hn ⊢
      exact cookiesFresh_inhibit m n sender appName reason now hinv hn h
    · have h0 : isRecorded (Op.inhibit sender appName reason now) = false := by simpa using h
      have hcnt : recordedCount [Op.inhibit sender appName reason now] = 0 := by
        simp [recordedCount, h0]
      rw [hcnt, step_not_recorded_inhibit m sender appName reason now h0]
      exact hinv
  | unInhibit sender cookie =>
    have hcnt : recordedCount [Op.unInhibit sender cookie] = 0 := by
      simp [recordedCount, isRecorded]
    rw [hcnt]
    exact cookiesFresh_unInhibit m n sender cookie hinv
  | peerDeath peer =>
    have hcnt : recordedCount [Op.peerDeath peer] = 0 := by
      simp [recordedCount, isRecorded]
    rw [hcnt]
    exact cookiesFresh_peerDeath m n peer hinv

theorem recordedCount_cons (op : Op) (ops : List Op) :
    recordedCount (op :: ops) = recordedCount [op] + recordedCount ops := by
  unfold recordedCount
  rw [show op :: ops = [op] ++ ops from rfl, List.countP_append]

theorem cookiesFresh_run (ops : List Op) (m : Manager) (n : Nat) (hinv : CookiesFresh m n)
    (hn : n + recordedCount ops ≤ 2 ^ 32) :
    CookiesFresh (run m ops) (n + recordedCount ops) := by
  induction ops generalizing m n with
  | nil => simpa [run, recordedCount] using hinv
  | cons op rest ih =>
    rw [recordedCount_cons] at hn ⊢
    have h1 := cookiesFresh_step m n op hinv (by omega)
    have h2 := ih (step m op) (n + recordedCount [op]) h1 (by omega)
    rw [← Nat.add_assoc]
    exact h2

theorem cookiesFresh_initialHub (a b c : Bool) : CookiesFresh (initialHub a b c) 0 := by
  refine ⟨rfl, ?_, ?_⟩
  · simp [initialHub]
  · intro inh hin
    simp [initialHub] at hin


theorem run_cons (m : Manager) (op : Op) (ops : List Op) :
    run m (op :: ops) = run (step m op) ops := rfl

theorem run_append (m : Manager) (xs ys : List Op) :
    run m (xs ++ ys) = run (run m xs) ys := by
  unfold run
  rw [List.foldl_append]

/-- With an accurate bookkeeping invariant, a run stores the inhibitors of the start
state that no operation of the run ends, followed by the survivors of the run. -/
theorem run_inhibitors_eq (ops : List Op) (m : Manager) (n : Nat) (hinv : CookiesFresh m n)
    (hn : n + recordedCount ops ≤ 2 ^ 32) :
    (run m ops).Screensaver.Inhibitors
    = m.Screensaver.Inhibitors.filter (fun inh => !ops.any (cancels inh)) ++ survivors m ops := by
  induction ops generalizing m n with
  | nil => simp [run, survivors]
  | cons op rest ih =>
    rw [recordedCount_cons] at hn
    have h1 := cookiesFresh_step m n op hinv (by omega)
    have h2 := ih (step m op) (n + recordedCount [op]) h1 (by omega)
    rw [run_cons, h2]
    cases op with
    | inhibit sender appName reason now =>
      by_cases h : isRecorded (Op.inhibit sender appName reason now) = true
      · have hl : (step m (Op.inhibit sender appName reason now)).Screensaver.Inhibitors
            = m.Screensaver.Inhibitors ++ [newInhibitor m sender appName reason now] := by
          show (Inhibit m sender appName reason now).manager.Screensaver.Inhibitors = _
          rw [Inhibit_recorded_manager m sender appName reason now h]
        rw [hl, List.filter_append]
        simp only [survivors, h, Bool.true_and, List.any_cons, cancels, Bool.false_or,
          List.append_assoc]
        congr 1
        by_cases hc : rest.any (cancels (newInhibitor m sender appName reason now)) = true
        · simp [hc]
        · simp [hc]
      · have h0 : isRecorded (Op.inhibit sender appName reason now) = false := by simpa using h
        simp [survivors, h0, cancels, step_not_recorded_inhibit m sender appName reason now h0]
    | unInhibit sender cookie =>
      have hl : (step m (Op.unInhibit sender cookie)).Screensaver.Inhibitors
          = m.Screensaver.Inhibitors.filter (fun inh => decide (inh.Cookie ≠ cookie)) :=
        UnInhibit_inhibitors m sender cookie hinv.2.1
      rw [hl, List.filter_filter]
      simp only [survivors, List.nil_append, List.any_cons, cancels]
      congr 1
      apply List.filter_congr
      intro inh _
      by_cases hc : inh.Cookie = cookie
      · simp [hc]
      · have hc1 : ¬ cookie = inh.Cookie := fun e => hc e.symm
        simp [hc, hc1]
    | peerDeath peer =>
      have hl : (step m (Op.peerDeath peer)).Screensaver.Inhibitors
          = m.Screensaver.Inhibitors.filter (fun inh => decide (inh.Peer ≠ peer)) :=
        removeInhibitorsByPeer_inhibitors m peer
      rw [hl, List.filter_filter]
      simp only [survivors, List.nil_append, List.any_cons, cancels]
      congr 1
      apply List.filter_congr
      intro inh _
      by_cases hc : inh.Peer = peer
      · simp [hc]
      · have hc1 : ¬ peer = inh.Peer := fun e => hc e.symm
        simp [hc, hc1]

/-- No survivor of a run that ends with `UnInhibit(cookie)` carries that cookie. -/
theorem survivors_unInhibit_last (pre : List Op) (m : Manager) (sender : String) (cookie : Nat) :
    ∀ inh ∈ survivors m (pre ++ [Op.unInhibit sender cookie]), inh.Cookie ≠ cookie := by
  induction pre generalizing m with
  | nil => intro inh hin; simp [survivors] at hin
  | cons op rest ih =>
    intro inh hin
    rw [List.cons_append] at hin
    unfold survivors at hin
    rcases List.mem_append.mp hin with h | h
    · cases op with
      | inhibit s a r t =>
        simp only at h
        split at h
        · rename_i hcond
          rw [List.mem_singleton] at h
          simp only [Bool.and_eq_true, Bool.not_eq_true', List.any_append, List.any_cons,
            List.any_nil, Bool.or_false, Bool.or_eq_false_iff, cancels, beq_eq_false_iff_ne,
            ne_eq] at hcond
          rw [h]
          exact fun e => hcond.2.2 e.symm
        · simp at h
      | unInhibit s c => simp at h
      | peerDeath p => simp at h
    · exact ih (step m op) inh h

/-- One round of `churn` on a hub that stores nothing of the peer and whose `Inhibited`
flag is accurate only advances the counter. -/
theorem churn_round (m : Manager) (peer : String)
    (hp : ∀ inh ∈ m.Screensaver.Inhibitors, inh.Peer ≠ peer)
    (hflag : m.Screensaver.Inhibited = decide (m.Screensaver.Inhibitors.length > 0)) :
    step (step m (Op.inhibit peer "mpv" "playing video" 0)) (Op.peerDeath peer)
    = { m with screensaverCookieCounter := (m.screensaverCookieCounter + 1) % 2 ^ 32 } := by
  have hrec : isRecorded (Op.inhibit peer "mpv" "playing video" 0) = true := by
    show (("mpv" != "") && ("playing video" != "") && !isAudioOnly "playing video") = true
    decide
  have h1 : step m (Op.inhibit peer "mpv" "playing video" 0)
      = (Inhibit m peer "mpv" "playing video" 0).manager := rfl
  rw [h1, Inhibit_recorded_manager m peer "mpv" "playing video" 0 hrec]
  show (removeInhibitorsByPeer _ peer).1 = _
  have hkeep : m.Screensaver.Inhibitors.filter (fun inh => decide (inh.Peer ≠ peer))
      = m.Screensaver.Inhibitors := by
    rw [List.filter_eq_self]
    intro a ha
    simpa using hp a ha
  have hdrop : m.Screensaver.Inhibitors.filter (fun inh => decide (inh.Peer = peer)) = [] := by
    rw [List.filter_eq_nil_iff]
    intro a ha
    simpa using hp a ha
  have hnew : (newInhibitor m peer "mpv" "playing video" 0).Peer = peer := rfl
  unfold removeInhibitorsByPeer
  simp only [splitByPeer_eq, List.filter_append, hkeep, hdrop, List.filter_singleton, hnew]
  simp [newInhibitor, ← hflag]

theorem run_churn (n : Nat) (m : Manager) (peer : String)
    (hp : ∀ inh ∈ m.Screensaver.Inhibitors, inh.Peer ≠ peer)
    (hflag : m.Screensaver.Inhibited = decide (m.Screensaver.Inhibitors.length > 0))
    (hlt : m.screensaverCookieCounter < 2 ^ 32) :
    run m (churn peer n)
    = { m with screensaverCookieCounter := (m.screensaverCookieCounter + n) % 2 ^ 32 } := by
  induction n generalizing m with
  | zero =>
    have h0 : (m.screensaverCookieCounter + 0) % 2 ^ 32 = m.screensaverCookieCounter := by
      omega
    rw [h0]
    rfl
  | succ k ih =>
    have hunf : churn peer (k + 1)
        = Op.inhibit peer "mpv" "playing video" 0 :: Op.peerDeath peer :: churn peer k := rfl
    rw [hunf, run_cons, run_cons, churn_round m peer hp hflag]
    have hlt1 : (m.screensaverCookieCounter + 1) % 2 ^ 32 < 2 ^ 32 := by omega
    have hih := ih
      { m with screensaverCookieCounter := (m.screensaverCookieCounter + 1) % 2 ^ 32 }
      hp hflag hlt1
    rw [hih]
    have harith : ((m.screensaverCookieCounter + 1) % 2 ^ 32 + k) % 2 ^ 32
        = (m.screensaverCookieCounter + (k + 1)) % 2 ^ 32 := by omega
    simp only [harith]

/-- The state `wrapRun` leads to: two stored inhibitors, both with cookie 1. -/
theorem run_wrapRun (a b c : Bool) :
    run (initialHub a b c) wrapRun
    = { initialHub a b c with
        screensaverCookieCounter := 1
        Screensaver :=
          { Available := true, Active := false, Inhibited := true
            Inhibitors :=
              [{ Cookie := 1, AppName := "mpv", Reason := "playing video", Peer := ":1.7",
                 StartTime := 0 },
               { Cookie := 1, AppName := "vlc", Reason := "movie", Peer := ":1.8",
                 StartTime := 0 }] } } := by
  have h1 : step (initialHub a b c) (Op.inhibit ":1.7" "mpv" "playing video" 0)
      = { initialHub a b c with
          screensaverCookieCounter := 1
          Screensaver :=
            { Available := true, Active := false, Inhibited := true
              Inhibitors :=
                [{ Cookie := 1, AppName := "mpv", Reason := "playing video", Peer := ":1.7",
                   StartTime := 0 }] } } := by
    cases a <;> cases b <;> cases c <;> decide
  have hp : ∀ inh ∈ ([⟨1, "mpv", "playing video", ":1.7", 0⟩] : List ScreensaverInhibitor),
      inh.Peer ≠ ":1.9" := by decide
  unfold wrapRun
  rw [run_cons, run_append, h1, run_churn (2 ^ 32 - 1) _ ":1.9" hp rfl
    (by show 1 < 2 ^ 32; norm_num)]
  have hc : (1 + (2 ^ 32 - 1)) % 2 ^ 32 = 0 := by norm_num
  simp only [hc]
  cases a <;> cases b <;> cases c <;> decide

/-! ## The claims -/

/-- C1 (refuted as stated). After `wrapRun` followed by `UnInhibit(1)` the hub still
stores the inhibitor of peer `:1.8`, whose cookie 1 was passed to that `UnInhibit`; so
the stored inhibitors are not the inhibitions whose cookie was not passed to a later
`UnInhibit` and whose peer did not die. -/
theorem inhibitor_accounting_fails_after_wrap :
    ¬ ((↑(run (initialHub true true true)
            (wrapRun ++ [Op.unInhibit ":1.7" 1])).Screensaver.Inhibitors :
          Multiset ScreensaverInhibitor)
        = ↑(survivors (initialHub true true true) (wrapRun ++ [Op.unInhibit ":1.7" 1]))) := by
  intro heq
  have hstored : (run (initialHub true true true)
      (wrapRun ++ [Op.unInhibit ":1.7" 1])).Screensaver.Inhibitors
      = [{ Cookie := 1, AppName := "vlc", Reason := "movie", Peer := ":1.8",
           StartTime := 0 }] := by
    rw [run_append, run_wrapRun]
    decide
  rw [hstored] at heq
  have hmem : (⟨1, "vlc", "movie", ":1.8", 0⟩ : ScreensaverInhibitor)
      ∈ survivors (initialHub true true true) (wrapRun ++ [Op.unInhibit ":1.7" 1]) := by
    rw [← Multiset.mem_coe, ← heq]
    simp
  exact survivors_unInhibit_last wrapRun _ ":1.7" 1 _ hmem rfl

/-- C1 (amended). For every run of `Inhibit`, `UnInhibit` and peer-death operations
from the initial hub in which at most `2 ^ 32` `Inhibit` calls are recorded, the stored
inhibitor list, as a multiset, is exactly the inhibitions recorded by an accepted,
non-filtered `Inhibit` whose cookie was not passed to a later `UnInhibit` and whose
peer did not die later. -/
theorem inhibitor_accounting (a b c : Bool) (ops : List Op)
    (hn : recordedCount ops ≤ 2 ^ 32) :
    (↑(run (initialHub a b c) ops).Screensaver.Inhibitors : Multiset ScreensaverInhibitor)
    = ↑(survivors (initialHub a b c) ops) := by
  have h := run_inhibitors_eq ops (initialHub a b c) 0 (cookiesFresh_initialHub a b c)
    (by omega)
  rw [h]
  simp [initialHub]

/-- The amended C1 on a run with two filtered reasons, `audio playback` and
`AUDİO playback` (its U+0130 is lowered to `i`), and the recorded reason
`audio and VİDEO`: four calls are recorded and two inhibitors are left. -/
theorem inhibitor_accounting_witness :
    recordedCount
        [Op.inhibit ":1.42" "/usr/bin/mpv" "playing video" 10,
         Op.inhibit ":1.42" "mpv" "audio playback" 11,
         Op.inhibit ":1.50" "vlc" "movie" 12,
         Op.inhibit ":1.51" "firefox" "video call" 13,
         Op.inhibit ":1.60" "vlc" "audio and VİDEO" 14,
         Op.inhibit ":1.61" "mpv" "AUDİO playback" 15,
         Op.unInhibit ":1.51" 3,
         Op.peerDeath ":1.42"] = 4
    ∧ (run (initialHub true true false)
        [Op.inhibit ":1.42" "/usr/bin/mpv" "playing video" 10,
         Op.inhibit ":1.42" "mpv" "audio playback" 11,
         Op.inhibit ":1.50" "vlc" "movie" 12,
         Op.inhibit ":1.51" "firefox" "video call" 13,
         Op.inhibit ":1.60" "vlc" "audio and VİDEO" 14,
         Op.inhibit ":1.61" "mpv" "AUDİO playback" 15,
         Op.unInhibit ":1.51" 3,
         Op.peerDeath ":1.42"]).Screensaver.Inhibitors
      = [⟨2, "vlc", "movie", ":1.50", 12⟩, ⟨4, "vlc", "audio and VİDEO", ":1.60", 14⟩]
    ∧ (↑(run (initialHub true true false)
          [Op.inhibit ":1.42" "/usr/bin/mpv" "playing video" 10,
         Op.inhibit ":1.42" "mpv" "audio playback" 11,
         Op.inhibit ":1.50" "vlc" "movie" 12,
         Op.inhibit ":1.51" "firefox" "video call" 13,
         Op.inhibit ":1.60" "vlc" "audio and VİDEO" 14,
         Op.inhibit ":1.61" "mpv" "AUDİO playback" 15,
         Op.unInhibit ":1.51" 3,
         Op.peerDeath ":1.42"]).Screensaver.Inhibitors : Multiset ScreensaverInhibitor)
      = ↑(survivors (initialHub true true false)
          [Op.inhibit ":1.42" "/usr/bin/mpv" "playing video" 10,
         Op.inhibit ":1.42" "mpv" "audio playback" 11,
         Op.inhibit ":1.50" "vlc" "movie" 12,
         Op.inhibit ":1.51" "firefox" "video call" 13,
         Op.inhibit ":1.60" "vlc" "audio and VİDEO" 14,
         Op.inhibit ":1.61" "mpv" "AUDİO playback" 15,
         Op.unInhibit ":1.51" 3,
         Op.peerDeath ":1.42"]) :=
  ⟨by decide, by decide, inhibitor_accounting true true false _ (by decide)⟩

/-- C2 (refuted as stated). The state reached by `wrapRun` from the initial hub stores
two inhibitors with the same cookie 1: the 32-bit counter has wrapped around while the
first inhibitor was still held. -/
theorem cookie_collision_after_wrap :
    ¬ ((run (initialHub true true true) wrapRun).Screensaver.Inhibitors.map
        (fun inh => inh.Cookie)).Nodup := by
  rw [run_wrapRun]
  decide

/-- C2 (amended). In every state reachable from the initial hub (no inhibitors, cookie
counter 0) by a run of `Inhibit`, `UnInhibit` and peer-death operations in which at most
`2 ^ 32` `Inhibit` calls are recorded, no two stored inhibitors have the same cookie;
and every recorded `Inhibit` returns, stores and leaves in the counter the 32-bit
counter incremented by one. -/
theorem cookies_unique_before_wrap (a b c : Bool) (ops : List Op)
    (hn : recordedCount ops ≤ 2 ^ 32) :
    ((run (initialHub a b c) ops).Screensaver.Inhibitors.map (fun inh => inh.Cookie)).Nodup
    ∧ ∀ (m : Manager) (sender appName reason : String) (now : Int),
        isRecorded (Op.inhibit sender appName reason now) = true →
        (Inhibit m sender appName reason now).cookie = (m.screensaverCookieCounter + 1) % 2 ^ 32
        ∧ (Inhibit m sender appName reason now).manager.screensaverCookieCounter
            = (m.screensaverCookieCounter + 1) % 2 ^ 32
        ∧ (Inhibit m sender appName reason now).manager.Screensaver.Inhibitors.getLast?
            = some (newInhibitor m sender appName reason now)
        ∧ (newInhibitor m sender appName reason now).Cookie
            = (m.screensaverCookieCounter + 1) % 2 ^ 32 := by
  refine ⟨?_, ?_⟩
  · have h := cookiesFresh_run ops (initialHub a b c) 0 (cookiesFresh_initialHub a b c)
      (by omega)
    exact h.2.1
  · intro m sender appName reason now hrec
    have hm := Inhibit_recorded_manager m sender appName reason now hrec
    refine ⟨?_, ?_, ?_, rfl⟩
    · simp only [isRecorded, Bool.and_eq_true, bne_iff_ne, ne_eq, Bool.not_eq_true'] at hrec
      obtain ⟨⟨h1, h2⟩, h3⟩ := hrec
      simp [Inhibit, h1, h2, h3, newInhibitor]
    · rw [hm]
      rfl
    · rw [hm]
      simp

theorem cookies_unique_before_wrap_witness :
    recordedCount
        [Op.inhibit ":1.42" "mpv" "playing video" 10,
         Op.inhibit ":1.50" "vlc" "movie" 12,
         Op.unInhibit ":1.42" 1,
         Op.inhibit ":1.51" "firefox" "video call" 13] ≤ 2 ^ 32
    ∧ ((run (initialHub true false true)
          [Op.inhibit ":1.42" "mpv" "playing video" 10,
           Op.inhibit ":1.50" "vlc" "movie" 12,
           Op.unInhibit ":1.42" 1,
           Op.inhibit ":1.51" "firefox" "video call" 13]).Screensaver.Inhibitors.map
        (fun inh => inh.Cookie)).Nodup :=
  ⟨by decide, (cookies_unique_before_wrap true false true _ (by decide)).1⟩

/-- C3 (refuted as stated). The reason `audio VIDEO` contains `audio` and does not
contain `video`, yet `Inhibit` records it and returns cookie 1: the filter compares the
lower-cased reason. -/
theorem audio_filter_ignores_case_counterexample :
    "player" ≠ ""
    ∧ strContains "audio VIDEO" "audio" = true
    ∧ strContains "audio VIDEO" "video" = false
    ∧ (Inhibit (initialHub true true true) ":1.5" "player" "audio VIDEO" 0).cookie = 1
    ∧ (Inhibit (initialHub true true true) ":1.5" "player" "audio VIDEO" 0).manager
        ≠ initialHub true true true := by
  decide

/-- C3 (amended). For every non-empty application name and every reason whose
lower-cased form contains `audio` and does not contain `video`, `Inhibit` returns cookie 0
with no error and leaves the whole hub state (inhibitor list, `Inhibited` flag, cookie
counter) unchanged, notifying nobody. -/
theorem audio_only_inhibit_filtered (m : Manager) (sender appName reason : String) (now : Int)
    (happ : appName ≠ "")
    (haudio : strContains (strToLower reason) "audio" = true)
    (hvideo : strContains (strToLower reason) "video" = false) :
    (Inhibit m sender appName reason now).cookie = 0
    ∧ (Inhibit m sender appName reason now).err = none
    ∧ (Inhibit m sender appName reason now).manager = m
    ∧ (Inhibit m sender appName reason now).effects = [] := by
  have hreason : reason ≠ "" := by
    intro h
    rw [h] at haudio
    exact absurd haudio (by decide)
  have hfilter : isAudioOnly reason = true := by
    simp [isAudioOnly, haudio, hvideo]
  simp [Inhibit, happ, hreason, hfilter]

/-- The amended C3 on the reason `Playing AUDIO stream`, and on `AUDİO playback`, whose
capital I with dot above (U+0130) `strings.ToLower` maps to `i`: both are filtered. The
reason `audio and VİDEO` has the lower-cased form `audio and video` and is recorded. -/
theorem audio_only_inhibit_filtered_witness :
    ((Inhibit (initialHub true true true) ":1.5" "player" "Playing AUDIO stream" 7).cookie = 0
      ∧ (Inhibit (initialHub true true true) ":1.5" "player" "Playing AUDIO stream" 7).err = none
      ∧ (Inhibit (initialHub true true true) ":1.5" "player" "Playing AUDIO stream" 7).manager
          = initialHub true true true
      ∧ (Inhibit (initialHub true true true) ":1.5" "player" "Playing AUDIO stream" 7).effects
          = [])
    ∧ (Inhibit (initialHub true true true) ":1.5" "player" "AUDİO playback" 7).cookie = 0
    ∧ strToLower "audio and VİDEO" = "audio and video"
    ∧ (Inhibit (initialHub true true true) ":1.5" "player" "audio and VİDEO" 7).cookie = 1 :=
  ⟨audio_only_inhibit_filtered (initialHub true true true) ":1.5" "player"
      "Playing AUDIO stream" 7 (by decide) (by decide) (by decide),
    (audio_only_inhibit_filtered (initialHub true true true) ":1.5" "player"
      "AUDİO playback" 7 (by decide) (by decide) (by decide)).1,
    by decide, by decide⟩

/-- C4. `Inhibit` with an empty application name or an empty reason fails with
`org.freedesktop.DBus.Error.InvalidArgs`, returns cookie 0 and leaves the hub state
unchanged (no effect either); with a non-empty application name and a non-empty reason
it returns no error. -/
theorem inhibit_invalid_args (m : Manager) (sender appName reason : String) (now : Int) :
    ((appName = "" ∨ reason = "") →
      (∃ body, (Inhibit m sender appName reason now).err
          = some ⟨"org.freedesktop.DBus.Error.InvalidArgs", body⟩)
      ∧ (Inhibit m sender appName reason now).cookie = 0
      ∧ (Inhibit m sender appName reason now).manager = m
      ∧ (Inhibit m sender appName reason now).effects = [])
    ∧ ((appName ≠ "" ∧ reason ≠ "") → (Inhibit m sender appName reason now).err = none) := by
  refine ⟨?_, ?_⟩
  · intro h
    by_cases h1 : appName = ""
    · simp [Inhibit, h1]
    · have h2 : reason = "" := h.resolve_left h1
      simp [Inhibit, h1, h2]
  · rintro ⟨h1, h2⟩
    by_cases h3 : isAudioOnly reason = true
    · simp [Inhibit, h1, h2, h3]
    · simp [Inhibit, h1, h2, h3]

theorem inhibit_invalid_args_witness :
    ((Inhibit (initialHub true true true) ":1.5" "" "movie" 3).err
        = some ⟨"org.freedesktop.DBus.Error.InvalidArgs", ["application name required"]⟩
      ∧ (Inhibit (initialHub true true true) ":1.5" "" "movie" 3).manager
        = initialHub true true true)
    ∧ ((Inhibit (initialHub true true true) ":1.5" "vlc" "" 3).err
        = some ⟨"org.freedesktop.DBus.Error.InvalidArgs", ["reason required"]⟩
      ∧ (Inhibit (initialHub true true true) ":1.5" "vlc" "" 3).cookie = 0)
    ∧ (Inhibit (initialHub true true true) ":1.5" "vlc" "movie" 3).err = none := by
  have h1 := (inhibit_invalid_args (initialHub true true true) ":1.5" "" "movie" 3).1
    (Or.inl rfl)
  have h2 := (inhibit_invalid_args (initialHub true true true) ":1.5" "vlc" "" 3).1
    (Or.inr rfl)
  have h3 := (inhibit_invalid_args (initialHub true true true) ":1.5" "vlc" "movie" 3).2
    ⟨by decide, by decide⟩
  exact ⟨⟨by decide, h1.2.2.1⟩, ⟨by decide, h2.2.1⟩, h3⟩

/-- C5 (refuted as stated). On a manager without session connection (the managers of
`screensaver_test.go`), `SetScreenLockActive(true)` changes the flag from false to true
and notifies the subscribers, but emits no `ActiveChanged`. -/
theorem active_change_without_emit :
    (initialHub false false false).Screensaver.Active ≠ true
    ∧ (SetScreenLockActive (initialHub false false false) true).1.Screensaver.Active = true
    ∧ (SetScreenLockActive (initialHub false false false) true).2 = [Effect.notify]
    ∧ (SetScreenLockActive (initialHub false false false) true).2.any Effect.isEmit = false := by
  decide

/-- C5 (amended). `SetScreenLockActive(a)`, which is what `SetActive(a)` and `Lock()`
(with `a = true`) run, leaves the `Active` flag equal to `a`, so `GetActive` returns `a`.
It notifies the subscribers exactly once when the flag's previous value differed from `a`
and has no effect at all otherwise. It emits `ActiveChanged` if and only if the previous
value differed and the manager has a session connection and at least one claimed name;
for either value of `a`, a change emits `ActiveChanged(a)` exactly once on each path of
each claimed name and nothing else, followed by the one notification. Calling it with
`true` twice on an inactive hub emits `ActiveChanged(true)` once on each path of each
claimed name and notifies once. -/
theorem set_screen_lock_active_spec (m : Manager) (a : Bool) :
    (SetScreenLockActive m a).1.Screensaver.Active = a
    ∧ GetActive (SetScreenLockActive m a).1 = a
    ∧ SetActive m a = SetScreenLockActive m a
    ∧ Lock m = SetScreenLockActive m true
    ∧ (SetScreenLockActive m a).2.count Effect.notify
        = (if m.Screensaver.Active = a then 0 else 1)
    ∧ (m.Screensaver.Active = a → (SetScreenLockActive m a).2 = [])
    ∧ ((SetScreenLockActive m a).2.any Effect.isEmit = true
        ↔ (m.Screensaver.Active ≠ a ∧ m.sessionConn = true
            ∧ (m.screensaverFreedesktopClaimed = true ∨ m.screensaverGnomeClaimed = true)))
    ∧ (∀ path member v,
        (SetScreenLockActive m a).2.count (Effect.emit path member v)
          = (if m.Screensaver.Active ≠ a ∧ v = a ∧ m.sessionConn = true ∧
                ((m.screensaverFreedesktopClaimed = true ∧
                    member = "org.freedesktop.ScreenSaver.ActiveChanged" ∧
                    (path = "/ScreenSaver" ∨ path = "/org/freedesktop/ScreenSaver"))
                 ∨ (m.screensaverGnomeClaimed = true ∧
                    member = "org.gnome.ScreenSaver.ActiveChanged" ∧
                    path = "/org/gnome/ScreenSaver"))
             then 1 else 0))
    ∧ (m.Screensaver.Active ≠ a →
        (SetScreenLockActive m a).2
          = (if m.sessionConn = true then
              (if m.screensaverFreedesktopClaimed = true then
                [Effect.emit "/ScreenSaver" "org.freedesktop.ScreenSaver.ActiveChanged" a,
                 Effect.emit "/org/freedesktop/ScreenSaver"
                   "org.freedesktop.ScreenSaver.ActiveChanged" a]
               else [])
              ++ (if m.screensaverGnomeClaimed = true then
                [Effect.emit "/org/gnome/ScreenSaver" "org.gnome.ScreenSaver.ActiveChanged" a]
               else [])
             else [])
            ++ [Effect.notify])
    ∧ (m.Screensaver.Active = false →
        ∀ path member,
          ((SetScreenLockActive m true).2
            ++ (SetScreenLockActive (SetScreenLockActive m true).1 true).2).count
              (Effect.emit path member true)
          = (if m.sessionConn = true ∧
                ((m.screensaverFreedesktopClaimed = true ∧
                    member = "org.freedesktop.ScreenSaver.ActiveChanged" ∧
                    (path = "/ScreenSaver" ∨ path = "/org/freedesktop/ScreenSaver"))
                 ∨ (m.screensaverGnomeClaimed = true ∧
                    member = "org.gnome.ScreenSaver.ActiveChanged" ∧
                    path = "/org/gnome/ScreenSaver"))
             then 1 else 0))
    ∧ (m.Screensaver.Active = false →
        ((SetScreenLockActive m true).2
          ++ (SetScreenLockActive (SetScreenLockActive m true).1 true).2).count Effect.notify
        = 1) := by
  obtain ⟨⟨av, act, inhd, inhs⟩, ctr, conn, fd, gn⟩ := m
  refine ⟨?_, ?_, rfl, rfl, ?_, ?_, ?_, ?_, ?_, ?_, ?_⟩
  · cases act <;> cases a <;> rfl
  · cases act <;> cases a <;> rfl
  · cases act <;> cases a <;> cases conn <;> cases fd <;> cases gn <;>
      simp [SetScreenLockActive, activeChangedEmits]
  · intro h
    simp only at h
    subst h
    simp [SetScreenLockActive]
  · cases act <;> cases a <;> cases conn <;> cases fd <;> cases gn <;>
      simp [SetScreenLockActive, activeChangedEmits, Effect.isEmit]
  · intro path member v
    cases act <;> cases a <;> cases v <;> cases conn <;> cases fd <;> cases gn <;>
      simp [SetScreenLockActive, activeChangedEmits, List.count_cons, dbusScreensaverPath,
        dbusScreensaverPath2, dbusScreensaverInterface, dbusGnomeScreensaverPath,
        dbusGnomeScreensaverInterface]
    all_goals
      by_cases hp1 : path = "/ScreenSaver" <;>
      by_cases hp2 : path = "/org/freedesktop/ScreenSaver" <;>
      by_cases hp3 : path = "/org/gnome/ScreenSaver" <;>
      by_cases hm1 : member = "org.freedesktop.ScreenSaver.ActiveChanged" <;>
      by_cases hm2 : member = "org.gnome.ScreenSaver.ActiveChanged" <;>
      simp_all [eq_comm]
  · intro h
    cases act <;> cases a <;> cases conn <;> cases fd <;> cases gn <;>
      simp_all [SetScreenLockActive, activeChangedEmits, dbusScreensaverPath,
        dbusScreensaverPath2, dbusScreensaverInterface, dbusGnomeScreensaverPath,
        dbusGnomeScreensaverInterface]
  · intro h path member
    simp only at h
    subst h
    cases conn <;> cases fd <;> cases gn <;>
      simp [SetScreenLockActive, activeChangedEmits, List.count_cons, dbusScreensaverPath,
        dbusScreensaverPath2, dbusScreensaverInterface, dbusGnomeScreensaverPath,
        dbusGnomeScreensaverInterface]
    all_goals
      by_cases hp1 : path = "/ScreenSaver" <;>
      by_cases hp2 : path = "/org/freedesktop/ScreenSaver" <;>
      by_cases hp3 : path = "/org/gnome/ScreenSaver" <;>
      by_cases hm1 : member = "org.freedesktop.ScreenSaver.ActiveChanged" <;>
      by_cases hm2 : member = "org.gnome.ScreenSaver.ActiveChanged" <;>
      simp_all [eq_comm]
  · intro h
    simp only at h
    subst h
    cases conn <;> cases fd <;> cases gn <;>
      simp [SetScreenLockActive, activeChangedEmits, List.count_cons]

/-- The amended C5 on three managers: with the freedesktop name claimed a change emits;
with a session connection and no claimed name a change to `false` only notifies; two
calls with `true` emit once on `/ScreenSaver`. -/
theorem set_screen_lock_active_spec_witness :
    (SetScreenLockActive (initialHub true true false) true).2.any Effect.isEmit = true
    ∧ (SetScreenLockActive (SetScreenLockActive (initialHub true false false) true).1 false).2
        = [Effect.notify]
    ∧ ((SetScreenLockActive (initialHub true true false) true).2
        ++ (SetScreenLockActive (SetScreenLockActive (initialHub true true false) true).1 true).2).count
          (Effect.emit "/ScreenSaver" "org.freedesktop.ScreenSaver.ActiveChanged" true) = 1 :=
  ⟨(set_screen_lock_active_spec (initialHub true true false) true).2.2.2.2.2.2.1.mpr
      ⟨by decide, rfl, Or.inl rfl⟩,
   ((set_screen_lock_active_spec
      (SetScreenLockActive (initialHub true false false) true).1 false).2.2.2.2.2.2.2.2.1
      (by decide)).trans (by decide),
   by
    have h := (set_screen_lock_active_spec (initialHub true true false) true).2.2.2.2.2.2.2.2.2.1
      rfl "/ScreenSaver" "org.freedesktop.ScreenSaver.ActiveChanged"
    rw [h]
    decide⟩

/-- C6. `removeInhibitorsByPeer(p)` leaves exactly the inhibitors whose `Peer` differs
from `p`, in their original order; it leaves the `Active` flag, the cookie counter and
the connection fields unchanged and emits no signal; it triggers exactly one subscriber
notification when some stored inhibitor belonged to `p` and none otherwise. A peer that
inhibited twice and then died has both inhibitors removed with one notification. -/
theorem remove_inhibitors_by_peer_spec (m : Manager) (peer : String) :
    (removeInhibitorsByPeer m peer).1.Screensaver.Inhibitors
      = m.Screensaver.Inhibitors.filter (fun inh => decide (inh.Peer ≠ peer))
    ∧ (removeInhibitorsByPeer m peer).1.Screensaver.Active = m.Screensaver.Active
    ∧ (removeInhibitorsByPeer m peer).1.screensaverCookieCounter = m.screensaverCookieCounter
    ∧ (removeInhibitorsByPeer m peer).2.any Effect.isEmit = false
    ∧ (removeInhibitorsByPeer m peer).2
        = (if m.Screensaver.Inhibitors.any (fun inh => decide (inh.Peer = peer)) then
            [Effect.notify] else [])
    ∧ (removeInhibitorsByPeer
          (run (initialHub true true true)
            [Op.inhibit ":1.42" "mpv" "playing video" 1, Op.inhibit ":1.42" "vlc" "movie" 2])
          ":1.42").1.Screensaver.Inhibitors = []
    ∧ (removeInhibitorsByPeer
          (run (initialHub true true true)
            [Op.inhibit ":1.42" "mpv" "playing video" 1, Op.inhibit ":1.42" "vlc" "movie" 2])
          ":1.42").2 = [Effect.notify] := by
  refine ⟨removeInhibitorsByPeer_inhibitors m peer, ?_, removeInhibitorsByPeer_counter m peer,
    ?_, ?_, by decide, by decide⟩
  · unfold removeInhibitorsByPeer
    by_cases h : (splitByPeer peer m.Screensaver.Inhibitors).2.length = 0 <;> simp [h]
  · unfold removeInhibitorsByPeer
    by_cases h : (splitByPeer peer m.Screensaver.Inhibitors).2.length = 0 <;>
      simp [h, Effect.isEmit]
  · unfold removeInhibitorsByPeer
    simp only [splitByPeer_eq]
    by_cases h : (m.Screensaver.Inhibitors.filter (fun inh => decide (inh.Peer = peer))).length = 0
    · have h0 := List.length_eq_zero.mp h
      rw [List.filter_eq_nil_iff] at h0
      have hany : m.Screensaver.Inhibitors.any (fun inh => decide (inh.Peer = peer)) = false := by
        rw [List.any_eq_false]
        intro x hx
        simpa using h0 x hx
      simp [h, hany]
    · have hne : m.Screensaver.Inhibitors.filter (fun inh => decide (inh.Peer = peer)) ≠ [] :=
        fun e => h (by rw [e]; rfl)
      obtain ⟨x, hx⟩ := List.exists_mem_of_ne_nil _ hne
      rw [List.mem_filter] at hx
      have hany : m.Screensaver.Inhibitors.any (fun inh => decide (inh.Peer = peer)) = true := by
        rw [List.any_eq_true]
        exact ⟨x, hx.1, hx.2⟩
      simp [h, hany]

end Freedesktop

namespace Network

open GoLib

/-! ## Helper lemmas on the agent -/

/-- When the scoping gate rejects, `GetSecrets` answers `NoSecrets` and does nothing else. -/
theorem GetSecrets_of_scopeRejects (env : Env) (b : NetworkManagerBackend) (conn : nmSettingMap)
    (path settingName : String) (hints : List String) (flags : Nat)
    (h : scopeRejects b (readConnTypeAndName conn).1 (readSSID conn) conn = true) :
    GetSecrets env (some b) conn path settingName hints flags
    = { backend := some b, out := none, err := some errNoSecrets, effects := [] } := by
  unfold GetSecrets
  simp only [h, if_true]

/-- When the gate lets a `vpn` request through and the fields are known, the answer is
the one of the cache stage whenever that stage answers. -/
theorem GetSecrets_vpn_of_cache (env : Env) (b : NetworkManagerBackend) (conn : nmSettingMap)
    (path : String) (hints : List String) (flags : Nat) (fields : List String)
    (r : GetSecretsResult)
    (hgate : scopeRejects b (readConnTypeAndName conn).1 (readSSID conn) conn = false)
    (hfields : resolveFields (some b) conn "vpn" (readConnTypeAndName conn).2.2
      (fieldsNeeded "vpn" hints conn) = FieldsOutcome.fields fields)
    (hcache : vpnCacheStage env b conn path "vpn"
      ((lookupStr conn "connection" "uuid").getD "") fields = some r) :
    GetSecrets env (some b) conn path "vpn" hints flags = r := by
  unfold GetSecrets
  simp only [hgate, hfields, hcache]
  simp

theorem cacheHit_some {α : Type} (c : α) (uuidOf : α → String) (connUuid : String)
    (h : uuidOf c = connUuid) : cacheHit (some c) uuidOf connUuid = some c := by
  simp [cacheHit, h]

theorem cacheHit_eq_none_of_no_match {α : Type} (slot : Option α) (uuidOf : α → String)
    (connUuid : String) (h : ¬ ∃ c, slot = some c ∧ uuidOf c = connUuid) :
    cacheHit slot uuidOf connUuid = none := by
  cases slot with
  | none => rfl
  | some c =>
    have hne : ¬ uuidOf c = connUuid := fun e => h ⟨c, rfl, e⟩
    simp [cacheHit, hne]

/-- A `vpn` request answered from the PKCS11 cache, or from the VPN-password cache,
leaves that cache slot empty. -/
theorem pin_and_password_caches_consumed (env : Env) (b : NetworkManagerBackend)
    (conn : nmSettingMap) (path : String) (hints : List String) (flags : Nat)
    (fields : List String)
    (hgate : scopeRejects b (readConnTypeAndName conn).1 (readSSID conn) conn = false)
    (hfields : resolveFields (some b) conn "vpn" (readConnTypeAndName conn).2.2
      (fieldsNeeded "vpn" hints conn) = FieldsOutcome.fields fields) :
    (∀ pin, fields = ["key_pass"] → b.cachedPKCS11PIN = some pin →
        pin.ConnectionUUID = (lookupStr conn "connection" "uuid").getD "" →
        (GetSecrets env (some b) conn path "vpn" hints flags).backend
          = some { b with cachedPKCS11PIN := none })
    ∧ (∀ creds, fields ≠ ["key_pass"] → b.cachedVPNCreds = some creds →
        creds.ConnectionUUID = (lookupStr conn "connection" "uuid").getD "" →
        ∃ b1, (GetSecrets env (some b) conn path "vpn" hints flags).backend = some b1
          ∧ b1.cachedVPNCreds = none) := by
  refine ⟨?_, ?_⟩
  · intro pin hf hslot huuid
    rw [GetSecrets_vpn_of_cache env b conn path hints flags fields _ hgate hfields
      (by
        unfold vpnCacheStage
        rw [if_pos hf, hslot, cacheHit_some pin _ _ huuid])]
  · intro creds hf hslot huuid
    rw [GetSecrets_vpn_of_cache env b conn path hints flags fields _ hgate hfields
      (by
        unfold vpnCacheStage
        rw [if_neg hf, hslot, cacheHit_some creds _ _ huuid])]
    exact ⟨_, rfl, rfl⟩

/-! ## The claims about the agent -/

/-- C7 (refuted as stated). While the backend is idle (connecting to nothing, its
connecting SSID empty), a `GetSecrets` request for the Wi-Fi network `Beta`, whose SSID
is not the backend's connecting SSID, is not answered with `NoSecrets`: the agent posts
a prompt and returns the secrets entered there. -/
theorem idle_agent_prompts_for_other_ssid :
    (readConnTypeAndName wifiBetaConn).1 = "802-11-wireless"
    ∧ readSSID wifiBetaConn ≠ idleBackend.state.ConnectingSSID
    ∧ (GetSecrets pskEnv (some idleBackend) wifiBetaConn "/settings/7"
        "802-11-wireless-security" [] 1).err = none
    ∧ (GetSecrets pskEnv (some idleBackend) wifiBetaConn "/settings/7"
        "802-11-wireless-security" [] 1).out
        = some [("802-11-wireless-security", [("psk", Variant.str "hunter2")])]
    ∧ (GetSecrets pskEnv (some idleBackend) wifiBetaConn "/settings/7"
        "802-11-wireless-security" [] 1).effects.any AgentEffect.isPrompt = true := by
  decide

/-- C7 (amended). For every `GetSecrets` request on an agent with a backend: if the
backend is connecting to a Wi-Fi network (`IsConnecting`) and the connection is Wi-Fi
with an SSID other than the connecting SSID, or the backend is connecting a VPN
(`IsConnectingVPN`) and the connection is a VPN (type `vpn` or `wireguard`) with a UUID
other than the connecting VPN UUID, then `GetSecrets` returns the `NoSecrets` error and
no secrets, posts no prompt, has no other effect and leaves the backend unchanged. -/
theorem scoping_gate_rejects_other_connection (env : Env) (b : NetworkManagerBackend)
    (conn : nmSettingMap) (path settingName : String) (hints : List String) (flags : Nat)
    (h : ((readConnTypeAndName conn).1 = "802-11-wireless"
            ∧ b.state.IsConnecting = true
            ∧ readSSID conn ≠ b.state.ConnectingSSID)
         ∨ (((readConnTypeAndName conn).1 = "vpn" ∨ (readConnTypeAndName conn).1 = "wireguard")
            ∧ b.state.IsConnectingVPN = true
            ∧ (lookupStr conn "connection" "uuid").getD "" ≠ b.state.ConnectingVPNUUID)) :
    (GetSecrets env (some b) conn path settingName hints flags).err = some errNoSecrets
    ∧ (GetSecrets env (some b) conn path settingName hints flags).out = none
    ∧ (GetSecrets env (some b) conn path settingName hints flags).effects = []
    ∧ (GetSecrets env (some b) conn path settingName hints flags).effects.any
        AgentEffect.isPrompt = false
    ∧ (GetSecrets env (some b) conn path settingName hints flags).backend = some b := by
  have hrej : scopeRejects b (readConnTypeAndName conn).1 (readSSID conn) conn = true := by
    unfold scopeRejects
    rcases h with ⟨h1, h2, h3⟩ | ⟨h1, h2, h3⟩
    · have h3' : ¬ b.state.ConnectingSSID = readSSID conn := fun e => h3 e.symm
      simp [h1, h2, h3']
    · have hw : ¬ (readConnTypeAndName conn).1 = "802-11-wireless" := by
        rcases h1 with h1 | h1 <;> rw [h1] <;> decide
      simp [hw, h1, h2, h3]
  rw [GetSecrets_of_scopeRejects env b conn path settingName hints flags hrej]
  simp

theorem scoping_gate_rejects_other_connection_witness :
    (GetSecrets pskEnv (some alphaBackend) wifiBetaConn "/settings/7"
        "802-11-wireless-security" [] 1).err = some errNoSecrets
    ∧ (GetSecrets pskEnv (some alphaBackend) wifiBetaConn "/settings/7"
        "802-11-wireless-security" [] 1).effects.any AgentEffect.isPrompt = false :=
  have h := scoping_gate_rejects_other_connection pskEnv alphaBackend wifiBetaConn "/settings/7"
    "802-11-wireless-security" [] 1 (Or.inl ⟨by decide, by decide, by decide⟩)
  ⟨h.1, h.2.2.2.1⟩

/-- C8 (refuted as stated). With a PKCS11 PIN, a VPN password and a GlobalProtect SAML
cookie all cached for the connection `U`, a `vpn` request for `U` with hint `password`
is answered with the cached VPN password, not with the cached SAML cookie. -/
theorem cached_password_beats_saml_cookie :
    (GetSecrets pskEnv (some allCachedBackend) gpUserConn "/settings/9" "vpn" ["password"] 0).out
      = some [("vpn", [("secrets", Variant.dict [("password", "pw")])])]
    ∧ (GetSecrets pskEnv (some allCachedBackend) gpUserConn "/settings/9" "vpn" ["password"] 0).out
      ≠ some (buildGPSamlSecretsResponse "vpn" "authcookie=abc" "vpn.example.com"
          "pin-sha256:ABCD") := by
  decide

/-- C8 (amended). When `GetSecrets` is called for setting `vpn` on an agent with a
backend, the request passes the scoping gate and asks for the fields `fields`, the caches
are consulted in the order PKCS11 PIN, VPN password, GlobalProtect SAML cookie: a PKCS11
PIN cached for the request's connection UUID is used when the fields are exactly
`key_pass`, whatever the other caches hold; otherwise a VPN password cached for that UUID
is used, whatever the SAML cache holds; and the SAML cookie cached for that UUID is used
only when neither of the two applies. -/
theorem cache_priority_order (env : Env) (b : NetworkManagerBackend) (conn : nmSettingMap)
    (path : String) (hints : List String) (flags : Nat) (fields : List String)
    (hgate : scopeRejects b (readConnTypeAndName conn).1 (readSSID conn) conn = false)
    (hfields : resolveFields (some b) conn "vpn" (readConnTypeAndName conn).2.2
      (fieldsNeeded "vpn" hints conn) = FieldsOutcome.fields fields) :
    (∀ pin, fields = ["key_pass"] → b.cachedPKCS11PIN = some pin →
        pin.ConnectionUUID = (lookupStr conn "connection" "uuid").getD "" →
        (GetSecrets env (some b) conn path "vpn" hints flags).out
          = some [("vpn", [("secrets", Variant.dict [("key_pass", pin.PIN)])])])
    ∧ (∀ creds,
        ¬ (fields = ["key_pass"] ∧ ∃ pin, b.cachedPKCS11PIN = some pin
            ∧ pin.ConnectionUUID = (lookupStr conn "connection" "uuid").getD "") →
        b.cachedVPNCreds = some creds →
        creds.ConnectionUUID = (lookupStr conn "connection" "uuid").getD "" →
        (GetSecrets env (some b) conn path "vpn" hints flags).out
          = some [("vpn", [("secrets", Variant.dict [("password", creds.Password)])])])
    ∧ (∀ saml,
        ¬ (fields = ["key_pass"] ∧ ∃ pin, b.cachedPKCS11PIN = some pin
            ∧ pin.ConnectionUUID = (lookupStr conn "connection" "uuid").getD "") →
        ¬ (∃ creds, b.cachedVPNCreds = some creds
            ∧ creds.ConnectionUUID = (lookupStr conn "connection" "uuid").getD "") →
        b.cachedGPSamlCookie = some saml →
        saml.ConnectionUUID = (lookupStr conn "connection" "uuid").getD "" →
        (GetSecrets env (some b) conn path "vpn" hints flags).out
          = some (buildGPSamlSecretsResponse "vpn" saml.Cookie saml.Host saml.Fingerprint)) := by
  have hpk : ∀ (h : ¬ (fields = ["key_pass"] ∧ ∃ pin, b.cachedPKCS11PIN = some pin
      ∧ pin.ConnectionUUID = (lookupStr conn "connection" "uuid").getD "")),
      (if fields = ["key_pass"] then
        cacheHit b.cachedPKCS11PIN (fun c => c.ConnectionUUID)
          ((lookupStr conn "connection" "uuid").getD "") else none) = none := by
    intro h
    by_cases hf : fields = ["key_pass"]
    · rw [if_pos hf]
      exact cacheHit_eq_none_of_no_match _ _ _ (fun hex => h ⟨hf, hex⟩)
    · rw [if_neg hf]
  refine ⟨?_, ?_, ?_⟩
  · intro pin hf hslot huuid
    rw [GetSecrets_vpn_of_cache env b conn path hints flags fields _ hgate hfields
      (by
        unfold vpnCacheStage
        rw [if_pos hf, hslot, cacheHit_some pin _ _ huuid])]
    rfl
  · intro creds hno hslot huuid
    rw [GetSecrets_vpn_of_cache env b conn path hints flags fields _ hgate hfields
      (by
        unfold vpnCacheStage
        rw [hpk hno, hslot, cacheHit_some creds _ _ huuid])]
    rfl
  · intro saml hno hnov hslot huuid
    rw [GetSecrets_vpn_of_cache env b conn path hints flags fields _ hgate hfields
      (by
        unfold vpnCacheStage
        rw [hpk hno, cacheHit_eq_none_of_no_match b.cachedVPNCreds _ _ hnov, hslot,
          cacheHit_some saml _ _ huuid])]

theorem cache_priority_order_witness :
    (GetSecrets pskEnv (some allCachedBackend) gpUserConn "/settings/9" "vpn" ["key_pass"] 0).out
      = some [("vpn", [("secrets", Variant.dict [("key_pass", "1234")])])]
    ∧ (GetSecrets pskEnv (some allCachedBackend) gpUserConn "/settings/9" "vpn" ["password"] 0).out
      = some [("vpn", [("secrets", Variant.dict [("password", "pw")])])]
    ∧ (GetSecrets pskEnv (some samlCachedBackend) gpUserConn "/settings/9" "vpn" ["password"] 0).out
      = some (buildGPSamlSecretsResponse "vpn" "authcookie=abc" "vpn.example.com"
          "pin-sha256:ABCD") :=
  ⟨(cache_priority_order pskEnv allCachedBackend gpUserConn "/settings/9" ["key_pass"] 0
      ["key_pass"] (by decide) (by decide)).1 ⟨"U", "1234"⟩ rfl rfl (by decide),
   (cache_priority_order pskEnv allCachedBackend gpUserConn "/settings/9" ["password"] 0
      ["password"] (by decide) (by decide)).2.1 ⟨"U", "pw", false⟩ (by decide) rfl (by decide),
   (cache_priority_order pskEnv samlCachedBackend gpUserConn "/settings/9" ["password"] 0
      ["password"] (by decide) (by decide)).2.2
      ⟨"U", "authcookie=abc", "vpn.example.com", "john", "pin-sha256:ABCD"⟩
      (by decide) (by simp [samlCachedBackend, vpnBackend, idleBackend]) rfl (by decide)⟩

/-- C9 (evaluation at the failing input). A `vpn` request for the connection `U`
answered from the PKCS11 cache, or from the VPN-password cache, empties that slot; but a
request answered from the GlobalProtect SAML cache leaves the cookie in its slot, and the
identical request repeated at once is answered from that cache again. -/
theorem saml_cookie_cache_not_consumed :
    (GetSecrets pskEnv (some allCachedBackend) gpUserConn "/settings/9" "vpn" ["key_pass"]
        0).backend = some { allCachedBackend with cachedPKCS11PIN := none }
    ∧ (GetSecrets pskEnv (some allCachedBackend) gpUserConn "/settings/9" "vpn" ["password"]
        0).backend = some { allCachedBackend with cachedVPNCreds := none }
    ∧ (GetSecrets pskEnv (some samlCachedBackend) gpSamlConn "/settings/9" "vpn" [] 0).out
        = some (buildGPSamlSecretsResponse "vpn" "authcookie=abc" "vpn.example.com"
            "pin-sha256:ABCD")
    ∧ (GetSecrets pskEnv (some samlCachedBackend) gpSamlConn "/settings/9" "vpn" [] 0).effects
        = []
    ∧ (GetSecrets pskEnv (some samlCachedBackend) gpSamlConn "/settings/9" "vpn" [] 0).backend
        = some samlCachedBackend
    ∧ samlCachedBackend.cachedGPSamlCookie ≠ none
    ∧ GetSecrets pskEnv
        (GetSecrets pskEnv (some samlCachedBackend) gpSamlConn "/settings/9" "vpn" [] 0).backend
        gpSamlConn "/settings/9" "vpn" [] 0
      = GetSecrets pskEnv (some samlCachedBackend) gpSamlConn "/settings/9" "vpn" [] 0 := by
  decide

/-- C10 (refuted as stated). For the openconnect GlobalProtect connection `gpUserConn`,
which has `protocol=gp`, no `authtype`, no PKCS11 certificate and a stored username,
`inferVPNFields` returns `password`, not `gp-saml`. -/
theorem gp_with_username_asks_password :
    strContains "org.freedesktop.NetworkManager.openconnect" "openconnect" = true
    ∧ (vpnData gpUserConn).map (fun d => dictGet d "protocol") = some "gp"
    ∧ (vpnData gpUserConn).map (fun d => d.lookup "authtype") = some none
    ∧ isPKCS11Auth gpUserConn "org.freedesktop.NetworkManager.openconnect" = false
    ∧ inferVPNFields gpUserConn "org.freedesktop.NetworkManager.openconnect" = ["password"] := by
  decide

/-- C10 (amended). For every openconnect VPN connection with data `protocol=gp` that is
not PKCS11 certificate auth, `inferVPNFields` returns exactly `gp-saml` whenever the data
has no `authtype` and no stored username, or has `saml-auth-method` equal to `REDIRECT`
or `POST`, whatever the other data keys (including a stored username) are. -/
theorem gp_saml_fields (conn : nmSettingMap) (vpnService : String)
    (dataMap : List (String × String))
    (hdata : vpnData conn = some dataMap)
    (hsvc : strContains vpnService "openconnect" = true)
    (hproto : dictGet dataMap "protocol" = "gp")
    (hnopk : ¬ (dictGet dataMap "authtype" = "cert"
      ∧ strStartsWith (dictGet dataMap "usercert") "pkcs11:" = true))
    (h : (dictGet dataMap "authtype" = "" ∧ dictGet dataMap "username" = "")
      ∨ dataMap.lookup "saml-auth-method" = some "REDIRECT"
      ∨ dataMap.lookup "saml-auth-method" = some "POST") :
    inferVPNFields conn vpnService = ["gp-saml"] := by
  have hneeds : needsExternalBrowserAuth (dictGet dataMap "protocol") (dictGet dataMap "authtype")
      (dictGet dataMap "username") dataMap = true := by
    unfold needsExternalBrowserAuth
    rcases h with ⟨h1, h2⟩ | h | h
    · cases hl : dataMap.lookup "saml-auth-method" with
      | none => simp [h1, h2, hproto]
      | some method =>
        by_cases hm : (method == "REDIRECT" || method == "POST") = true
        · simp [hm]
        · simp [hm, h1, h2, hproto]
    · simp [h]
    · simp [h]
  unfold inferVPNFields
  simp only [hdata, hsvc, if_true]
  rw [if_neg hnopk, if_pos ⟨hneeds, hproto⟩]

theorem gp_saml_fields_witness :
    inferVPNFields gpSamlConn "org.freedesktop.NetworkManager.openconnect" = ["gp-saml"] :=
  gp_saml_fields gpSamlConn "org.freedesktop.NetworkManager.openconnect"
    [("protocol", "gp"), ("gateway", "vpn.example.com"), ("username", "john"),
     ("saml-auth-method", "REDIRECT")]
    (by decide) (by decide) (by decide) (by decide) (Or.inr (Or.inl (by decide)))


/-- C11 (refuted as stated). The openvpn connection `openvpnTlsConn` falls under neither
the PKCS11 rule nor the GlobalProtect SAML rule and stores no username, yet
`inferVPNFields` returns `password` alone: for openvpn the username is asked for only
when `connection-type` is `password` or `password-tls`. -/
theorem openvpn_tls_asks_password_only :
    strContains "org.freedesktop.NetworkManager.openvpn" "openvpn" = true
    ∧ isPKCS11Auth openvpnTlsConn "org.freedesktop.NetworkManager.openvpn" = false
    ∧ (vpnData openvpnTlsConn).map (fun d => dictGet d "username") = some ""
    ∧ inferVPNFields openvpnTlsConn "org.freedesktop.NetworkManager.openvpn" = ["password"]
    ∧ inferVPNFields openvpnTlsConn "org.freedesktop.NetworkManager.openvpn"
        ≠ ["username", "password"] := by
  decide

/-- C11 (amended). For every VPN connection with a vpn data map: when the service is
openconnect and neither the PKCS11 rule nor the GlobalProtect SAML rule applies, or the
service is vpnc, l2tp or pptp (and neither openconnect nor openvpn), `inferVPNFields`
returns `username, password` when the data holds no non-empty username and `password`
when it holds one, whatever the other data keys are; when the service is openvpn (and
not openconnect) it returns `username, password` only when moreover `connection-type` is
`password` or `password-tls`, and `password` otherwise. -/
theorem infer_vpn_credentials (conn : nmSettingMap) (vpnService : String)
    (dataMap : List (String × String)) (hdata : vpnData conn = some dataMap) :
    (strContains vpnService "openconnect" = true →
      ¬ (dictGet dataMap "authtype" = "cert"
          ∧ strStartsWith (dictGet dataMap "usercert") "pkcs11:" = true) →
      ¬ (needsExternalBrowserAuth (dictGet dataMap "protocol") (dictGet dataMap "authtype")
            (dictGet dataMap "username") dataMap = true
          ∧ dictGet dataMap "protocol" = "gp") →
      inferVPNFields conn vpnService
        = if dictGet dataMap "username" = "" then ["username", "password"] else ["password"])
    ∧ (strContains vpnService "openconnect" = false →
      strContains vpnService "openvpn" = true →
      inferVPNFields conn vpnService
        = if (dictGet dataMap "connection-type" = "password"
              ∨ dictGet dataMap "connection-type" = "password-tls")
            ∧ dictGet dataMap "username" = "" then ["username", "password"]
          else ["password"])
    ∧ (strContains vpnService "openconnect" = false →
      strContains vpnService "openvpn" = false →
      (strContains vpnService "vpnc" = true ∨ strContains vpnService "l2tp" = true
        ∨ strContains vpnService "pptp" = true) →
      inferVPNFields conn vpnService
        = if dictGet dataMap "username" = "" then ["username", "password"] else ["password"]) := by
  refine ⟨?_, ?_, ?_⟩
  · intro hsvc hpk hsaml
    unfold inferVPNFields
    simp only [hdata, hsvc, if_true]
    rw [if_neg hpk, if_neg hsaml]
  · intro hoc hov
    unfold inferVPNFields
    simp only [hdata, hoc, hov, if_true]
    simp
  · intro hoc hov hsvc
    unfold inferVPNFields
    simp only [hdata, hoc, hov, if_true]
    simp [hsvc]

theorem infer_vpn_credentials_witness :
    inferVPNFields openvpnPasswordConn "org.freedesktop.NetworkManager.openvpn"
      = ["username", "password"]
    ∧ inferVPNFields gpUserConn "org.freedesktop.NetworkManager.pptp" = ["password"] := by
  have h1 := (infer_vpn_credentials openvpnPasswordConn "org.freedesktop.NetworkManager.openvpn"
    [("connection-type", "password")] (by decide)).2.1 (by decide) (by decide)
  have h2 := (infer_vpn_credentials gpUserConn "org.freedesktop.NetworkManager.pptp"
    [("protocol", "gp"), ("gateway", "vpn.example.com"), ("username", "john")]
    (by decide)).2.2 (by decide) (by decide) (Or.inr (Or.inr (by decide)))
  exact ⟨h1.trans (by decide), h2.trans (by decide)⟩

/-! ## The prompt stage of `GetSecrets` -/

theorem cancelCleanup_no_prompt (b : NetworkManagerBackend) (connType : String)
    (req : PromptRequest) : AgentEffect.prompt req ∉ (cancelCleanup b connType).2 := by
  unfold cancelCleanup
  intro h
  simp only [List.mem_append] at h
  rcases h with (h | h) | h
  · split at h <;> simp at h
  · split at h <;> simp at h
  · split at h <;> simp at h

theorem applyReply_effects (backend : Option NetworkManagerBackend) (reply : PromptReply)
    (path settingName connUuid : String) (req : PromptRequest) :
    AgentEffect.prompt req ∉ (applyReply backend reply path settingName connUuid).effects := by
  unfold applyReply
  intro h
  simp only at h
  split at h
  · split at h
    · split at h <;> simp at h
    · simp at h
  · simp at h

theorem vpnCacheStage_no_prompt (env : Env) (b : NetworkManagerBackend) (conn : nmSettingMap)
    (path settingName connUuid : String) (fields : List String) (r : GetSecretsResult)
    (h : vpnCacheStage env b conn path settingName connUuid fields = some r)
    (req : PromptRequest) : AgentEffect.prompt req ∉ r.effects := by
  unfold vpnCacheStage at h
  split at h
  · simp only [Option.some.injEq] at h
    rw [← h]; simp
  · split at h
    · simp only [Option.some.injEq] at h
      rw [← h]; simp
    · split at h
      · simp only [Option.some.injEq] at h
        rw [← h]; simp
      · split at h
        · simp only at h
          split at h
          · simp only [Option.some.injEq] at h
            rw [← h]; simp
          · split at h
            · simp only [Option.some.injEq] at h
              rw [← h]; simp
            · simp only [Option.some.injEq] at h
              rw [← h]; simp
        · simp at h

theorem promptStage_prompt_mem (env : Env) (backend : Option NetworkManagerBackend)
    (req0 req : PromptRequest) (path settingName connType connUuid : String)
    (h : AgentEffect.prompt req
      ∈ (promptStage env backend req0 path settingName connType connUuid).effects) :
    req = req0 := by
  unfold promptStage at h
  split at h
  · simpa using h
  · split at h
    · simp only [List.mem_cons, AgentEffect.prompt.injEq] at h
      rcases h with h | h
      · exact h
      · exfalso
        cases backend with
        | none => simp at h
        | some b => exact cancelCleanup_no_prompt b connType req h
    · simp only [List.mem_cons, AgentEffect.prompt.injEq] at h
      rcases h with h | h
      · exact h
      · exact absurd h (applyReply_effects backend _ path settingName connUuid req)

/-- Whenever `GetSecrets` posts a prompt, the posted request is the one built from the
resolved fields and the answer is the one of the prompt stage. -/
theorem GetSecrets_prompted (env : Env) (backend : Option NetworkManagerBackend)
    (conn : nmSettingMap) (path settingName : String) (hints : List String) (flags : Nat)
    (req : PromptRequest)
    (h : AgentEffect.prompt req
      ∈ (GetSecrets env backend conn path settingName hints flags).effects) :
    ∃ fields,
      resolveFields backend conn settingName (readConnTypeAndName conn).2.2
        (fieldsNeeded settingName hints conn) = FieldsOutcome.fields fields
      ∧ req = promptRequestOf env conn path settingName hints flags fields
      ∧ GetSecrets env backend conn path settingName hints flags
        = promptStage env backend req path settingName (readConnTypeAndName conn).1
            ((lookupStr conn "connection" "uuid").getD "") := by
  unfold GetSecrets at h ⊢
  simp only at h ⊢
  split at h
  · simp at h
  · rename_i hgate
    rw [if_neg hgate]
    cases hres : resolveFields backend conn settingName (readConnTypeAndName conn).2.2
        (fieldsNeeded settingName hints conn) with
    | reply o e =>
      rw [hres] at h
      simp at h
    | fields fields =>
      rw [hres] at h
      simp only at h ⊢
      refine ⟨fields, rfl, ?_⟩
      cases hb : (match backend with
             | some b =>
               if settingName = "vpn" then
                 vpnCacheStage env b conn path settingName
                   ((lookupStr conn "connection" "uuid").getD "") fields
               else none
             | none => none) with
      | some r =>
        rw [hb] at h
        simp only at h
        exfalso
        cases backend with
        | none => simp at hb
        | some b =>
          simp only at hb
          split at hb
          · exact vpnCacheStage_no_prompt env b conn path settingName _ fields r hb req h
          · simp at hb
      | none =>
        rw [hb] at h
        simp only at h
        have hreq := promptStage_prompt_mem env backend _ req path settingName _ _ h
        refine ⟨hreq, ?_⟩
        rw [hreq]

theorem infer8021xFields_eq (conn : nmSettingMap) :
    infer8021xFields conn
      = (if hasStoredIdentity conn = true then [] else ["identity"])
        ++ [if (eapMethods conn).head? = some "tls" then "private-key-password"
            else "password"] := by
  unfold infer8021xFields hasStoredIdentity eapMethods lookupStr
  cases hl : conn.lookup "802-1x" with
  | none => simp
  | some dot1x =>
    simp only
    have heap : ∀ (methods : List String),
        (methods.length > 0 ∧ methods.head? = some "tls") ↔ methods.head? = some "tls" := by
      intro methods
      constructor
      · exact fun h => h.2
      · intro h
        refine ⟨?_, h⟩
        cases methods with
        | nil => simp at h
        | cons a t => simp
    simp only [heap]
    have hident : ∀ o : Option Variant, (match o with
          | some (Variant.str id) => if id ≠ "" then ([] : List String) else ["identity"]
          | some _ => ["identity"]
          | none => ["identity"])
        = (if (match (match o with
                | some (Variant.str s) => some s
                | _ => none) with
              | some id => id != ""
              | none => false) = true then [] else ["identity"]) := by
      intro o
      cases o with
      | none => simp
      | some v =>
        cases v with
        | str id => by_cases hne : id = "" <;> simp [hne]
        | bytes b => simp
        | u32 n => simp
        | strs l => simp
        | dict m => simp
        | other => simp
    rw [hident]
    split_ifs <;> rfl

/-! ## The claims about field inference and reply shapes -/

/-- C12. For every VPN connection whose service name contains `openconnect` and whose
vpn data has `authtype=cert` and a `usercert` beginning with `pkcs11:`, `inferVPNFields`
returns exactly `key_pass`, whatever the protocol, username and `saml-auth-method` are;
`isPKCS11Auth` is true, the prompt reason for setting `vpn` is `pkcs11`, and every prompt
`GetSecrets` posts for that connection's `vpn` setting carries the reason `pkcs11`. -/
theorem pkcs11_rule (conn : nmSettingMap) (vpnService : String)
    (dataMap : List (String × String))
    (hdata : vpnData conn = some dataMap)
    (hsvc : strContains vpnService "openconnect" = true)
    (hauth : dictGet dataMap "authtype" = "cert")
    (hcert : strStartsWith (dictGet dataMap "usercert") "pkcs11:" = true) :
    inferVPNFields conn vpnService = ["key_pass"]
    ∧ isPKCS11Auth conn vpnService = true
    ∧ (∀ (env : Env) (connType ssid : String) (flags : Nat),
        promptReason env conn "vpn" connType ssid vpnService flags = "pkcs11")
    ∧ (∀ (env : Env) (backend : Option NetworkManagerBackend) (path : String)
        (hints : List String) (flags : Nat) (req : PromptRequest),
        (readConnTypeAndName conn).2.2 = vpnService →
        AgentEffect.prompt req ∈ (GetSecrets env backend conn path "vpn" hints flags).effects →
        req.Reason = "pkcs11") := by
  have hpk : isPKCS11Auth conn vpnService = true := by
    unfold isPKCS11Auth
    simp [hsvc, hdata, hauth, hcert]
  have hreason : ∀ (env : Env) (connType ssid : String) (flags : Nat),
      promptReason env conn "vpn" connType ssid vpnService flags = "pkcs11" := by
    intro env connType ssid flags
    unfold promptReason
    simp [hpk]
  refine ⟨?_, hpk, hreason, ?_⟩
  · unfold inferVPNFields
    simp only [hdata, hsvc, if_true]
    rw [if_pos ⟨hauth, hcert⟩]
  · intro env backend path hints flags req hsvc' hmem
    obtain ⟨fields, -, hreq, -⟩ := GetSecrets_prompted env backend conn path "vpn" hints flags
      req hmem
    rw [hreq]
    show promptReason env conn "vpn" _ _ _ flags = "pkcs11"
    rw [hsvc']
    exact hreason env _ _ flags

theorem pkcs11_rule_witness :
    inferVPNFields pkcs11Conn "org.freedesktop.NetworkManager.openconnect" = ["key_pass"]
    ∧ isPKCS11Auth pkcs11Conn "org.freedesktop.NetworkManager.openconnect" = true :=
  have h := pkcs11_rule pkcs11Conn "org.freedesktop.NetworkManager.openconnect"
    [("protocol", "gp"), ("authtype", "cert"), ("username", "john"),
     ("usercert", "pkcs11:model=PKCS%2315%20emulated;manufacturer=piv_II"),
     ("saml-auth-method", "REDIRECT")]
    (by decide) (by decide) (by decide) (by decide)
  ⟨h.1, h.2.1⟩

/-- C13. For setting `802-1x`, `fieldsNeeded` returns the hints unchanged when they are
non-empty. With empty hints the result is `identity`, present exactly when the
connection stores no non-empty 802.1X identity, followed by exactly one more field:
`private-key-password` when the first EAP method of the connection is `tls`, and
`password` for every other or missing EAP method. The inferred list is never empty. -/
theorem fields_needed_8021x (hints : List String) (conn : nmSettingMap) :
    (hints ≠ [] → fieldsNeeded "802-1x" hints conn = hints)
    ∧ fieldsNeeded "802-1x" [] conn
        = (if hasStoredIdentity conn = true then [] else ["identity"])
          ++ [if (eapMethods conn).head? = some "tls" then "private-key-password"
              else "password"]
    ∧ fieldsNeeded "802-1x" [] conn ≠ []
    ∧ ("identity" ∈ fieldsNeeded "802-1x" [] conn ↔ hasStoredIdentity conn = false) := by
  have hmain : fieldsNeeded "802-1x" [] conn
      = (if hasStoredIdentity conn = true then [] else ["identity"])
        ++ [if (eapMethods conn).head? = some "tls" then "private-key-password"
            else "password"] := by
    have h1 : fieldsNeeded "802-1x" [] conn = infer8021xFields conn := by
      unfold fieldsNeeded
      rw [if_neg (by decide), if_pos rfl, if_neg (by decide)]
    rw [h1, infer8021xFields_eq]
  refine ⟨?_, hmain, ?_, ?_⟩
  · intro hne
    unfold fieldsNeeded
    rw [if_neg (by decide), if_pos rfl, if_pos (List.length_pos.mpr hne)]
  · rw [hmain]
    simp
  · rw [hmain]
    cases hsi : hasStoredIdentity conn <;>
      by_cases htls : (eapMethods conn).head? = some "tls" <;> simp [htls]

/-- C17. For every setting name and all strings `cookie`, `host` and `fingerprint`,
`buildGPSamlSecretsResponse` returns a map with exactly one setting key, the given
setting name, whose value has exactly one key `secrets`, holding the string map
`cookie ↦ cookie, gateway ↦ host, gwcert ↦ fingerprint` and nothing else. -/
theorem gp_saml_response_shape (settingName cookie host fingerprint : String) :
    (buildGPSamlSecretsResponse settingName cookie host fingerprint).map Prod.fst
      = [settingName]
    ∧ ∃ vpnSec secrets,
        (buildGPSamlSecretsResponse settingName cookie host fingerprint).lookup settingName
          = some vpnSec
        ∧ vpnSec.map Prod.fst = ["secrets"]
        ∧ vpnSec.lookup "secrets" = some (Variant.dict secrets)
        ∧ secrets.map Prod.fst = ["cookie", "gateway", "gwcert"]
        ∧ secrets.lookup "cookie" = some cookie
        ∧ secrets.lookup "gateway" = some host
        ∧ secrets.lookup "gwcert" = some fingerprint := by
  refine ⟨rfl,
    [("secrets", Variant.dict [("cookie", cookie), ("gateway", host), ("gwcert", fingerprint)])],
    [("cookie", cookie), ("gateway", host), ("gwcert", fingerprint)], ?_, rfl, ?_, rfl, ?_, ?_, ?_⟩
  · simp [buildGPSamlSecretsResponse, List.lookup]
  · simp [List.lookup]
  · simp [List.lookup]
  · have h : ("gateway" == "cookie") = false := by decide
    simp [List.lookup, h]
  · have h1 : ("gwcert" == "cookie") = false := by decide
    have h2 : ("gwcert" == "gateway") = false := by decide
    simp [List.lookup, h1, h2]

theorem fields_needed_8021x_witness :
    fieldsNeeded "802-1x" ["password"] eapTlsConn = ["password"]
    ∧ fieldsNeeded "802-1x" [] eapTlsConn = ["private-key-password"] :=
  ⟨(fields_needed_8021x ["password"] eapTlsConn).1 (by decide),
   (fields_needed_8021x [] eapTlsConn).2.1.trans (by decide)⟩

/-! ## Answered and failed prompts -/

theorem promptStage_answered (env : Env) (backend : Option NetworkManagerBackend)
    (req : PromptRequest) (path settingName connType connUuid token : String)
    (reply : PromptReply)
    (hask : env.ask req = Except.ok token) (hwait : env.wait token = (reply, none)) :
    promptStage env backend req path settingName connType connUuid
    = { applyReply backend reply path settingName connUuid with
        effects := AgentEffect.prompt req
          :: (applyReply backend reply path settingName connUuid).effects } := by
  unfold promptStage
  simp only [hask, hwait]

theorem promptStage_failed (env : Env) (backend : Option NetworkManagerBackend)
    (req : PromptRequest) (path settingName connType connUuid token : String)
    (reply : PromptReply) (err : PromptError)
    (hask : env.ask req = Except.ok token) (hwait : env.wait token = (reply, some err)) :
    promptStage env backend req path settingName connType connUuid
    = { backend := backend.map (fun b => (cancelCleanup b connType).1)
        out := none
        err := some (if reply.Cancel = true ∨ err = PromptError.cancelled then errUserCanceled
                     else errAgentFailed)
        effects := AgentEffect.prompt req
          :: (match backend with
              | some b => (cancelCleanup b connType).2
              | none => []) } := by
  unfold promptStage
  simp only [hask, hwait]
  cases backend <;> rfl

/-- The loop that picks the reply's username agrees with the map lookup when the reply's
keys are distinct, as the keys of a Go map are. -/
theorem replyUsername_eq_dictGet (secrets : List (String × String))
    (hnd : (secrets.map Prod.fst).Nodup) :
    replyUsername "vpn" secrets = dictGet secrets "username" := by
  have hgen : ∀ (l : List (String × String)) (acc : String), (l.map Prod.fst).Nodup →
      l.foldl (fun acc kv => if "vpn" = "vpn" ∧ kv.1 = "username" then kv.2 else acc) acc
        = (l.lookup "username").getD acc := by
    intro l
    induction l with
    | nil => intro acc _; rfl
    | cons kv t ih =>
      intro acc hnd
      rw [List.map_cons, List.nodup_cons] at hnd
      rw [List.foldl_cons, ih _ hnd.2]
      obtain ⟨k, v⟩ := kv
      by_cases hk : k = "username"
      · subst hk
        have hnone : t.lookup "username" = none := by
          rw [List.lookup_eq_none_iff]
          intro p hp
          rw [bne_iff_ne]
          intro hkey
          exact hnd.1 (List.mem_map.mpr ⟨p, hp, hkey.symm⟩)
        simp [hnone, List.lookup]
      · have hbeq : ("username" == k) = false := by
          rw [beq_eq_false_iff_ne]
          exact fun e => hk e.symm
        simp [hk, List.lookup, hbeq]
  unfold replyUsername dictGet
  exact hgen secrets "" hnd

/-! ## The claims about the prompt's reply -/

/-- C15. For setting `vpn`: whenever `GetSecrets` posts a prompt that is answered with a
reply whose secrets are `S`, it returns, without error, a map with the single setting key
`vpn`, whose value has the single key `secrets`, holding the string map of the entries of
`S` whose key is not `username`. No secret sits at the top level of the `vpn` setting and
`username` is not among the secrets sent. -/
theorem vpn_reply_wrapped (env : Env) (backend : Option NetworkManagerBackend)
    (conn : nmSettingMap) (path : String) (hints : List String) (flags : Nat)
    (req : PromptRequest) (token : String) (reply : PromptReply)
    (hprompt : AgentEffect.prompt req
      ∈ (GetSecrets env backend conn path "vpn" hints flags).effects)
    (hask : env.ask req = Except.ok token)
    (hwait : env.wait token = (reply, none)) :
    (GetSecrets env backend conn path "vpn" hints flags).err = none
    ∧ (GetSecrets env backend conn path "vpn" hints flags).out
        = some [("vpn",
            [("secrets", Variant.dict (reply.Secrets.filter (fun kv => kv.1 != "username")))])]
    ∧ (∀ k v, (k, v) ∈ reply.Secrets.filter (fun kv => kv.1 != "username")
        ↔ ((k, v) ∈ reply.Secrets ∧ k ≠ "username"))
    ∧ (reply.Secrets.filter (fun kv => kv.1 != "username")).lookup "username" = none := by
  obtain ⟨fields, -, -, heq⟩ := GetSecrets_prompted env backend conn path "vpn" hints flags
    req hprompt
  rw [heq, promptStage_answered env backend req path "vpn" _ _ token reply hask hwait]
  refine ⟨rfl, ?_, ?_, ?_⟩
  · simp [applyReply]
  · intro k v
    simp [List.mem_filter]
  · rw [List.lookup_eq_none_iff]
    intro p hp
    rw [List.mem_filter] at hp
    have h := hp.2
    rw [bne_iff_ne] at h ⊢
    exact fun e => h e.symm

theorem vpn_reply_wrapped_witness :
    (GetSecrets passwordEnv (some vpnBackend) openvpnPasswordConn "/settings/9" "vpn" [] 0).out
      = some [("vpn", [("secrets", Variant.dict [("password", "pw")])])] :=
  ((vpn_reply_wrapped passwordEnv (some vpnBackend) openvpnPasswordConn "/settings/9" [] 0
    (promptRequestOf passwordEnv openvpnPasswordConn "/settings/9" "vpn" [] 0
      ["username", "password"])
    "token-2"
    { Secrets := [("username", "john"), ("password", "pw")], Save := true, Cancel := false }
    (by decide) rfl rfl).2.1).trans (by decide)

/-- C16 (refuted as stated). An `802-1x` request with the hint `password-raw` makes the
agent prompt for the field `password-raw`, which `buildFieldsInfo` marks as secret; the
reply's `password-raw` entry is nevertheless left out of the returned `802-1x` map, which
is empty. -/
theorem raw_password_dropped :
    (buildFieldsInfo (fun s => s) "802-1x" ["password-raw"] "").map (fun i => i.IsSecret)
      = [true]
    ∧ (GetSecrets rawPasswordEnv (some idleBackend) eapTlsConn "/settings/3" "802-1x"
        ["password-raw"] 0).effects.any AgentEffect.isPrompt = true
    ∧ (GetSecrets rawPasswordEnv (some idleBackend) eapTlsConn "/settings/3" "802-1x"
        ["password-raw"] 0).out = some [("802-1x", [])] := by
  decide

/-- C16 (amended). For setting `802-1x`: whenever `GetSecrets` posts a prompt that is
answered with a reply whose secrets are `S`, the `802-1x` map it returns holds exactly the
entries of `S` whose key is `password`, `private-key-password`,
`phase2-private-key-password` or `pin`, with their values unchanged, and never
`identity`. For the fields the agent infers itself (`identity`, `password`,
`private-key-password`) these are the fields `buildFieldsInfo` marks as secret, that is
every inferred field except `identity`. -/
theorem dot1x_reply_filtered (env : Env) (backend : Option NetworkManagerBackend)
    (conn : nmSettingMap) (path : String) (hints : List String) (flags : Nat)
    (req : PromptRequest) (token : String) (reply : PromptReply)
    (hprompt : AgentEffect.prompt req
      ∈ (GetSecrets env backend conn path "802-1x" hints flags).effects)
    (hask : env.ask req = Except.ok token)
    (hwait : env.wait token = (reply, none)) :
    (GetSecrets env backend conn path "802-1x" hints flags).err = none
    ∧ (GetSecrets env backend conn path "802-1x" hints flags).out
        = some [("802-1x",
            (reply.Secrets.filter (fun kv =>
                kv.1 == "password" || kv.1 == "private-key-password"
                  || kv.1 == "phase2-private-key-password" || kv.1 == "pin")).map
              (fun kv => (kv.1, Variant.str kv.2)))]
    ∧ ((reply.Secrets.filter (fun kv =>
                kv.1 == "password" || kv.1 == "private-key-password"
                  || kv.1 == "phase2-private-key-password" || kv.1 == "pin")).map
              (fun kv => (kv.1, Variant.str kv.2))).lookup "identity" = none
    ∧ (∀ f ∈ infer8021xFields conn,
        ((f == "password" || f == "private-key-password"
            || f == "phase2-private-key-password" || f == "pin") = true ↔ f ≠ "identity")
        ∧ (buildFieldsInfo env.title "802-1x" [f] (readConnTypeAndName conn).2.2).map
            (fun i => i.IsSecret) = [decide (f ≠ "identity")]) := by
  obtain ⟨fields, -, -, heq⟩ := GetSecrets_prompted env backend conn path "802-1x" hints flags
    req hprompt
  rw [heq, promptStage_answered env backend req path "802-1x" _ _ token reply hask hwait]
  refine ⟨rfl, ?_, ?_, ?_⟩
  · simp [applyReply]
  · rw [List.lookup_eq_none_iff]
    intro p hp
    obtain ⟨q, hq, rfl⟩ := List.mem_map.mp hp
    rw [List.mem_filter] at hq
    have h := hq.2
    rw [bne_iff_ne]
    simp only [Bool.or_eq_true, beq_iff_eq] at h
    intro e
    rcases h with ((h | h) | h) | h <;> rw [h] at e <;> exact absurd e (by decide)
  · intro f hf
    rw [infer8021xFields_eq] at hf
    have hcases : f = "identity" ∨ f = "password" ∨ f = "private-key-password" := by
      rcases List.mem_append.mp hf with h | h
      · split at h
        · simp at h
        · left; simpa using h
      · rw [List.mem_singleton] at h
        split at h
        · right; right; exact h
        · right; left; exact h
    rcases hcases with h | h | h <;> subst h <;> exact ⟨by decide, rfl⟩

theorem dot1x_reply_filtered_witness :
    (GetSecrets identityEnv (some idleBackend) eapTlsConn "/settings/3" "802-1x"
        ["identity", "password"] 0).out
      = some [("802-1x", [("password", Variant.str "pw")])] :=
  ((dot1x_reply_filtered identityEnv (some idleBackend) eapTlsConn "/settings/3"
    ["identity", "password"] 0
    (promptRequestOf identityEnv eapTlsConn "/settings/3" "802-1x" ["identity", "password"] 0
      ["identity", "password"])
    "token-5"
    { Secrets := [("identity", "alice"), ("password", "pw")], Save := false, Cancel := false }
    (by decide) rfl rfl).2.1).trans (by decide)

/-! ## VPN requests with empty hints -/

theorem inferVPNFields_ne_nil (conn : nmSettingMap) (vpnService : String) :
    inferVPNFields conn vpnService ≠ [] := by
  unfold inferVPNFields
  split
  · simp
  · simp only
    repeat' split
    all_goals simp

theorem vpnCacheStage_out_ne_empty (env : Env) (b : NetworkManagerBackend) (conn : nmSettingMap)
    (path settingName connUuid : String) (fields : List String) (r : GetSecretsResult)
    (h : vpnCacheStage env b conn path settingName connUuid fields = some r) :
    r.out ≠ some [(settingName, [])] := by
  unfold vpnCacheStage at h
  split at h
  · simp only [Option.some.injEq] at h
    rw [← h]; simp [singleSecretReply]
  · split at h
    · simp only [Option.some.injEq] at h
      rw [← h]; simp [singleSecretReply]
    · split at h
      · simp only [Option.some.injEq] at h
        rw [← h]; simp [buildGPSamlSecretsResponse]
      · split at h
        · simp only at h
          split at h
          · simp only [Option.some.injEq] at h
            rw [← h]; simp
          · split at h
            · simp only [Option.some.injEq] at h
              rw [← h]; simp
            · simp only [Option.some.injEq] at h
              rw [← h]; simp [buildGPSamlSecretsResponse]
        · simp at h

theorem promptStage_vpn_out_ne_empty (env : Env) (backend : Option NetworkManagerBackend)
    (req : PromptRequest) (path connType connUuid : String) :
    (promptStage env backend req path "vpn" connType connUuid).out ≠ some [("vpn", [])] := by
  unfold promptStage
  split
  · simp
  · split
    · simp
    · simp [applyReply]

theorem promptStage_posts (env : Env) (backend : Option NetworkManagerBackend)
    (req : PromptRequest) (path settingName connType connUuid : String) :
    AgentEffect.prompt req
      ∈ (promptStage env backend req path settingName connType connUuid).effects := by
  unfold promptStage
  split
  · simp
  · split <;> simp

/-- A `vpn` request with empty hints for the VPN the backend is activating passes the
gate and asks for the fields `inferVPNFields` infers. -/
theorem GetSecrets_vpn_empty_hints (env : Env) (b : NetworkManagerBackend)
    (conn : nmSettingMap) (path : String) (flags : Nat)
    (htype : (readConnTypeAndName conn).1 = "vpn")
    (hconn : b.state.IsConnectingVPN = true)
    (huuid : (lookupStr conn "connection" "uuid").getD "" = b.state.ConnectingVPNUUID) :
    GetSecrets env (some b) conn path "vpn" [] flags
    = (match vpnCacheStage env b conn path "vpn" ((lookupStr conn "connection" "uuid").getD "")
          (inferVPNFields conn (readConnTypeAndName conn).2.2) with
       | some r => r
       | none =>
         promptStage env (some b)
           (promptRequestOf env conn path "vpn" [] flags
             (inferVPNFields conn (readConnTypeAndName conn).2.2))
           path "vpn" (readConnTypeAndName conn).1
           ((lookupStr conn "connection" "uuid").getD "")) := by
  have hgate : scopeRejects b (readConnTypeAndName conn).1 (readSSID conn) conn = false := by
    unfold scopeRejects
    rw [htype]
    simp [huuid]
  have hfields : resolveFields (some b) conn "vpn" (readConnTypeAndName conn).2.2
      (fieldsNeeded "vpn" [] conn)
      = FieldsOutcome.fields (inferVPNFields conn (readConnTypeAndName conn).2.2) := by
    have hf : fieldsNeeded "vpn" [] conn = [] := by
      unfold fieldsNeeded
      rw [if_neg (by decide), if_neg (by decide), if_pos rfl]
    rw [hf]
    unfold resolveFields
    have hlen : (inferVPNFields conn (readConnTypeAndName conn).2.2).length ≠ 0 := by
      intro h
      exact inferVPNFields_ne_nil _ _ (List.length_eq_zero.mp h)
    simp [hconn, hlen]
  unfold GetSecrets
  simp only [hgate, hfields]
  simp only [if_true, promptRequestOf]
  rfl

/-- C14 (refuted as stated). The backend is activating the VPN `U`; the request is for
setting `vpn` of that connection with empty hints, and the vpn data has
`password-flags=4`, the NOT_REQUIRED bit. `GetSecrets` does not return an empty `vpn`
setting: it posts a prompt for `password` and returns the secrets entered there. -/
theorem not_required_vpn_flags_still_prompt :
    readVPNPasswordFlags openvpnTlsConn "vpn" = 4
    ∧ vpnBackend.state.IsConnectingVPN = true
    ∧ (lookupStr openvpnTlsConn "connection" "uuid").getD "" = vpnBackend.state.ConnectingVPNUUID
    ∧ (GetSecrets passwordEnv (some vpnBackend) openvpnTlsConn "/settings/9" "vpn" [] 0).effects.any
        AgentEffect.isPrompt = true
    ∧ (GetSecrets passwordEnv (some vpnBackend) openvpnTlsConn "/settings/9" "vpn" [] 0).out
        = some [("vpn", [("secrets", Variant.dict [("password", "pw")])])]
    ∧ (GetSecrets passwordEnv (some vpnBackend) openvpnTlsConn "/settings/9" "vpn" [] 0).out
        ≠ some [("vpn", [])] := by
  decide

/-- C14 (amended). For a `GetSecrets` request for setting `vpn` with empty hints, on the
VPN connection the backend is activating, the `password-flags` of the vpn data play no
part, whether or not the NOT_REQUIRED bit is set: the agent asks for the fields
`inferVPNFields` infers, which are never empty, and answers from a credential cache or
the GlobalProtect SAML flow or else from a prompt for these fields. It never returns an
empty `vpn` setting, and when no cache is filled and the fields are not `gp-saml` it
posts the prompt. -/
theorem vpn_empty_hints_asks_inferred_fields (env : Env) (b : NetworkManagerBackend)
    (conn : nmSettingMap) (path : String) (flags : Nat)
    (htype : (readConnTypeAndName conn).1 = "vpn")
    (hconn : b.state.IsConnectingVPN = true)
    (huuid : (lookupStr conn "connection" "uuid").getD "" = b.state.ConnectingVPNUUID) :
    inferVPNFields conn (readConnTypeAndName conn).2.2 ≠ []
    ∧ GetSecrets env (some b) conn path "vpn" [] flags
      = (match vpnCacheStage env b conn path "vpn"
            ((lookupStr conn "connection" "uuid").getD "")
            (inferVPNFields conn (readConnTypeAndName conn).2.2) with
         | some r => r
         | none =>
           promptStage env (some b)
             (promptRequestOf env conn path "vpn" [] flags
               (inferVPNFields conn (readConnTypeAndName conn).2.2))
             path "vpn" (readConnTypeAndName conn).1
             ((lookupStr conn "connection" "uuid").getD ""))
    ∧ (GetSecrets env (some b) conn path "vpn" [] flags).out ≠ some [("vpn", [])]
    ∧ (b.cachedPKCS11PIN = none → b.cachedVPNCreds = none → b.cachedGPSamlCookie = none →
        inferVPNFields conn (readConnTypeAndName conn).2.2 ≠ ["gp-saml"] →
        AgentEffect.prompt
            (promptRequestOf env conn path "vpn" [] flags
              (inferVPNFields conn (readConnTypeAndName conn).2.2))
          ∈ (GetSecrets env (some b) conn path "vpn" [] flags).effects) := by
  have heq := GetSecrets_vpn_empty_hints env b conn path flags htype hconn huuid
  refine ⟨inferVPNFields_ne_nil _ _, heq, ?_, ?_⟩
  · rw [heq]
    cases hc : vpnCacheStage env b conn path "vpn"
        ((lookupStr conn "connection" "uuid").getD "")
        (inferVPNFields conn (readConnTypeAndName conn).2.2) with
    | some r => exact vpnCacheStage_out_ne_empty env b conn path "vpn" _ _ r hc
    | none => exact promptStage_vpn_out_ne_empty env (some b) _ path _ _
  · intro h1 h2 h3 hsaml
    rw [heq]
    have hc : vpnCacheStage env b conn path "vpn"
        ((lookupStr conn "connection" "uuid").getD "")
        (inferVPNFields conn (readConnTypeAndName conn).2.2) = none := by
      unfold vpnCacheStage
      simp [h1, h2, h3, hsaml, cacheHit]
    rw [hc]
    exact promptStage_posts env (some b) _ path "vpn" _ _

theorem vpn_empty_hints_asks_inferred_fields_witness :
    AgentEffect.prompt
        (promptRequestOf passwordEnv openvpnTlsConn "/settings/9" "vpn" [] 0 ["password"])
      ∈ (GetSecrets passwordEnv (some vpnBackend) openvpnTlsConn "/settings/9" "vpn" [] 0).effects
    ∧ (GetSecrets passwordEnv (some vpnBackend) openvpnTlsConn "/settings/9" "vpn" [] 0).out
        ≠ some [("vpn", [])] :=
  have h := vpn_empty_hints_asks_inferred_fields passwordEnv vpnBackend openvpnTlsConn
    "/settings/9" 0 (by decide) (by decide) (by decide)
  ⟨h.2.2.2 rfl rfl rfl (by decide), h.2.2.1⟩

/-- C18 (refuted as stated). A prompt for setting `vpn` is answered with a reply that has
`save=true` and holds a PKCS11 PIN under `key_pass`: `GetSecrets` caches the PIN and
queues no `pendingVPNSave` record. -/
theorem pin_reply_queues_no_save :
    (pinEnv.wait "token-3").1.Save = true
    ∧ (GetSecrets pinEnv (some vpnBackend) pkcs11Conn "/settings/9" "vpn" ["key_pass"] 0).effects.any
        AgentEffect.isPrompt = true
    ∧ (GetSecrets pinEnv (some vpnBackend) pkcs11Conn "/settings/9" "vpn" ["key_pass"] 0).backend
        = some { vpnBackend with
                 cachedPKCS11PIN := some { ConnectionUUID := "U", PIN := "1234" } }
    ∧ ((GetSecrets pinEnv (some vpnBackend) pkcs11Conn "/settings/9" "vpn" ["key_pass"]
          0).backend.bind (fun b => b.pendingVPNSave)) = none := by
  decide

/-- C18 (amended). On an agent with a backend: whenever a prompt for setting `vpn` is
answered with a reply that holds no `key_pass` entry and includes a non-empty username or
has `save=true`, `GetSecrets` queues a `pendingVPNSave` record carrying the connection
path, the reply's username, the reply's password and the save flag, whatever other fields
the reply contains; a reply that holds a `key_pass` entry leaves the pending record as it
was and has its PIN cached for the connection. -/
theorem vpn_reply_queues_save (env : Env) (b : NetworkManagerBackend)
    (conn : nmSettingMap) (path : String) (hints : List String) (flags : Nat)
    (req : PromptRequest) (token : String) (reply : PromptReply)
    (hprompt : AgentEffect.prompt req
      ∈ (GetSecrets env (some b) conn path "vpn" hints flags).effects)
    (hask : env.ask req = Except.ok token)
    (hwait : env.wait token = (reply, none))
    (hkeys : (reply.Secrets.map Prod.fst).Nodup) :
    (reply.Secrets.lookup "key_pass" = none →
      (dictGet reply.Secrets "username" ≠ "" ∨ reply.Save = true) →
      (GetSecrets env (some b) conn path "vpn" hints flags).backend
        = some { b with
                 pendingVPNSave := some
                   { ConnectionPath := path
                     Username := dictGet reply.Secrets "username"
                     Password := dictGet reply.Secrets "password"
                     SavePassword := reply.Save } })
    ∧ (∀ pin, reply.Secrets.lookup "key_pass" = some pin →
      (GetSecrets env (some b) conn path "vpn" hints flags).backend
        = some { b with
                 cachedPKCS11PIN := some
                   { ConnectionUUID := (lookupStr conn "connection" "uuid").getD ""
                     PIN := pin } }) := by
  obtain ⟨fields, -, -, heq⟩ := GetSecrets_prompted env (some b) conn path "vpn" hints flags
    req hprompt
  rw [heq, promptStage_answered env (some b) req path "vpn" _ _ token reply hask hwait]
  have huser := replyUsername_eq_dictGet reply.Secrets hkeys
  refine ⟨?_, ?_⟩
  · intro hnopin hsave
    simp only [applyReply, hnopin, huser]
    simp [hsave]
  · intro pin hpin
    simp only [applyReply, hpin, huser]
    simp [dictGet, hpin]

theorem vpn_reply_queues_save_witness :
    (GetSecrets passwordEnv (some vpnBackend) openvpnPasswordConn "/settings/9" "vpn" [] 0).backend
      = some { vpnBackend with
               pendingVPNSave := some
                 { ConnectionPath := "/settings/9", Username := "john", Password := "pw"
                   SavePassword := true } } :=
  ((vpn_reply_queues_save passwordEnv vpnBackend openvpnPasswordConn "/settings/9" [] 0
    (promptRequestOf passwordEnv openvpnPasswordConn "/settings/9" "vpn" [] 0
      ["username", "password"])
    "token-2"
    { Secrets := [("username", "john"), ("password", "pw")], Save := true, Cancel := false }
    (by decide) rfl rfl (by decide)).1 (by decide) (Or.inr rfl)).trans (by decide)

/-- C19 (refuted as stated). The backend is not connecting but still records `Alpha` as
its connecting SSID; the prompt for the Wi-Fi network `Alpha` is cancelled. `GetSecrets`
returns `UserCanceled` and leaves the backend as it was: `ConnectingSSID` is not cleared. -/
theorem failed_wait_keeps_stale_ssid :
    (GetSecrets cancelEnv (some staleBackend) wifiAlphaConn "/settings/1"
        "802-11-wireless-security" [] 0).effects.any AgentEffect.isPrompt = true
    ∧ (GetSecrets cancelEnv (some staleBackend) wifiAlphaConn "/settings/1"
        "802-11-wireless-security" [] 0).err = some errUserCanceled
    ∧ (GetSecrets cancelEnv (some staleBackend) wifiAlphaConn "/settings/1"
        "802-11-wireless-security" [] 0).backend = some staleBackend
    ∧ staleBackend.state.ConnectingSSID = "Alpha" := by
  decide

/-- C19 (amended). When waiting on a posted prompt fails, `GetSecrets` returns the
`UserCanceled` error if the reply is marked cancelled or the error is the
prompt-cancelled error, and the `Failed` error in every other case, including a timeout;
it returns no secrets map and never `NoSecrets`. On a backend that was connecting
(`IsConnecting` or `IsConnectingVPN`) it clears all four connecting fields; on a backend
that was not connecting it leaves the backend as it was, so both flags are false
afterwards in either case. -/
theorem failed_wait_outcome (env : Env) (backend : Option NetworkManagerBackend)
    (conn : nmSettingMap) (path settingName : String) (hints : List String) (flags : Nat)
    (req : PromptRequest) (token : String) (reply : PromptReply) (err : PromptError)
    (hprompt : AgentEffect.prompt req
      ∈ (GetSecrets env backend conn path settingName hints flags).effects)
    (hask : env.ask req = Except.ok token)
    (hwait : env.wait token = (reply, some err)) :
    (GetSecrets env backend conn path settingName hints flags).err
      = some (if reply.Cancel = true ∨ err = PromptError.cancelled then errUserCanceled
              else errAgentFailed)
    ∧ (GetSecrets env backend conn path settingName hints flags).out = none
    ∧ (GetSecrets env backend conn path settingName hints flags).err ≠ some errNoSecrets
    ∧ (reply.Cancel = false → err = PromptError.timeout →
        (GetSecrets env backend conn path settingName hints flags).err = some errAgentFailed)
    ∧ (∀ b, backend = some b →
        ∃ b1, (GetSecrets env backend conn path settingName hints flags).backend = some b1
          ∧ b1.state.IsConnecting = false
          ∧ b1.state.IsConnectingVPN = false
          ∧ ((b.state.IsConnecting = true ∨ b.state.IsConnectingVPN = true) →
              b1 = { b with
                     state := { IsConnecting := false, ConnectingSSID := ""
                                IsConnectingVPN := false, ConnectingVPNUUID := "" } })
          ∧ (b.state.IsConnecting = false → b.state.IsConnectingVPN = false → b1 = b)) := by
  obtain ⟨fields, -, -, heq⟩ := GetSecrets_prompted env backend conn path settingName hints
    flags req hprompt
  rw [heq, promptStage_failed env backend req path settingName _ _ token reply err hask hwait]
  refine ⟨rfl, rfl, ?_, ?_, ?_⟩
  · simp only
    split <;> decide
  · intro hc he
    subst he
    simp [hc]
  · intro b hb
    subst hb
    refine ⟨(cancelCleanup b (readConnTypeAndName conn).1).1, rfl, ?_, ?_, ?_, ?_⟩
    · unfold cancelCleanup
      cases h1 : b.state.IsConnecting <;> cases h2 : b.state.IsConnectingVPN <;> simp [h1]
    · unfold cancelCleanup
      cases h1 : b.state.IsConnecting <;> cases h2 : b.state.IsConnectingVPN <;> simp [h2]
    · intro h
      unfold cancelCleanup
      rcases h with h | h <;> simp [h]
    · intro h1 h2
      unfold cancelCleanup
      simp [h1, h2]

theorem failed_wait_outcome_witness :
    (GetSecrets timeoutEnv (some alphaBackend) wifiAlphaConn "/settings/1"
        "802-11-wireless-security" [] 0).err = some errAgentFailed
    ∧ ∃ b1, (GetSecrets timeoutEnv (some alphaBackend) wifiAlphaConn "/settings/1"
        "802-11-wireless-security" [] 0).backend = some b1
      ∧ b1.state.IsConnecting = false := by
  have h := failed_wait_outcome timeoutEnv (some alphaBackend) wifiAlphaConn "/settings/1"
    "802-11-wireless-security" [] 0
    (promptRequestOf timeoutEnv wifiAlphaConn "/settings/1" "802-11-wireless-security" [] 0
      ["psk"])
    "token-7" { Secrets := [], Save := false, Cancel := false } PromptError.timeout
    (by decide) rfl rfl
  refine ⟨h.2.2.2.1 rfl rfl, ?_⟩
  obtain ⟨b1, hb, hc, -⟩ := h.2.2.2.2 alphaBackend rfl
  exact ⟨b1, hb, hc⟩

end Network

namespace Screenshot

/-! ## Helper lemmas on the render slots -/

theorem length_updateSlot (f : RenderSlot → RenderSlot) (i : Nat)
    (slots : List (Option RenderSlot)) : (updateSlot f i slots).length = slots.length := by
  induction slots generalizing i with
  | nil => cases i <;> rfl
  | cons s rest ih =>
    cases i with
    | zero => rfl
    | succ j => simp [updateSlot, ih]

theorem redrawSurface_length (painter : Painter) (showCapturedCursor : Bool)
    (os : OutputSurface) :
    (redrawSurface painter showCapturedCursor os).1.slots.length = os.slots.length := by
  unfold redrawSurface
  split
  · rfl
  · split
    · rfl
    · split
      · rfl
      · exact length_updateSlot _ _ _

theorem surfaceRun_length (showCapturedCursor : Bool) (events : List SurfaceEvent)
    (os : OutputSurface) :
    (surfaceRun showCapturedCursor os events).slots.length = os.slots.length := by
  induction events generalizing os with
  | nil => rfl
  | cons e rest ih =>
    have hstep : surfaceRun showCapturedCursor os (e :: rest)
        = surfaceRun showCapturedCursor (surfaceStep showCapturedCursor os e) rest := rfl
    rw [hstep, ih]
    cases e with
    | redraw painter => exact redrawSurface_length painter showCapturedCursor os
    | release i => exact length_updateSlot _ _ _

theorem firstFree_none_of_all_busy (slots : List (Option RenderSlot))
    (h : slots.countP isBusy = slots.length) : firstFree slots = none := by
  induction slots with
  | nil => rfl
  | cons s rest ih =>
    have hle : rest.countP isBusy ≤ rest.length := List.countP_le_length _
    rw [List.countP_cons, List.length_cons] at h
    cases s with
    | none =>
      simp only [isBusy] at h
      simp at h
      omega
    | some slot =>
      cases hb : slot.busy with
      | false =>
        simp only [isBusy, hb] at h
        simp at h
        omega
      | true =>
        simp only [isBusy, hb, if_true] at h
        have hrest : rest.countP isBusy = rest.length := by omega
        simp [firstFree, hb, ih hrest]

/-! ## The claim about the render slots -/

/-- C20 (refuted as stated). On a surface whose three render slots were just created,
three `redrawSurface` calls without a release event in between leave all three slots
busy. -/
theorem three_redraws_fill_all_slots :
    readySurface.slots.length = 3
    ∧ busyCount readySurface = 0
    ∧ busyCount (surfaceRun true readySurface
        [SurfaceEvent.redraw plainPainter, SurfaceEvent.redraw plainPainter,
         SurfaceEvent.redraw plainPainter]) = 3 := by
  decide

/-- C20 (amended). For every output surface with three render slots and every sequence
of `redrawSurface` calls and `wl_buffer` release events, the surface keeps its three
slots and at most three of them, so possibly all, are busy at any moment; when all
three are busy a `redrawSurface` call attaches nothing and leaves the surface
unchanged. -/
theorem busy_slots_at_most_three (showCapturedCursor : Bool) (os : OutputSurface)
    (events : List SurfaceEvent) (hlen : os.slots.length = 3) :
    (surfaceRun showCapturedCursor os events).slots.length = 3
    ∧ busyCount (surfaceRun showCapturedCursor os events) ≤ 3
    ∧ (busyCount (surfaceRun showCapturedCursor os events) = 3 →
        ∀ painter,
          redrawSurface painter showCapturedCursor (surfaceRun showCapturedCursor os events)
            = (surfaceRun showCapturedCursor os events, none)) := by
  have hl := surfaceRun_length showCapturedCursor events os
  rw [hlen] at hl
  refine ⟨hl, ?_, ?_⟩
  · unfold busyCount
    rw [← hl]
    exact List.countP_le_length _
  · intro hfull painter
    have hnone : acquireFreeSlot (surfaceRun showCapturedCursor os events) = none := by
      unfold acquireFreeSlot
      apply firstFree_none_of_all_busy
      unfold busyCount at hfull
      rw [hfull, hl]
    unfold redrawSurface
    split
    · rfl
    · split
      · rfl
      · rw [hnone]

theorem busy_slots_at_most_three_witness :
    busyCount (surfaceRun true readySurface
        [SurfaceEvent.redraw plainPainter, SurfaceEvent.redraw plainPainter,
         SurfaceEvent.release 0, SurfaceEvent.redraw plainPainter,
         SurfaceEvent.redraw plainPainter, SurfaceEvent.redraw plainPainter]) ≤ 3 :=
  (busy_slots_at_most_three true readySurface
    [SurfaceEvent.redraw plainPainter, SurfaceEvent.redraw plainPainter,
     SurfaceEvent.release 0, SurfaceEvent.redraw plainPainter,
     SurfaceEvent.redraw plainPainter, SurfaceEvent.redraw plainPainter] (by decide)).2.1

end Screenshot

namespace Freedesktop

open GoLib

/-! ## The `Inhibited` flag -/

theorem flagAccurate_step (m : Manager) (op : Op) (h : FlagAccurate m) :
    FlagAccurate (step m op) := by
  cases op with
  | inhibit sender appName reason now =>
    by_cases hrec : isRecorded (Op.inhibit sender appName reason now) = true
    · show FlagAccurate (Inhibit m sender appName reason now).manager
      rw [Inhibit_recorded_manager m sender appName reason now hrec]
      simp [FlagAccurate]
    · have h0 : isRecorded (Op.inhibit sender appName reason now) = false := by simpa using hrec
      rw [step_not_recorded_inhibit m sender appName reason now h0]
      exact h
  | unInhibit sender cookie =>
    show FlagAccurate (UnInhibit m sender cookie).1
    unfold UnInhibit
    cases removeFirstCookie cookie m.Screensaver.Inhibitors with
    | none => exact h
    | some l => rfl
  | peerDeath peer =>
    show FlagAccurate (removeInhibitorsByPeer m peer).1
    unfold removeInhibitorsByPeer
    by_cases hz : (splitByPeer peer m.Screensaver.Inhibitors).2.length = 0
    · simp only [hz, if_true]
      exact h
    · simp only [hz, if_false]
      rfl

theorem flagAccurate_hubRun (ops : List HubOp) (m : Manager) (h : FlagAccurate m) :
    FlagAccurate (hubRun m ops) := by
  induction ops generalizing m with
  | nil => exact h
  | cons op rest ih =>
    have hstep : hubRun m (op :: rest) = hubRun (hubStep m op) rest := rfl
    rw [hstep]
    apply ih
    cases op with
    | hub o => exact flagAccurate_step m o h
    | setScreenLockActive active =>
      show FlagAccurate (SetScreenLockActive m active).1
      unfold SetScreenLockActive
      by_cases hc : (m.Screensaver.Active != active) = true
      · simp only [hc, Bool.not_true]
        exact h
      · simp only [hc]
        exact h

/-- C30. In every hub state reachable from the initial state of `initializeScreensaver`
(no inhibitors, `Inhibited` false) by a finite sequence of `Inhibit`, `UnInhibit`,
peer-death and `SetScreenLockActive` operations, the `Inhibited` flag is true if and only
if the inhibitor list is non-empty. -/
theorem inhibited_iff_nonempty (a b c : Bool) (ops : List HubOp) :
    (hubRun (initialHub a b c) ops).Screensaver.Inhibited = true
      ↔ (hubRun (initialHub a b c) ops).Screensaver.Inhibitors ≠ [] := by
  have h := flagAccurate_hubRun ops (initialHub a b c) rfl
  unfold FlagAccurate at h
  rw [h]
  simp [List.length_pos]

end Freedesktop

namespace Network

open GoLib

/-! ## The claims about the GlobalProtect helpers -/

/-- C26. For every protocol, authType, username and data map, `needsExternalBrowserAuth`
is true if and only if the data's `saml-auth-method` is `REDIRECT` or `POST`, or the
authType is none of the empty string, `password` and `cert`, or the protocol is `gp`
with both authType and username empty. In particular it is false, when no SAML method
is stored, for GlobalProtect with a stored username and authType empty, `password` or
`cert`, for cert auth with any protocol and username, and for an empty protocol with no
other data. -/
theorem needs_external_browser_auth_iff (protocol authType username : String)
    (data : List (String × String)) :
    (needsExternalBrowserAuth protocol authType username data = true
      ↔ ((data.lookup "saml-auth-method" = some "REDIRECT"
            ∨ data.lookup "saml-auth-method" = some "POST")
          ∨ (authType ≠ "" ∧ authType ≠ "password" ∧ authType ≠ "cert")
          ∨ (protocol = "gp" ∧ authType = "" ∧ username = "")))
    ∧ (data.lookup "saml-auth-method" = none → username ≠ "" →
        (authType = "" ∨ authType = "password" ∨ authType = "cert") →
        needsExternalBrowserAuth "gp" authType username data = false)
    ∧ (data.lookup "saml-auth-method" = none →
        needsExternalBrowserAuth protocol "cert" username data = false)
    ∧ needsExternalBrowserAuth "" "" "" [] = false := by
  have hiff : needsExternalBrowserAuth protocol authType username data = true
      ↔ ((data.lookup "saml-auth-method" = some "REDIRECT"
            ∨ data.lookup "saml-auth-method" = some "POST")
          ∨ (authType ≠ "" ∧ authType ≠ "password" ∧ authType ≠ "cert")
          ∨ (protocol = "gp" ∧ authType = "" ∧ username = "")) := by
    unfold needsExternalBrowserAuth
    cases hl : data.lookup "saml-auth-method" with
    | none =>
      by_cases h1 : authType ≠ "" ∧ authType ≠ "password" ∧ authType ≠ "cert"
      · simp [h1]
      · by_cases h2 : protocol = "gp"
        · by_cases h3 : authType = "" ∧ username = ""
          · simp [h1, h2, h3]
          · simp only [h1, h2, h3, if_false, if_true]
            simp
        · simp only [h1, h2, if_false]
          simp
    | some method =>
      by_cases hm : (method == "REDIRECT" || method == "POST") = true
      · have hm' : method = "REDIRECT" ∨ method = "POST" := by
          simpa using hm
        simp [hm, hm']
      · have hm' : ¬ (method = "REDIRECT" ∨ method = "POST") := by
          simpa using hm
        have hm1 : ¬ method = "REDIRECT" := fun e => hm' (Or.inl e)
        have hm2 : ¬ method = "POST" := fun e => hm' (Or.inr e)
        by_cases h1 : authType ≠ "" ∧ authType ≠ "password" ∧ authType ≠ "cert"
        · simp [hm, h1]
        · by_cases h2 : protocol = "gp"
          · by_cases h3 : authType = "" ∧ username = ""
            · simp [hm, h1, h2, h3]
            · simp only [hm, h1, h2, h3, if_false, if_true]
              simp [hm1, hm2]
          · simp only [hm, h1, h2, if_false]
            simp [hm1, hm2]
  refine ⟨hiff, ?_, ?_, by decide⟩
  · intro hl hu ha
    unfold needsExternalBrowserAuth
    rcases ha with ha | ha | ha <;> subst ha <;> simp [hl, hu]
  · intro hl
    unfold needsExternalBrowserAuth
    simp [hl]

/-- C26 on three rows of the test table: GlobalProtect with a stored username, cert
auth, and a stored SAML method. -/
theorem needs_external_browser_auth_iff_witness :
    needsExternalBrowserAuth "gp" "" "john" [] = false
    ∧ needsExternalBrowserAuth "anyconnect" "cert" "" [] = false
    ∧ needsExternalBrowserAuth "pulse" "" "" [("saml-auth-method", "REDIRECT")] = true :=
  ⟨(needs_external_browser_auth_iff "gp" "" "john" []).2.1 rfl (by decide) (Or.inl rfl),
   (needs_external_browser_auth_iff "anyconnect" "cert" "" []).2.2.1 rfl,
   (needs_external_browser_auth_iff "pulse" "" "" [("saml-auth-method", "REDIRECT")]).1.mpr
     (Or.inl (Or.inl (by decide)))⟩

/-- C27. For every string `s`, `unshellQuote s` is `s` without its first and last
character when `s` has length at least 2 and both are the single quote or both are the
double quote, and it is `s` itself in every other case; the two-quote strings map to the
empty string, a lone quote and mismatched quotes are left alone, and the result is never
longer than `s`. -/
theorem unshell_quote_spec (s : String) :
    (∀ q mid, (q = Char.ofNat 39 ∨ q = Char.ofNat 34) → s.data = q :: (mid ++ [q]) →
      unshellQuote s = String.mk mid)
    ∧ ((¬ ∃ q mid, (q = Char.ofNat 39 ∨ q = Char.ofNat 34) ∧ s.data = q :: (mid ++ [q])) →
      unshellQuote s = s)
    ∧ (unshellQuote s).data.length ≤ s.data.length
    ∧ unshellQuote (String.mk [Char.ofNat 39, Char.ofNat 39]) = ""
    ∧ unshellQuote (String.mk [Char.ofNat 34, Char.ofNat 34]) = ""
    ∧ unshellQuote (String.mk [Char.ofNat 39]) = String.mk [Char.ofNat 39]
    ∧ unshellQuote (String.mk [Char.ofNat 39, 'h', 'i', Char.ofNat 34])
        = String.mk [Char.ofNat 39, 'h', 'i', Char.ofNat 34]
    ∧ unshellQuote "hello" = "hello" := by
  refine ⟨?_, ?_, ?_, by decide, by decide, by decide, by decide, by decide⟩
  · intro q mid hq0 hs
    unfold unshellQuote
    have hlen : s.data.length ≥ 2 := by rw [hs]; simp
    have hhead : s.data.head? = some q := by rw [hs]; rfl
    have hlast : s.data.getLast? = some q := by
      rw [hs, ← List.cons_append, List.getLast?_append]
      simp
    have hmid : (s.data.drop 1).dropLast = mid := by
      rw [hs]
      simp
    rw [if_pos hlen, hhead, hlast, hmid]
    rcases hq0 with h | h <;> subst h <;> simp
  · intro hno
    unfold unshellQuote
    by_cases hlen : s.data.length ≥ 2
    · rw [if_pos hlen]
      by_cases hc : (s.data.head? = some (Char.ofNat 39) ∧ s.data.getLast? = some (Char.ofNat 39))
          ∨ (s.data.head? = some (Char.ofNat 34) ∧ s.data.getLast? = some (Char.ofNat 34))
      · exfalso
        apply hno
        have hshape : ∀ q, s.data.head? = some q → s.data.getLast? = some q →
            ∃ mid, s.data = q :: (mid ++ [q]) := by
          intro q hh hl
          cases hd : s.data with
          | nil => rw [hd] at hlen; simp at hlen
          | cons a t =>
            rw [hd] at hh hl hlen
            have ha : a = q := by simpa using hh
            subst ha
            have htne : t ≠ [] := by
              intro e
              rw [e] at hlen
              simp at hlen
            have hl2 : t.getLast? = some a := by
              cases t with
              | nil => exact absurd rfl htne
              | cons b u => simpa [List.getLast?_cons_cons] using hl
            refine ⟨t.dropLast, ?_⟩
            have := List.dropLast_append_getLast? a hl2
            rw [this]
        rcases hc with ⟨h1, h2⟩ | ⟨h1, h2⟩
        · obtain ⟨mid, hm⟩ := hshape _ h1 h2
          exact ⟨_, mid, Or.inl rfl, hm⟩
        · obtain ⟨mid, hm⟩ := hshape _ h1 h2
          exact ⟨_, mid, Or.inr rfl, hm⟩
      · rw [if_neg hc]
    · rw [if_neg hlen]
  · unfold unshellQuote
    split
    · split
      · simp
        omega
      · exact le_refl _
    · exact le_refl _

/-- C27 on a cookie in single quotes. -/
theorem unshell_quote_spec_witness :
    unshellQuote (String.mk (Char.ofNat 39 :: ("cookie=abc123&user=john".data ++ [Char.ofNat 39])))
      = "cookie=abc123&user=john" :=
  (unshell_quote_spec _).1 (Char.ofNat 39) "cookie=abc123&user=john".data (Or.inl rfl) rfl

end Network

namespace Network

open GoLib

/-! ## `parseGPSamlFromCommandLine` -/

theorem third_char_of_flag (w flag : String) (c : Char) (rest : List Char)
    (hflag : flag.data = '-' :: '-' :: c :: rest) (h : strStartsWith w flag = true) :
    ∃ l, w.data = '-' :: '-' :: c :: l := by
  unfold strStartsWith at h
  rw [hflag] at h
  rcases w with ⟨l⟩
  rcases l with _ | ⟨a, _ | ⟨b, _ | ⟨d, l⟩⟩⟩ <;> simp_all [List.isPrefixOf]
  exact ⟨h.1.symm, h.2.1.symm⟩

theorem flags_exclusive (w f g : String) (c d : Char) (rf rg : List Char)
    (hf : f.data = '-' :: '-' :: c :: rf) (hg : g.data = '-' :: '-' :: d :: rg)
    (hcd : c ≠ d) (h : strStartsWith w f = true) : strStartsWith w g = false := by
  cases hw : strStartsWith w g with
  | false => rfl
  | true =>
    obtain ⟨l1, h1⟩ := third_char_of_flag w f c rf hf h
    obtain ⟨l2, h2⟩ := third_char_of_flag w g d rg hg hw
    rw [h1] at h2
    simp at h2
    exact absurd h2.1 hcd

theorem parseGPSamlPart_Host (r : GpSamlAuthResult) (w : String) :
    (parseGPSamlPart r w).Host = r.Host := by
  unfold parseGPSamlPart
  split_ifs <;> rfl

theorem parseGPSamlPart_Cookie (r : GpSamlAuthResult) (w : String) :
    (parseGPSamlPart r w).Cookie
      = if strStartsWith w "--cookie=" = true ∧ r.Cookie = "" then strTrimPrefix w "--cookie="
        else r.Cookie := by
  unfold parseGPSamlPart
  split_ifs <;> simp_all

theorem parseGPSamlPart_Fingerprint (r : GpSamlAuthResult) (w : String) :
    (parseGPSamlPart r w).Fingerprint
      = if strStartsWith w "--servercert=" = true ∧ r.Fingerprint = "" then
          strTrimPrefix w "--servercert="
        else r.Fingerprint := by
  by_cases hc : strStartsWith w "--cookie=" = true
  · have hs := flags_exclusive w "--cookie=" "--servercert=" 'c' 's' _ _ rfl rfl (by decide) hc
    unfold parseGPSamlPart
    rw [if_pos hc]
    split_ifs <;> simp_all
  · unfold parseGPSamlPart
    rw [if_neg hc]
    split_ifs <;> simp_all

theorem parseGPSamlPart_User (r : GpSamlAuthResult) (w : String) :
    (parseGPSamlPart r w).User
      = if strStartsWith w "--user=" = true ∧ r.User = "" then strTrimPrefix w "--user="
        else r.User := by
  by_cases hu : strStartsWith w "--user=" = true
  · have hc := flags_exclusive w "--user=" "--cookie=" 'u' 'c' _ _ rfl rfl (by decide) hu
    have hs := flags_exclusive w "--user=" "--servercert=" 'u' 's' _ _ rfl rfl (by decide) hu
    unfold parseGPSamlPart
    simp only [hc, hs, hu]
    split_ifs <;> simp_all
  · unfold parseGPSamlPart
    split_ifs <;> simp_all

theorem firstFlagValue_cons (flag w : String) (ws : List String) :
    firstFlagValue flag (w :: ws)
      = if strStartsWith w flag = true ∧ strTrimPrefix w flag ≠ "" then strTrimPrefix w flag
        else firstFlagValue flag ws := by
  unfold firstFlagValue
  by_cases h : strStartsWith w flag = true
  · by_cases hv : strTrimPrefix w flag = ""
    · simp [List.filter_cons, h, hv]
    · simp [List.filter_cons, h, hv]
  · simp [List.filter_cons, h]

/-- What a fold of a field-setting step does to a field: a non-empty field is kept, an
empty one gets the first non-empty value. -/
theorem fold_field (get : GpSamlAuthResult → String) (flag : String)
    (hstep : ∀ r w, get (parseGPSamlPart r w)
      = if strStartsWith w flag = true ∧ get r = "" then strTrimPrefix w flag else get r)
    (words : List String) (r : GpSamlAuthResult) :
    get (words.foldl parseGPSamlPart r)
      = if get r = "" then firstFlagValue flag words else get r := by
  induction words generalizing r with
  | nil =>
    simp only [List.foldl_nil]
    split_ifs with h
    · rw [h]; rfl
    · rfl
  | cons w ws ih =>
    rw [List.foldl_cons, ih, hstep, firstFlagValue_cons]
    by_cases hr : get r = ""
    · by_cases hw : strStartsWith w flag = true
      · by_cases hv : strTrimPrefix w flag = ""
        · simp [hr, hw, hv]
        · simp [hr, hw, hv]
      · simp [hr, hw]
    · simp [hr]

theorem fold_Host (words : List String) (r : GpSamlAuthResult) :
    (words.foldl parseGPSamlPart r).Host = r.Host := by
  induction words generalizing r with
  | nil => rfl
  | cons w ws ih => rw [List.foldl_cons, ih, parseGPSamlPart_Host]

/-- C28, the claim as stated fails. In the line `openconnect --cookie= --cookie=abc` the
first word that starts with `--cookie=` is `--cookie=`, whose value is empty; the call on
an empty result sets Cookie to `abc`, the value of the second such word. -/
theorem first_cookie_word_skipped :
    (strFields "openconnect --cookie= --cookie=abc").find?
        (fun w => strStartsWith w "--cookie=") = some "--cookie="
    ∧ strTrimPrefix "--cookie=" "--cookie=" = ""
    ∧ (parseGPSamlFromCommandLine "openconnect --cookie= --cookie=abc"
        ⟨"", "", "", ""⟩).Cookie = "abc" := by
  decide

/-- C28, amended. `parseGPSamlFromCommandLine` never changes Host and never changes a
Cookie, Fingerprint or User field that is already non-empty; when the line does not
contain `openconnect` the result is left unchanged; when it does, a field that is empty
before the call is set to the first non-empty value among the whitespace-separated words
that start with `--cookie=`, `--servercert=` or `--user=` respectively (the text after
the flag, further `=` signs included), and stays empty when there is no such value. -/
theorem parse_gp_saml_command_line (line : String) (result : GpSamlAuthResult) :
    (parseGPSamlFromCommandLine line result).Host = result.Host
    ∧ (result.Cookie ≠ "" → (parseGPSamlFromCommandLine line result).Cookie = result.Cookie)
    ∧ (result.Fingerprint ≠ "" →
        (parseGPSamlFromCommandLine line result).Fingerprint = result.Fingerprint)
    ∧ (result.User ≠ "" → (parseGPSamlFromCommandLine line result).User = result.User)
    ∧ (strContains line "openconnect" = false →
        parseGPSamlFromCommandLine line result = result)
    ∧ (strContains line "openconnect" = true →
        (result.Cookie = "" → (parseGPSamlFromCommandLine line result).Cookie
          = firstFlagValue "--cookie=" (strFields line))
        ∧ (result.Fingerprint = "" → (parseGPSamlFromCommandLine line result).Fingerprint
          = firstFlagValue "--servercert=" (strFields line))
        ∧ (result.User = "" → (parseGPSamlFromCommandLine line result).User
          = firstFlagValue "--user=" (strFields line))) := by
  have hC := fold_field (fun r => r.Cookie) "--cookie=" parseGPSamlPart_Cookie
    (strFields line) result
  have hF := fold_field (fun r => r.Fingerprint) "--servercert=" parseGPSamlPart_Fingerprint
    (strFields line) result
  have hU := fold_field (fun r => r.User) "--user=" parseGPSamlPart_User
    (strFields line) result
  have hH := fold_Host (strFields line) result
  simp only at hC hF hU
  cases hoc : strContains line "openconnect" with
  | false =>
    have hres : parseGPSamlFromCommandLine line result = result := by
      unfold parseGPSamlFromCommandLine
      simp [hoc]
    rw [hres]
    simp
  | true =>
    have hres : parseGPSamlFromCommandLine line result
        = (strFields line).foldl parseGPSamlPart result := by
      unfold parseGPSamlFromCommandLine
      simp [hoc]
    rw [hres]
    refine ⟨hH, ?_, ?_, ?_, ?_, ?_⟩
    · intro h; rw [hC, if_neg h]
    · intro h; rw [hF, if_neg h]
    · intro h; rw [hU, if_neg h]
    · intro h; cases h
    · intro _
      refine ⟨?_, ?_, ?_⟩
      · intro h; rw [hC, if_pos h]
      · intro h; rw [hF, if_pos h]
      · intro h; rw [hU, if_pos h]

/-- The amended C28 on a line of the process list: the cookie keeps its further `=`
signs, the empty `--user=` is passed over, the stored fingerprint and the host stay. -/
theorem parse_gp_saml_command_line_witness :
    (parseGPSamlFromCommandLine
        "openconnect --protocol=gp --user= --cookie=authcookie=abc&portal=GATE --user=john vpn"
        ⟨"", "vpn.example.com", "", "pin-sha256:OLD"⟩)
      = ⟨"authcookie=abc&portal=GATE", "vpn.example.com", "john", "pin-sha256:OLD"⟩
    ∧ firstFlagValue "--cookie="
        (strFields
          "openconnect --protocol=gp --user= --cookie=authcookie=abc&portal=GATE --user=john vpn")
      = "authcookie=abc&portal=GATE" := by
  have h := parse_gp_saml_command_line
    "openconnect --protocol=gp --user= --cookie=authcookie=abc&portal=GATE --user=john vpn"
    ⟨"", "vpn.example.com", "", "pin-sha256:OLD"⟩
  have hc := (h.2.2.2.2.2 (by decide)).1 rfl
  refine ⟨by decide, ?_⟩
  rw [← hc]
  decide

end Network

namespace Utils

open GoLib

/-! ## `HasGroupData` and `FindGroupData` -/

theorem splitNewline_ne_nil (l : List Char) : splitNewline l ≠ [] := by
  cases l with
  | nil => simp [splitNewline]
  | cons c cs =>
    unfold splitNewline
    split_ifs
    · simp
    · split <;> simp

theorem intercalate_cons_cons (sep x y : List Char) (ys : List (List Char)) :
    List.intercalate sep (x :: y :: ys) = x ++ sep ++ List.intercalate sep (y :: ys) := by
  simp [List.intercalate, List.intersperse]

/-- Joining the pieces of `splitNewline` with newlines gives the text back. -/
theorem splitNewline_join (l : List Char) :
    List.intercalate [Char.ofNat 10] (splitNewline l) = l := by
  induction l with
  | nil => simp [splitNewline, List.intercalate]
  | cons c cs ih =>
    unfold splitNewline
    split_ifs with hc
    · cases hs : splitNewline cs with
      | nil => exact absurd hs (splitNewline_ne_nil cs)
      | cons y ys =>
        rw [intercalate_cons_cons, ← hs, ih, hc]
        rfl
    · cases hs : splitNewline cs with
      | nil => exact absurd hs (splitNewline_ne_nil cs)
      | cons y ys =>
        rw [hs] at ih
        simp only
        cases ys with
        | nil =>
          simp [List.intercalate] at ih ⊢
          exact ih
        | cons z zs =>
          rw [intercalate_cons_cons] at ih ⊢
          rw [← ih]
          simp

/-- No piece of `splitNewline` contains a newline. -/
theorem splitNewline_no_newline (l : List Char) :
    ∀ line ∈ splitNewline l, Char.ofNat 10 ∉ line := by
  induction l with
  | nil => simp [splitNewline]
  | cons c cs ih =>
    unfold splitNewline
    split_ifs with hc
    · intro line hline
      rcases List.mem_cons.mp hline with h | h
      · rw [h]; simp
      · exact ih line h
    · cases hs : splitNewline cs with
      | nil => exact absurd hs (splitNewline_ne_nil cs)
      | cons y ys =>
        rw [hs] at ih
        intro line hline
        simp only at hline
        rcases List.mem_cons.mp hline with h | h
        · rw [h]
          intro hmem
          rcases List.mem_cons.mp hmem with h1 | h1
          · exact hc h1.symm
          · exact ih y (List.mem_cons_self _ _) h1
        · exact ih line (List.mem_cons_of_mem _ h)

theorem HasGroupData_iff (g data : String) :
    HasGroupData g data = true
      ↔ ∃ line ∈ splitNewline data.data, ∃ rest, line = g.data ++ ':' :: rest := by
  unfold HasGroupData
  rw [List.any_eq_true]
  constructor
  · rintro ⟨line, hmem, hpre⟩
    refine ⟨line, hmem, ?_⟩
    rw [List.isPrefixOf_iff_prefix] at hpre
    obtain ⟨t, ht⟩ := hpre
    exact ⟨t, by rw [← ht]; simp⟩
  · rintro ⟨line, hmem, rest, hrest⟩
    refine ⟨line, hmem, ?_⟩
    rw [List.isPrefixOf_iff_prefix]
    exact ⟨rest, by rw [hrest]; simp⟩

theorem FindGroupData_none (data : String) (candidates : List String)
    (h : ∀ c ∈ candidates, HasGroupData c data = false) :
    FindGroupData data candidates = ("", false) := by
  induction candidates with
  | nil => rfl
  | cons c cs ih =>
    unfold FindGroupData
    rw [h c (List.mem_cons_self _ _)]
    simp only [Bool.false_eq_true, if_false]
    exact ih (fun x hx => h x (List.mem_cons_of_mem _ hx))

theorem FindGroupData_first (data : String) (pre : List String) (c : String)
    (post : List String) (hpre : ∀ x ∈ pre, HasGroupData x data = false)
    (hc : HasGroupData c data = true) :
    FindGroupData data (pre ++ c :: post) = (c, true) := by
  induction pre with
  | nil =>
    simp only [List.nil_append]
    unfold FindGroupData
    rw [hc]
    rfl
  | cons p ps ih =>
    simp only [List.cons_append]
    unfold FindGroupData
    rw [hpre p (List.mem_cons_self _ _)]
    simp only [Bool.false_eq_true, if_false]
    exact ih (fun x hx => hpre x (List.mem_cons_of_mem _ hx))

/-- C29. `FindGroupData` returns `(c, true)` for the first candidate, in argument order,
for which `HasGroupData` holds, and `("", false)` when it holds for none.
`HasGroupData g data` holds exactly when some newline-separated line of `data` begins
with `g` immediately followed by `:`, where the lines are the pieces between the
newlines of `data`. So `greet` does not match the group `greeter`, a name that only
occurs as a member of another line does not match, and empty data matches nothing. -/
theorem find_group_data_spec (data : String) :
    (∀ pre c post, (∀ x ∈ pre, HasGroupData x data = false) → HasGroupData c data = true →
        FindGroupData data (pre ++ c :: post) = (c, true))
    ∧ (∀ candidates, (∀ c ∈ candidates, HasGroupData c data = false) →
        FindGroupData data candidates = ("", false))
    ∧ (∀ g, HasGroupData g data = true
        ↔ ∃ line ∈ splitNewline data.data, ∃ rest, line = g.data ++ ':' :: rest)
    ∧ List.intercalate [Char.ofNat 10] (splitNewline data.data) = data.data
    ∧ (∀ line ∈ splitNewline data.data, Char.ofNat 10 ∉ line)
    ∧ HasGroupData "greeter" sampleGroupData = true
    ∧ HasGroupData "greet" sampleGroupData = false
    ∧ HasGroupData "alice" sampleGroupData = false
    ∧ (∀ g, HasGroupData g "" = false) := by
  refine ⟨fun pre c post h1 h2 => FindGroupData_first data pre c post h1 h2,
    fun candidates h => FindGroupData_none data candidates h,
    fun g => HasGroupData_iff g data, splitNewline_join data.data,
    splitNewline_no_newline data.data, by decide, by decide, by decide, ?_⟩
  intro g
  unfold HasGroupData
  simp [splitNewline, List.isPrefixOf]

/-- C29 on the sample group file: of the candidates `greet`, `alice`, `greeter`,
`docker` the first group of the file is `greeter`; no candidate of `wheel`, `sudo` is. -/
theorem find_group_data_spec_witness :
    FindGroupData sampleGroupData (["greet", "alice"] ++ "greeter" :: ["docker"])
        = ("greeter", true)
    ∧ FindGroupData sampleGroupData ["wheel", "sudo"] = ("", false) :=
  ⟨(find_group_data_spec sampleGroupData).1 ["greet", "alice"] "greeter" ["docker"]
      (by decide) (by decide),
    (find_group_data_spec sampleGroupData).2.1 ["wheel", "sudo"] (by decide)⟩

end Utils

namespace Screenshot

/-! ## The slot that a redraw attaches -/

theorem updateSlot_get_same (f : RenderSlot → RenderSlot) (i : Nat)
    (slots : List (Option RenderSlot)) (s : RenderSlot) (h : slots[i]? = some (some s)) :
    (updateSlot f i slots)[i]? = some (some (f s)) := by
  induction slots generalizing i with
  | nil => simp at h
  | cons x rest ih =>
    cases i with
    | zero =>
      simp at h
      simp [updateSlot, h]
    | succ k =>
      simp at h
      simp [updateSlot, ih k h]

theorem updateSlot_get_ne (f : RenderSlot → RenderSlot) (i j : Nat)
    (slots : List (Option RenderSlot)) (h : j ≠ i) :
    (updateSlot f i slots)[j]? = slots[j]? := by
  induction slots generalizing i j with
  | nil => cases i <;> rfl
  | cons x rest ih =>
    cases i with
    | zero =>
      cases j with
      | zero => exact absurd rfl h
      | succ m => simp [updateSlot]
    | succ k =>
      cases j with
      | zero => simp [updateSlot]
      | succ m =>
        simp only [updateSlot, List.getElem?_cons_succ]
        exact ih k m (fun hmk => h (by rw [hmk]))

theorem firstFree_spec (slots : List (Option RenderSlot)) (i : Nat)
    (h : firstFree slots = some i) :
    ∃ slot, slots[i]? = some (some slot) ∧ slot.busy = false
      ∧ ∀ j, j < i → ∀ s, slots[j]? = some (some s) → s.busy = true := by
  induction slots generalizing i with
  | nil => simp [firstFree] at h
  | cons x rest ih =>
    cases x with
    | none =>
      simp only [firstFree, Option.map_eq_some'] at h
      obtain ⟨k, hk, hki⟩ := h
      obtain ⟨slot, h1, h2, h3⟩ := ih k hk
      subst hki
      refine ⟨slot, by simpa using h1, h2, ?_⟩
      intro j hj s hs
      cases j with
      | zero => simp at hs
      | succ m =>
        simp at hs
        exact h3 m (by omega) s hs
    | some slot0 =>
      cases hb : slot0.busy with
      | false =>
        simp [firstFree, hb] at h
        subst h
        exact ⟨slot0, by simp, hb, fun j hj => absurd hj (by omega)⟩
      | true =>
        simp only [firstFree, hb, Bool.not_true, Bool.false_eq_true, if_false,
          Option.map_eq_some'] at h
        obtain ⟨k, hk, hki⟩ := h
        obtain ⟨slot, h1, h2, h3⟩ := ih k hk
        subst hki
        refine ⟨slot, by simpa using h1, h2, ?_⟩
        intro j hj s hs
        cases j with
        | zero =>
          simp at hs
          rw [← hs]
          exact hb
        | succ m =>
          simp at hs
          exact h3 m (by omega) s hs

/-- What a `redrawSurface` call that attaches slot `i` does. -/
theorem redrawSurface_some (painter : Painter) (showCapturedCursor : Bool)
    (os os1 : OutputSurface) (i : Nat)
    (h : redrawSurface painter showCapturedCursor os = (os1, some i)) :
    ∃ srcBuf, getSourceBuffer showCapturedCursor os = some srcBuf
      ∧ firstFree os.slots = some i
      ∧ os1 = { os with
          slots := updateSlot
            (fun slot =>
              { shm := painter.drawOverlay (painter.copyFrom slot.shm srcBuf), busy := true })
            i os.slots } := by
  unfold redrawSurface at h
  cases hsrc : getSourceBuffer showCapturedCursor os with
  | none => rw [hsrc] at h; simp at h
  | some srcBuf =>
    rw [hsrc] at h
    simp only at h
    cases hready : os.slotsReady with
    | false => rw [hready] at h; simp at h
    | true =>
      rw [hready] at h
      simp only [Bool.not_true, Bool.false_eq_true, if_false] at h
      unfold acquireFreeSlot at h
      cases hfree : firstFree os.slots with
      | none => rw [hfree] at h; simp at h
      | some k =>
        rw [hfree] at h
        simp only [Prod.mk.injEq, Option.some.injEq] at h
        obtain ⟨h1, h2⟩ := h
        subst h2
        exact ⟨srcBuf, rfl, rfl, h1.symm⟩

/-- A `redrawSurface` call that attaches nothing leaves the surface as it is. -/
theorem redrawSurface_none (painter : Painter) (showCapturedCursor : Bool)
    (os os1 : OutputSurface)
    (h : redrawSurface painter showCapturedCursor os = (os1, none)) : os1 = os := by
  unfold redrawSurface at h
  split at h
  · simp at h; exact h.symm
  · split at h
    · simp at h; exact h.symm
    · split at h
      · simp at h; exact h.symm
      · simp at h

/-- A busy slot is left alone by every event other than its own release. -/
theorem surfaceStep_keeps_busy (showCapturedCursor : Bool) (os : OutputSurface)
    (e : SurfaceEvent) (i : Nat) (slot : RenderSlot)
    (hslot : os.slots[i]? = some (some slot)) (hbusy : slot.busy = true)
    (he : e ≠ SurfaceEvent.release i) :
    (surfaceStep showCapturedCursor os e).slots[i]? = some (some slot) := by
  cases e with
  | release k =>
    have hki : i ≠ k := fun hik => he (by rw [hik])
    show (updateSlot _ k os.slots)[i]? = _
    rw [updateSlot_get_ne _ k i os.slots hki, hslot]
  | redraw painter =>
    show (redrawSurface painter showCapturedCursor os).1.slots[i]? = _
    cases hres : redrawSurface painter showCapturedCursor os with
    | mk os1 attached =>
      cases attached with
      | none =>
        rw [redrawSurface_none painter showCapturedCursor os os1 hres]
        exact hslot
      | some k =>
        obtain ⟨srcBuf, _, hfree, hos1⟩ := redrawSurface_some painter showCapturedCursor os os1 k hres
        obtain ⟨free, hk1, hk2, _⟩ := firstFree_spec os.slots k hfree
        have hik : i ≠ k := by
          intro hik
          rw [hik, hk1] at hslot
          simp at hslot
          rw [hslot, hbusy] at hk2
          cases hk2
        rw [hos1]
        show (updateSlot _ k os.slots)[i]? = _
        rw [updateSlot_get_ne _ k i os.slots hik, hslot]

theorem surfaceRun_keeps_busy (showCapturedCursor : Bool) (events : List SurfaceEvent)
    (os : OutputSurface) (i : Nat) (slot : RenderSlot)
    (hslot : os.slots[i]? = some (some slot)) (hbusy : slot.busy = true)
    (he : ∀ e ∈ events, e ≠ SurfaceEvent.release i) :
    (surfaceRun showCapturedCursor os events).slots[i]? = some (some slot) := by
  induction events generalizing os with
  | nil => exact hslot
  | cons e rest ih =>
    have hstep : surfaceRun showCapturedCursor os (e :: rest)
        = surfaceRun showCapturedCursor (surfaceStep showCapturedCursor os e) rest := rfl
    rw [hstep]
    exact ih _ (surfaceStep_keeps_busy showCapturedCursor os e i slot hslot hbusy
        (he e (List.mem_cons_self _ _)))
      (fun x hx => he x (List.mem_cons_of_mem _ hx))

/-- C21. A `redrawSurface` call that attaches the slot of index `i` found that slot
present and not busy, with every slot of a lower index busy (or nil); afterwards slot `i`
holds the painted pixels and is busy, every other slot is as before, and slot `i` stays
busy with the same pixels over every sequence of redraws and release events that does
not contain its own release. A call that attaches nothing leaves the surface unchanged,
and that is what happens when all three slots are busy. -/
theorem redraw_attaches_lowest_free_slot (painter : Painter) (showCapturedCursor : Bool)
    (os : OutputSurface) :
    (∀ os1 i, redrawSurface painter showCapturedCursor os = (os1, some i) →
      ∃ slot srcBuf, getSourceBuffer showCapturedCursor os = some srcBuf
        ∧ os.slots[i]? = some (some slot) ∧ slot.busy = false
        ∧ (∀ j, j < i → ∀ s, os.slots[j]? = some (some s) → s.busy = true)
        ∧ os1.slots[i]? = some (some
            { shm := painter.drawOverlay (painter.copyFrom slot.shm srcBuf), busy := true })
        ∧ (∀ j, j ≠ i → os1.slots[j]? = os.slots[j]?)
        ∧ ∀ events, (∀ e ∈ events, e ≠ SurfaceEvent.release i) →
            (surfaceRun showCapturedCursor os1 events).slots[i]? = os1.slots[i]?)
    ∧ (∀ os1, redrawSurface painter showCapturedCursor os = (os1, none) → os1 = os)
    ∧ (os.slots.length = 3 → busyCount os = 3 →
        redrawSurface painter showCapturedCursor os = (os, none)) := by
  refine ⟨?_, fun os1 h => redrawSurface_none painter showCapturedCursor os os1 h, ?_⟩
  · intro os1 i h
    obtain ⟨srcBuf, hsrc, hfree, hos1⟩ := redrawSurface_some painter showCapturedCursor os os1 i h
    obtain ⟨slot, h1, h2, h3⟩ := firstFree_spec os.slots i hfree
    have hnew : os1.slots[i]? = some (some
        { shm := painter.drawOverlay (painter.copyFrom slot.shm srcBuf), busy := true }) := by
      rw [hos1]
      exact updateSlot_get_same _ i os.slots slot h1
    refine ⟨slot, srcBuf, hsrc, h1, h2, h3, hnew, ?_, ?_⟩
    · intro j hj
      rw [hos1]
      exact updateSlot_get_ne _ i j os.slots hj
    · intro events hev
      rw [hnew]
      exact surfaceRun_keeps_busy showCapturedCursor events os1 i _ hnew rfl hev
  · intro hlen hfull
    have hnone : acquireFreeSlot os = none := by
      unfold acquireFreeSlot
      apply firstFree_none_of_all_busy
      unfold busyCount at hfull
      rw [hfull, hlen]
    unfold redrawSurface
    split
    · rfl
    · split
      · rfl
      · rw [hnone]

/-- C21 on the surface with slot 0 busy: the next redraw attaches slot 1, and slot 1 is
still busy after a further redraw and the release of slot 0. -/
theorem redraw_attaches_lowest_free_slot_witness :
    redrawSurface plainPainter true (redrawSurface plainPainter true readySurface).1
      = (surfaceRun true readySurface
          [SurfaceEvent.redraw plainPainter, SurfaceEvent.redraw plainPainter], some 1)
    ∧ (surfaceRun true
        (surfaceRun true readySurface
          [SurfaceEvent.redraw plainPainter, SurfaceEvent.redraw plainPainter])
        [SurfaceEvent.redraw plainPainter, SurfaceEvent.release 0]).slots[1]?
      = some (some { shm := [1, 2, 3, 4], busy := true }) := by
  have hred : redrawSurface plainPainter true (redrawSurface plainPainter true readySurface).1
      = (surfaceRun true readySurface
          [SurfaceEvent.redraw plainPainter, SurfaceEvent.redraw plainPainter], some 1) := by
    decide
  obtain ⟨slot, srcBuf, _, _, _, _, hnew, _, hkeep⟩ :=
    (redraw_attaches_lowest_free_slot plainPainter true
      (redrawSurface plainPainter true readySurface).1).1 _ 1 hred
  refine ⟨hred, ?_⟩
  rw [hkeep [SurfaceEvent.redraw plainPainter, SurfaceEvent.release 0] (by simp)]
  decide

end Screenshot

namespace Matugen

/-! ## The invariant of the matugen queue -/

theorem queueOk_GetQueue {Opts : Type} : QueueOk (GetQueue : Queue Opts) := by
  refine ⟨fun _ => rfl, ?_, ?_, rfl⟩
  · intro c h; cases h
  · intro p h; cases h

theorem lt_of_getElem?_some {α : Type} (l : List α) (i : Nat) (a : α) (h : l[i]? = some a) :
    i < l.length :=
  (List.getElem?_eq_some.mp h).1

theorem cancelPending_some {Opts : Type} (jobs : List (QueuedJob Opts)) (p : Nat)
    (pj : QueuedJob Opts) (hp : jobs[p]? = some pj) (hd : pj.Done = makeChan 1) :
    cancelPending jobs (some p)
      = some (jobs.set p
          { Options := pj.Options, Done := { buf := [cancelResult], cap := 1, closed := true },
            cancelled := true }) := by
  simp [cancelPending, hp, hd, makeChan, Chan.send, Chan.close]

theorem finishCurrent_some {Opts : Type} (jobs : List (QueuedJob Opts)) (result : Result)
    (c : Nat) (cj : QueuedJob Opts) (hc : jobs[c]? = some cj) (hd : cj.Done = makeChan 1) :
    finishCurrent jobs result (some c)
      = some (jobs.set c
          { Options := cj.Options, Done := { buf := [result], cap := 1, closed := true },
            cancelled := cj.cancelled }) := by
  simp [finishCurrent, hc, hd, makeChan, Chan.trySend, Chan.close]

/-- What `Submit` does on a queue that satisfies the invariant. -/
theorem Submit_ok {Opts : Type} (q : Queue Opts) (hok : QueueOk q) (opts : Opts) :
    ∃ q1 started, Submit q opts = some (q1, q.jobs.length, started)
      ∧ QueueOk q1
      ∧ q1.jobs.length = q.jobs.length + 1
      ∧ q1.jobs[q.jobs.length]?
          = some (newJob opts)
      ∧ (∀ i, i < q.jobs.length → q.pending ≠ some i → q1.jobs[i]? = q.jobs[i]?)
      ∧ (∀ p pj, q.pending = some p → q.jobs[p]? = some pj →
          q1.jobs[p]? = some
            { Options := pj.Options,
              Done := { buf := [cancelResult], cap := 1, closed := true },
              cancelled := true })
      ∧ (∀ c, q.current = some c →
          q1.current = some c ∧ q1.pending = some q.jobs.length ∧ started = false)
      ∧ (q.current = none →
          q1.current = some q.jobs.length ∧ q1.pending = none ∧ started = true) := by
  obtain ⟨h1, h2, h3, h4⟩ := hok
  cases hpend : q.pending with
  | none =>
    cases hcur : q.current with
    | none =>
      refine ⟨⟨q.jobs ++ [newJob opts], some q.jobs.length, q.pending, q.jobDone⟩, true, ?_, ?_, ?_, ?_, ?_, ?_,
        ?_, ?_⟩
      · simp [Submit, hpend, hcur, cancelPending]
      · refine ⟨(fun h => by cases h), ?_, ?_, h4⟩
        · intro c hc
          simp only [Option.some.injEq] at hc
          subst hc
          exact ⟨newJob opts, List.getElem?_concat_length _ _, rfl, rfl⟩
        · intro p hp
          simp only [hpend] at hp
          cases hp
      · simp
      · exact List.getElem?_concat_length _ _
      · intro i hi _
        exact List.getElem?_append_left hi
      · intro p pj hp
        cases hp
      · intro c hc
        cases hc
      · intro _
        exact ⟨rfl, hpend, rfl⟩
    | some c =>
      obtain ⟨cj, hcj, hcd, hcc⟩ := h2 c hcur
      have hclt := lt_of_getElem?_some _ _ _ hcj
      refine ⟨⟨q.jobs ++ [newJob opts], q.current, some q.jobs.length, q.jobDone⟩, false, ?_, ?_, ?_, ?_, ?_, ?_,
        ?_, ?_⟩
      · simp [Submit, hpend, hcur, cancelPending]
      · refine ⟨(fun h => by have h5 : q.current = none := h; rw [hcur] at h5; cases h5), ?_, ?_, h4⟩
        · intro c1 hc1
          simp only [hcur, Option.some.injEq] at hc1
          subst hc1
          exact ⟨cj, by simp only; rw [List.getElem?_append_left hclt]; exact hcj, hcd, hcc⟩
        · intro p hp
          simp only [Option.some.injEq] at hp
          subst hp
          refine ⟨⟨newJob opts, List.getElem?_concat_length _ _, rfl, rfl⟩, ?_⟩
          simp only [hcur]
          intro h
          simp only [Option.some.injEq] at h
          omega
      · simp
      · exact List.getElem?_concat_length _ _
      · intro i hi _
        exact List.getElem?_append_left hi
      · intro p pj hp
        cases hp
      · intro c1 hc1
        cases hc1
        exact ⟨hcur, rfl, rfl⟩
      · intro h
        cases h
  | some p =>
    obtain ⟨⟨pj, hpj, hpd, hpc⟩, hne⟩ := h3 p hpend
    have hplt := lt_of_getElem?_some _ _ _ hpj
    cases hcur : q.current with
    | none =>
      have := h1 hcur
      rw [hpend] at this
      cases this
    | some c =>
      obtain ⟨cj, hcj, hcd, hcc⟩ := h2 c hcur
      have hclt := lt_of_getElem?_some _ _ _ hcj
      have hcp : p ≠ c := by
        intro h
        apply hne
        rw [hcur, h]
      have hpj1 : (q.jobs ++ [newJob opts])[p]? = some pj := by
        rw [List.getElem?_append_left hplt]; exact hpj
      refine ⟨⟨(q.jobs ++ [newJob opts]).set p ⟨pj.Options, ⟨[cancelResult], 1, true⟩, true⟩,
        q.current, some q.jobs.length, q.jobDone⟩, false, ?_, ?_, ?_, ?_, ?_, ?_, ?_, ?_⟩
      · unfold Submit
        simp only [hpend, hcur]
        rw [cancelPending_some _ p pj hpj1 hpd]
      · refine ⟨(fun h => by have h5 : q.current = none := h; rw [hcur] at h5; cases h5), ?_, ?_, h4⟩
        · intro c1 hc1
          simp only [hcur, Option.some.injEq] at hc1
          subst hc1
          refine ⟨cj, ?_, hcd, hcc⟩
          simp only
          rw [List.getElem?_set_ne hcp, List.getElem?_append_left hclt]
          exact hcj
        · intro p1 hp1
          simp only [Option.some.injEq] at hp1
          subst hp1
          refine ⟨⟨newJob opts, ?_, rfl, rfl⟩, ?_⟩
          · simp only
            rw [List.getElem?_set_ne (by omega)]
            exact List.getElem?_concat_length _ _
          · simp only [hcur]
            intro h
            simp only [Option.some.injEq] at h
            omega
      · simp
      · simp only
        rw [List.getElem?_set_ne (by omega)]
        exact List.getElem?_concat_length _ _
      · intro i hi hip
        simp only
        rw [List.getElem?_set_ne (fun h => hip (by rw [h])), List.getElem?_append_left hi]
      · intro p1 pj1 hp1 hpj2
        cases hp1
        rw [hpj] at hpj2
        cases hpj2
        simp only
        rw [List.getElem?_set_self (by simp; omega)]
      · intro c1 hc1
        cases hc1
        exact ⟨hcur, rfl, rfl⟩
      · intro h
        cases h

/-- What `finishJob` does on a queue that satisfies the invariant. -/
theorem finishJob_ok {Opts : Type} (q : Queue Opts) (hok : QueueOk q) (result : Result) :
    ∃ q1, finishJob q result = some q1
      ∧ QueueOk q1
      ∧ q1.jobs.length = q.jobs.length
      ∧ q1.current = q.pending
      ∧ q1.pending = none
      ∧ (∀ i, q.current ≠ some i → q1.jobs[i]? = q.jobs[i]?)
      ∧ (∀ c cj, q.current = some c → q.jobs[c]? = some cj →
          q1.jobs[c]? = some
            { Options := cj.Options, Done := { buf := [result], cap := 1, closed := true },
              cancelled := cj.cancelled }) := by
  obtain ⟨h1, h2, h3, h4⟩ := hok
  cases hcur : q.current with
  | none =>
    have hpend := h1 hcur
    have hsend : ∃ ch, q.jobDone.trySend () = some ch ∧ ch.closed = false := by
      unfold Chan.trySend
      rw [h4]
      simp only [Bool.false_eq_true, if_false]
      split_ifs
      · exact ⟨_, rfl, rfl⟩
      · exact ⟨_, rfl, h4⟩
    obtain ⟨ch, hch, hchc⟩ := hsend
    refine ⟨⟨q.jobs, none, none, ch⟩, ?_, ?_, rfl, ?_, rfl, fun i _ => rfl, ?_⟩
    · simp [finishJob, hcur, hpend, finishCurrent, hch]
    · refine ⟨fun _ => rfl, ?_, ?_, hchc⟩
      · intro c hc; cases hc
      · intro p hp; cases hp
    · exact hpend.symm
    · intro c cj hc
      cases hc
  | some c =>
    obtain ⟨cj, hcj, hcd, hcc⟩ := h2 c hcur
    have hclt := lt_of_getElem?_some _ _ _ hcj
    have hfin := finishCurrent_some q.jobs result c cj hcj hcd
    cases hpend : q.pending with
    | none =>
      have hsend : ∃ ch, q.jobDone.trySend () = some ch ∧ ch.closed = false := by
        unfold Chan.trySend
        rw [h4]
        simp only [Bool.false_eq_true, if_false]
        split_ifs
        · exact ⟨_, rfl, rfl⟩
        · exact ⟨_, rfl, h4⟩
      obtain ⟨ch, hch, hchc⟩ := hsend
      refine ⟨⟨q.jobs.set c ⟨cj.Options, ⟨[result], 1, true⟩, cj.cancelled⟩, none, none, ch⟩,
        ?_, ?_, ?_, ?_, rfl, ?_, ?_⟩
      · unfold finishJob
        rw [hcur, hfin]
        simp only [hpend, hch]
      · refine ⟨fun _ => rfl, ?_, ?_, hchc⟩
        · intro c1 hc1; cases hc1
        · intro p hp; cases hp
      · simp
      · rfl
      · intro i hi
        simp only
        rw [List.getElem?_set_ne (fun h => hi (by rw [h]))]
      · intro c1 cj1 hc1 hcj1
        cases hc1
        rw [hcj] at hcj1
        cases hcj1
        simp only
        rw [List.getElem?_set_self hclt]
    | some p =>
      obtain ⟨⟨pj, hpj, hpd, hpc⟩, hne⟩ := h3 p hpend
      have hcp : c ≠ p := by
        intro h
        apply hne
        rw [hcur, h]
      refine ⟨⟨q.jobs.set c ⟨cj.Options, ⟨[result], 1, true⟩, cj.cancelled⟩, some p, none,
        q.jobDone⟩, ?_, ?_, ?_, ?_, rfl, ?_, ?_⟩
      · unfold finishJob
        rw [hcur, hfin]
        simp only [hpend]
      · refine ⟨(fun h => by cases h), ?_, ?_, h4⟩
        · intro c1 hc1
          simp only [Option.some.injEq] at hc1
          subst hc1
          refine ⟨pj, ?_, hpd, hpc⟩
          simp only
          rw [List.getElem?_set_ne hcp]
          exact hpj
        · intro p1 hp1; cases hp1
      · simp
      · rfl
      · intro i hi
        simp only
        rw [List.getElem?_set_ne (fun h => hi (by rw [h]))]
      · intro c1 cj1 hc1 hcj1
        cases hc1
        rw [hcj] at hcj1
        cases hcj1
        simp only
        rw [List.getElem?_set_self hclt]

/-- One call keeps the invariant and leaves every retired job retired and as it is. -/
theorem queueStep_ok {Opts : Type} (q : Queue Opts) (hok : QueueOk q) (op : QueueOp Opts) :
    ∃ q1, queueStep q op = some q1 ∧ QueueOk q1
      ∧ ∀ i, Retired q i → Retired q1 i ∧ q1.jobs[i]? = q.jobs[i]? := by
  cases op with
  | submit opts =>
    obtain ⟨q1, started, hs, hok1, hlen, _, hsame, _, hcur, hnocur⟩ := Submit_ok q hok opts
    refine ⟨q1, by simp [queueStep, hs], hok1, ?_⟩
    rintro i ⟨hi, hc, hp⟩
    refine ⟨⟨by omega, ?_, ?_⟩, hsame i hi hp⟩
    · cases hcq : q.current with
      | none =>
        rw [(hnocur hcq).1]
        intro h
        simp only [Option.some.injEq] at h
        omega
      | some c =>
        rw [(hcur c hcq).1, ← hcq]
        exact hc
    · cases hcq : q.current with
      | none =>
        rw [(hnocur hcq).2.1]
        intro h
        cases h
      | some c =>
        rw [(hcur c hcq).2.1]
        intro h
        simp only [Option.some.injEq] at h
        omega
  | finish result =>
    obtain ⟨q1, hf, hok1, hlen, hcur, hpend, hsame, _⟩ := finishJob_ok q hok result
    refine ⟨q1, hf, hok1, ?_⟩
    rintro i ⟨hi, hc, hp⟩
    refine ⟨⟨by omega, ?_, ?_⟩, hsame i hc⟩
    · rw [hcur]
      exact hp
    · rw [hpend]
      intro h
      cases h

/-- Every sequence of calls runs to its end from a queue that satisfies the invariant,
keeps the invariant, and leaves every retired job retired and as it is. -/
theorem queueRun_ok {Opts : Type} (ops : List (QueueOp Opts)) (q : Queue Opts)
    (hok : QueueOk q) :
    ∃ q1, queueRun q ops = some q1 ∧ QueueOk q1
      ∧ ∀ i, Retired q i → Retired q1 i ∧ q1.jobs[i]? = q.jobs[i]? := by
  induction ops generalizing q with
  | nil => exact ⟨q, rfl, hok, fun i hi => ⟨hi, rfl⟩⟩
  | cons op rest ih =>
    obtain ⟨q1, hstep, hok1, hret1⟩ := queueStep_ok q hok op
    obtain ⟨q2, hrun, hok2, hret2⟩ := ih q1 hok1
    refine ⟨q2, ?_, hok2, ?_⟩
    · unfold queueRun
      rw [hstep]
      exact hrun
    · intro i hi
      obtain ⟨hr1, he1⟩ := hret1 i hi
      obtain ⟨hr2, he2⟩ := hret2 i hr1
      exact ⟨hr2, by rw [he2, he1]⟩

/-! ## The claim about the matugen queue -/

/-- C25. Every sequence of `Submit` and `finishJob` calls on the queue of `GetQueue`
runs to its end, and in the queue `q` it leads to: a pending job exists only while a
job is running. A `Submit` while job `c` is running returns, keeps `c` as the running
job and leaves it untouched, and makes the new job the pending one; a job `p` that was
pending before is pre-empted: it was untouched until then, it is now cancelled, its
`Done` channel holds the one result `Success=false, Error=context.Canceled` and is
closed, and no later call touches it. `finishJob` returns, makes the pending job (if
any) the running one and empties the pending slot; the finished job has its one result
and a closed channel, the promoted job is untouched. -/
theorem queue_single_pending {Opts : Type} (ops : List (QueueOp Opts)) :
    ∃ q, queueRun GetQueue ops = some q
      ∧ (q.current = none → q.pending = none)
      ∧ (∀ opts c, q.current = some c →
          ∃ q1, Submit q opts = some (q1, q.jobs.length, false)
            ∧ q1.current = some c ∧ q1.pending = some q.jobs.length
            ∧ q1.jobs[q.jobs.length]? = some (newJob opts)
            ∧ q1.jobs[c]? = q.jobs[c]?
            ∧ ∀ p, q.pending = some p →
                ∃ pj, q.jobs[p]? = some pj ∧ pj.Done = makeChan 1 ∧ pj.cancelled = false
                  ∧ p ≠ c
                  ∧ q1.jobs[p]? = some ⟨pj.Options, ⟨[cancelResult], 1, true⟩, true⟩
                  ∧ ∀ more, ∃ q2, queueRun q1 more = some q2 ∧ q2.jobs[p]? = q1.jobs[p]?)
      ∧ (∀ result, ∃ q1, finishJob q result = some q1
          ∧ q1.current = q.pending ∧ q1.pending = none
          ∧ (∀ c, q.current = some c →
              ∃ cj, q.jobs[c]? = some cj
                ∧ q1.jobs[c]? = some ⟨cj.Options, ⟨[result], 1, true⟩, cj.cancelled⟩)
          ∧ ∀ p, q.pending = some p → q1.jobs[p]? = q.jobs[p]?) := by
  obtain ⟨q, hrun, hok, _⟩ := queueRun_ok ops (GetQueue : Queue Opts) queueOk_GetQueue
  refine ⟨q, hrun, hok.1, ?_, ?_⟩
  · intro opts c hc
    obtain ⟨q1, started, hs, hok1, hlen, hnew, hsame, hpre, hcur, _⟩ := Submit_ok q hok opts
    obtain ⟨hc1, hp1, hst⟩ := hcur c hc
    obtain ⟨cj, hcj, _, _⟩ := hok.2.1 c hc
    have hclt := lt_of_getElem?_some _ _ _ hcj
    rw [hst] at hs
    refine ⟨q1, hs, hc1, hp1, hnew, ?_, ?_⟩
    · apply hsame c hclt
      intro hpc
      exact (hok.2.2.1 c hpc).2 hc
    · intro p hp
      obtain ⟨⟨pj, hpj, hpd, hpc⟩, hne⟩ := hok.2.2.1 p hp
      have hplt := lt_of_getElem?_some _ _ _ hpj
      have hpc1 : p ≠ c := by
        intro h
        apply hne
        rw [hc, h]
      refine ⟨pj, hpj, hpd, hpc, hpc1, hpre p pj hp hpj, ?_⟩
      intro more
      have hret : Retired q1 p := by
        refine ⟨by omega, ?_, ?_⟩
        · rw [hc1]
          intro h
          simp only [Option.some.injEq] at h
          exact hpc1 h.symm
        · rw [hp1]
          intro h
          simp only [Option.some.injEq] at h
          omega
      obtain ⟨q2, hrun2, _, hret2⟩ := queueRun_ok more q1 hok1
      exact ⟨q2, hrun2, (hret2 p hret).2⟩
  · intro result
    obtain ⟨q1, hf, _, _, hcur, hpend, hsame, hfin⟩ := finishJob_ok q hok result
    refine ⟨q1, hf, hcur, hpend, ?_, ?_⟩
    · intro c hc
      obtain ⟨cj, hcj, _, _⟩ := hok.2.1 c hc
      exact ⟨cj, hcj, hfin c cj hc hcj⟩
    · intro p hp
      apply hsame p
      exact fun h => (hok.2.2.1 p hp).2 h

/-- C25 on three submissions `a`, `b`, `c` in a row: `a` runs, `b` was pre-empted with
its one cancel result, `c` is pending; after `finishJob`, `c` runs. -/
theorem queue_single_pending_witness :
    queueRun (GetQueue : Queue String)
        [QueueOp.submit "a", QueueOp.submit "b", QueueOp.submit "c"]
      = some ⟨[⟨"a", ⟨[], 1, false⟩, false⟩, ⟨"b", ⟨[cancelResult], 1, true⟩, true⟩,
          ⟨"c", ⟨[], 1, false⟩, false⟩], some 0, some 2, ⟨[], 1, false⟩⟩
    ∧ queueRun (GetQueue : Queue String)
        [QueueOp.submit "a", QueueOp.submit "b", QueueOp.submit "c",
         QueueOp.finish ⟨true, none⟩]
      = some ⟨[⟨"a", ⟨[⟨true, none⟩], 1, true⟩, false⟩, ⟨"b", ⟨[cancelResult], 1, true⟩, true⟩,
          ⟨"c", ⟨[], 1, false⟩, false⟩], some 2, none, ⟨[], 1, false⟩⟩
    ∧ ∃ q, queueRun (GetQueue : Queue String)
          [QueueOp.submit "a", QueueOp.submit "b", QueueOp.submit "c"] = some q
        ∧ (q.current = none → q.pending = none) :=
  ⟨by decide, by decide,
    (queue_single_pending
      [QueueOp.submit "a", QueueOp.submit "b", QueueOp.submit "c"]).imp
      (fun _ h => ⟨h.1, h.2.1⟩)⟩

end Matugen

namespace Screenshot

theorem readByte_set (data : List Nat) (n : Nat) (v : Nat) (j : Int) (hn : n < data.length) :
    readByte (data.set n v) j = if j = (n : Int) then some v else readByte data j := by
  unfold readByte
  by_cases hj : j < 0
  · have : j ≠ (n : Int) := by omega
    simp [hj, this]
  · simp only [hj, if_false]
    by_cases hjn : j = (n : Int)
    · subst hjn
      simp [hn]
    · simp only [hjn, if_false]
      rw [List.getElem?_set_ne]
      omega

theorem writeByte_some (data : List Nat) (i : Int) (v : Nat) (h0 : 0 ≤ i)
    (h1 : i < (data.length : Int)) : writeByte data i v = some (data.set i.toNat v) := by
  unfold writeByte
  rw [if_neg]
  omega

theorem readByte_some (data : List Nat) (i : Int) (h0 : 0 ≤ i)
    (h1 : i < (data.length : Int)) : ∃ v, readByte data i = some v := by
  unfold readByte
  rw [if_neg (by omega)]
  have : i.toNat < data.length := by omega
  exact ⟨data[i.toNat], List.getElem?_eq_getElem this⟩

/-- One pixel copy inside both buffers: it succeeds, the four destination bytes become
the four source bytes, and every other byte stays. -/
theorem copyPixel_spec (srcData dstData : List Nat) (si di : Int) (hs0 : 0 ≤ si)
    (hs1 : si + 3 < (srcData.length : Int)) (hd0 : 0 ≤ di)
    (hd1 : di + 3 < (dstData.length : Int)) :
    ∃ d, copyPixel srcData dstData si di = some d ∧ d.length = dstData.length
      ∧ (∀ k : Nat, k < 4 → readByte d (di + (k : Int)) = readByte srcData (si + (k : Int)))
      ∧ (∀ j : Int, j < di ∨ di + 3 < j → readByte d j = readByte dstData j) := by
  obtain ⟨b0, hb0⟩ := readByte_some srcData (si + 0) (by omega) (by omega)
  obtain ⟨b1, hb1⟩ := readByte_some srcData (si + 1) (by omega) (by omega)
  obtain ⟨b2, hb2⟩ := readByte_some srcData (si + 2) (by omega) (by omega)
  obtain ⟨b3, hb3⟩ := readByte_some srcData (si + 3) (by omega) (by omega)
  have hw0 := writeByte_some dstData (di + 0) b0 (by omega) (by omega)
  have hl0 : (dstData.set (di + 0).toNat b0).length = dstData.length := List.length_set _ _ _
  have hw1 := writeByte_some (dstData.set (di + 0).toNat b0) (di + 1) b1 (by omega)
    (by rw [hl0]; omega)
  have hl1 : (((dstData.set (di + 0).toNat b0)).set (di + 1).toNat b1).length
      = dstData.length := by rw [List.length_set, hl0]
  have hw2 := writeByte_some _ (di + 2) b2 (by omega) (by rw [hl1]; omega)
  have hl2 : ((((dstData.set (di + 0).toNat b0)).set (di + 1).toNat b1).set
      (di + 2).toNat b2).length = dstData.length := by rw [List.length_set, hl1]
  have hw3 := writeByte_some _ (di + 3) b3 (by omega) (by rw [hl2]; omega)
  have hl3 : (((((dstData.set (di + 0).toNat b0)).set (di + 1).toNat b1).set
      (di + 2).toNat b2).set (di + 3).toNat b3).length = dstData.length := by
    rw [List.length_set, hl2]
  have hread : ∀ j : Int, readByte (((((dstData.set (di + 0).toNat b0)).set
      (di + 1).toNat b1).set (di + 2).toNat b2).set (di + 3).toNat b3) j
      = if j = di + 3 then some b3 else if j = di + 2 then some b2
        else if j = di + 1 then some b1 else if j = di + 0 then some b0
        else readByte dstData j := by
    intro j
    rw [readByte_set _ _ _ _ (by rw [hl2]; omega), readByte_set _ _ _ _ (by rw [hl1]; omega),
      readByte_set _ _ _ _ (by rw [hl0]; omega), readByte_set _ _ _ _ (by omega)]
    have e0 : ((di + 0).toNat : Int) = di + 0 := by omega
    have e1 : ((di + 1).toNat : Int) = di + 1 := by omega
    have e2 : ((di + 2).toNat : Int) = di + 2 := by omega
    have e3 : ((di + 3).toNat : Int) = di + 3 := by omega
    rw [e0, e1, e2, e3]
  refine ⟨_, ?_, hl3, ?_, ?_⟩
  · unfold copyPixel
    rw [hb0, Option.some_bind, hw0, Option.some_bind, hb1, Option.some_bind, hw1,
      Option.some_bind, hb2, Option.some_bind, hw2, Option.some_bind, hb3, Option.some_bind,
      hw3]
  · intro k hk
    rw [hread]
    have hk4 : k = 0 ∨ k = 1 ∨ k = 2 ∨ k = 3 := by omega
    rcases hk4 with h | h | h | h <;> subst h
    · rw [if_neg (by omega), if_neg (by omega), if_neg (by omega), if_pos (by omega)]
      rw [← hb0]; rfl
    · rw [if_neg (by omega), if_neg (by omega), if_pos (by omega)]
      rw [← hb1]; rfl
    · rw [if_neg (by omega), if_pos (by omega)]
      rw [← hb2]; rfl
    · rw [if_pos (by omega)]
      rw [← hb3]; rfl
  · intro j hj
    rw [hread, if_neg (by omega), if_neg (by omega), if_neg (by omega), if_neg (by omega)]

/-- The inner loop with row offsets that are not negative: it runs to its end, bytes
outside the pixels it copies stay, and each pixel it copies arrives. -/
theorem blitPixels_spec (srcData : List Nat) (dstWidth dstX srcRowOff dstRowOff : Int)
    (hs : 0 ≤ srcRowOff) (hd : 0 ≤ dstRowOff) (xs : List Nat) (dstData : List Nat) :
    ∃ d, blitPixels srcData dstWidth dstX srcRowOff dstRowOff xs dstData = some d
      ∧ d.length = dstData.length
      ∧ (∀ j : Int,
          (∀ x ∈ xs, 0 ≤ dstX + (x : Int) → dstX + (x : Int) < dstWidth →
            srcRowOff + (x : Int) * 4 + 3 < (srcData.length : Int) →
            dstRowOff + (dstX + (x : Int)) * 4 + 3 < (dstData.length : Int) →
            j < dstRowOff + (dstX + (x : Int)) * 4 ∨ dstRowOff + (dstX + (x : Int)) * 4 + 3 < j) →
          readByte d j = readByte dstData j)
      ∧ (xs.Nodup → ∀ x ∈ xs, 0 ≤ dstX + (x : Int) → dstX + (x : Int) < dstWidth →
          srcRowOff + (x : Int) * 4 + 3 < (srcData.length : Int) →
          dstRowOff + (dstX + (x : Int)) * 4 + 3 < (dstData.length : Int) →
          ∀ k : Nat, k < 4 →
            readByte d (dstRowOff + (dstX + (x : Int)) * 4 + (k : Int))
              = readByte srcData (srcRowOff + (x : Int) * 4 + (k : Int))) := by
  induction xs generalizing dstData with
  | nil =>
    refine ⟨dstData, rfl, rfl, fun j _ => rfl, ?_⟩
    intro _ x hx
    cases hx
  | cons x rest ih =>
    by_cases hclip : dstX + (x : Int) < 0 ∨ dstX + (x : Int) ≥ dstWidth
    · obtain ⟨d, hrun, hlen, hframe, hcopy⟩ := ih dstData
      refine ⟨d, ?_, hlen, ?_, ?_⟩
      · unfold blitPixels
        rw [if_pos hclip]
        exact hrun
      · intro j hj
        exact hframe j (fun x1 hx1 => hj x1 (List.mem_cons_of_mem _ hx1))
      · intro hnd x1 hx1 h1 h2 h3 h4
        rcases List.mem_cons.mp hx1 with hx | hx
        · subst hx
          omega
        · exact hcopy (List.nodup_cons.mp hnd).2 x1 hx h1 h2 h3 h4
    · by_cases hguard : srcRowOff + (x : Int) * 4 + 3 ≥ (srcData.length : Int)
          ∨ dstRowOff + (dstX + (x : Int)) * 4 + 3 ≥ (dstData.length : Int)
      · obtain ⟨d, hrun, hlen, hframe, hcopy⟩ := ih dstData
        refine ⟨d, ?_, hlen, ?_, ?_⟩
        · unfold blitPixels
          rw [if_neg hclip, if_pos hguard]
          exact hrun
        · intro j hj
          exact hframe j (fun x1 hx1 => hj x1 (List.mem_cons_of_mem _ hx1))
        · intro hnd x1 hx1 h1 h2 h3 h4
          rcases List.mem_cons.mp hx1 with hx | hx
          · subst hx
            omega
          · exact hcopy (List.nodup_cons.mp hnd).2 x1 hx h1 h2 h3 h4
      · obtain ⟨d1, hcp, hlen1, hcp1, hcp2⟩ := copyPixel_spec srcData dstData
          (srcRowOff + (x : Int) * 4) (dstRowOff + (dstX + (x : Int)) * 4)
          (by omega) (by omega) (by omega) (by omega)
        obtain ⟨d, hrun, hlen, hframe, hcopy⟩ := ih d1
        rw [hlen1] at hlen hframe hcopy
        refine ⟨d, ?_, hlen, ?_, ?_⟩
        · unfold blitPixels
          rw [if_neg hclip, if_neg hguard, hcp]
          exact hrun
        · intro j hj
          rw [hframe j (fun x1 hx1 => hj x1 (List.mem_cons_of_mem _ hx1))]
          exact hcp2 j (hj x (List.mem_cons_self _ _) (by omega) (by omega) (by omega)
            (by omega))
        · intro hnd x1 hx1 h1 h2 h3 h4 k hk
          rcases List.mem_cons.mp hx1 with hx | hx
          · subst hx
            rw [hframe]
            · exact hcp1 k hk
            · intro x2 hx2 _ _ _ _
              have hne : x2 ≠ x1 := fun h => (List.nodup_cons.mp hnd).1 (h ▸ hx2)
              omega
          · exact hcopy (List.nodup_cons.mp hnd).2 x1 hx h1 h2 h3 h4 k hk

theorem row_sep (a b s : Int) (hs : 0 ≤ s) (h : a < b) : a * s + s ≤ b * s := by
  have h1 : 0 ≤ (b - a - 1) * s := mul_nonneg (by omega) hs
  have h2 : (b - a - 1) * s = b * s - a * s - s := by ring
  omega

theorem actualSrcY_nonneg (src : ShmBuffer) (yInverted : Bool) (y : Nat)
    (hy : (y : Int) < src.Height) :
    0 ≤ actualSrcY src yInverted y ∧ actualSrcY src yInverted y < src.Height := by
  unfold actualSrcY
  split_ifs <;> omega

/-- The outer loop on buffers whose strides are not negative: it runs to its end, bytes
outside the target pixels stay, and, when the rows of `dst` do not overlap, each pixel
it copies arrives. -/
theorem blitRows_spec (dst src : ShmBuffer) (dstX dstY : Int) (yInverted : Bool)
    (hsS : 0 ≤ src.Stride) (hdS : 0 ≤ dst.Stride) (ys : List Nat)
    (hys : ∀ y ∈ ys, (y : Int) < src.Height) (dstData : List Nat) :
    ∃ d, blitRows dst src dstX dstY yInverted ys dstData = some d
      ∧ d.length = dstData.length
      ∧ (∀ j : Int,
          (∀ y ∈ ys, 0 ≤ dstY + (y : Int) → dstY + (y : Int) < dst.Height →
            ∀ x : Nat, (x : Int) < src.Width → 0 ≤ dstX + (x : Int) →
              dstX + (x : Int) < dst.Width →
              j < (dstY + (y : Int)) * dst.Stride + (dstX + (x : Int)) * 4
                ∨ (dstY + (y : Int)) * dst.Stride + (dstX + (x : Int)) * 4 + 3 < j) →
          readByte d j = readByte dstData j)
      ∧ (4 * dst.Width ≤ dst.Stride → ys.Nodup →
          ∀ y ∈ ys, 0 ≤ dstY + (y : Int) → dstY + (y : Int) < dst.Height →
            ∀ x : Nat, (x : Int) < src.Width → 0 ≤ dstX + (x : Int) →
              dstX + (x : Int) < dst.Width →
              actualSrcY src yInverted y * src.Stride + (x : Int) * 4 + 3
                < (src.Data.length : Int) →
              (dstY + (y : Int)) * dst.Stride + (dstX + (x : Int)) * 4 + 3
                < (dstData.length : Int) →
              ∀ k : Nat, k < 4 →
                readByte d ((dstY + (y : Int)) * dst.Stride + (dstX + (x : Int)) * 4 + (k : Int))
                  = readByte src.Data
                      (actualSrcY src yInverted y * src.Stride + (x : Int) * 4 + (k : Int))) := by
  induction ys generalizing dstData with
  | nil =>
    refine ⟨dstData, rfl, rfl, fun j _ => rfl, ?_⟩
    intro _ _ y hy
    cases hy
  | cons y rest ih =>
    have hrest : ∀ y1 ∈ rest, (y1 : Int) < src.Height :=
      fun y1 h1 => hys y1 (List.mem_cons_of_mem _ h1)
    by_cases hclip : dstY + (y : Int) < 0 ∨ dstY + (y : Int) ≥ dst.Height
    · obtain ⟨d, hrun, hlen, hframe, hcopy⟩ := ih hrest dstData
      refine ⟨d, ?_, hlen, ?_, ?_⟩
      · unfold blitRows
        rw [if_pos hclip]
        exact hrun
      · intro j hj
        exact hframe j (fun y1 hy1 => hj y1 (List.mem_cons_of_mem _ hy1))
      · intro hw hnd y1 hy1 h1 h2
        rcases List.mem_cons.mp hy1 with hy | hy
        · subst hy
          omega
        · exact hcopy hw (List.nodup_cons.mp hnd).2 y1 hy h1 h2
    · have hy0 := hys y (List.mem_cons_self _ _)
      have hsOff : 0 ≤ actualSrcY src yInverted y * src.Stride :=
        mul_nonneg (actualSrcY_nonneg src yInverted y hy0).1 hsS
      have hdOff : 0 ≤ (dstY + (y : Int)) * dst.Stride := mul_nonneg (by omega) hdS
      obtain ⟨d1, hpx, hlen1, hpx1, hpx2⟩ := blitPixels_spec src.Data dst.Width dstX
        (actualSrcY src yInverted y * src.Stride) ((dstY + (y : Int)) * dst.Stride)
        hsOff hdOff (List.range src.Width.toNat) dstData
      obtain ⟨d, hrun, hlen, hframe, hcopy⟩ := ih hrest d1
      rw [hlen1] at hlen hcopy
      refine ⟨d, ?_, hlen, ?_, ?_⟩
      · unfold blitRows
        rw [if_neg hclip, hpx]
        exact hrun
      · intro j hj
        rw [hframe j (fun y1 hy1 => hj y1 (List.mem_cons_of_mem _ hy1))]
        apply hpx1 j
        intro x hx h1 h2 _ _
        have hxw : (x : Int) < src.Width := by
          have := List.mem_range.mp hx
          omega
        exact hj y (List.mem_cons_self _ _) (by omega) (by omega) x hxw h1 h2
      · intro hw hnd y1 hy1 h1 h2 x hx h3 h4 h5 h6 k hk
        rcases List.mem_cons.mp hy1 with hy | hy
        · subst hy
          rw [hframe]
          · have hxr : x ∈ List.range src.Width.toNat := by
              apply List.mem_range.mpr
              omega
            exact hpx2 (List.nodup_range _) x hxr h3 h4 h5 h6 k hk
          · intro y2 hy2 h7 h8 x2 _ h9 h10
            have hne : y2 ≠ y1 := fun h => (List.nodup_cons.mp hnd).1 (h ▸ hy2)
            rcases Nat.lt_or_gt_of_ne hne with hlt | hgt
            · have := row_sep (dstY + (y2 : Int)) (dstY + (y1 : Int)) dst.Stride hdS (by omega)
              omega
            · have := row_sep (dstY + (y1 : Int)) (dstY + (y2 : Int)) dst.Stride hdS (by omega)
              omega
        · exact hcopy hw (List.nodup_cons.mp hnd).2 y1 hy h1 h2 x hx h3 h4 h5 h6 k hk

/-! ## The claim about `blitBuffer` -/

/-- C24. On buffers whose strides are not negative, `blitBuffer` runs to its end for
every `dstX`, `dstY` without an access outside the data of either buffer, and keeps
the length of the destination data; every destination byte outside the 4-byte target
pixels that lie inside `dst` is unchanged; and on buffers whose rows of 4-byte pixels
do not overlap and lie inside their data, each source pixel `(x, y)` whose target
`(dstX+x, dstY+y)` lies inside `dst` has its four bytes copied as they are to the
target pixel, from row `y`, or from row `src.Height-1-y` when `yInverted`. -/
theorem blit_buffer_clipped_copy (dst src : ShmBuffer) (dstX dstY : Int) (yInverted : Bool)
    (hsS : 0 ≤ src.Stride) (hdS : 0 ≤ dst.Stride) :
    ∃ out, blitBuffer dst src dstX dstY yInverted = some out
      ∧ out.length = dst.Data.length
      ∧ (∀ j : Int,
          (∀ x y : Nat, (x : Int) < src.Width → (y : Int) < src.Height →
            0 ≤ dstX + (x : Int) → dstX + (x : Int) < dst.Width →
            0 ≤ dstY + (y : Int) → dstY + (y : Int) < dst.Height →
            j < (dstY + (y : Int)) * dst.Stride + (dstX + (x : Int)) * 4
              ∨ (dstY + (y : Int)) * dst.Stride + (dstX + (x : Int)) * 4 + 3 < j) →
          readByte out j = readByte dst.Data j)
      ∧ (WellFormed src → WellFormed dst →
          ∀ x y : Nat, (x : Int) < src.Width → (y : Int) < src.Height →
            0 ≤ dstX + (x : Int) → dstX + (x : Int) < dst.Width →
            0 ≤ dstY + (y : Int) → dstY + (y : Int) < dst.Height →
            ∀ k : Nat, k < 4 →
              ∃ v, readByte src.Data
                    ((if yInverted then src.Height - 1 - (y : Int) else (y : Int)) * src.Stride
                      + (x : Int) * 4 + (k : Int)) = some v
                ∧ readByte out
                    ((dstY + (y : Int)) * dst.Stride + (dstX + (x : Int)) * 4 + (k : Int))
                  = some v) := by
  have hys : ∀ y ∈ List.range src.Height.toNat, (y : Int) < src.Height := by
    intro y hy
    have := List.mem_range.mp hy
    omega
  obtain ⟨out, hrun, hlen, hframe, hcopy⟩ := blitRows_spec dst src dstX dstY yInverted hsS hdS
    (List.range src.Height.toNat) hys dst.Data
  refine ⟨out, hrun, hlen, ?_, ?_⟩
  · intro j hj
    apply hframe j
    intro y hy h1 h2 x hx h3 h4
    exact hj x y hx (hys y hy) h3 h4 h1 h2
  · rintro ⟨hsw, hsh, hs4, hsl⟩ ⟨hdw, hdh, hd4, hdl⟩ x y hx hy h1 h2 h3 h4 k hk
    have hay := actualSrcY_nonneg src yInverted y hy
    have hsrow := row_sep (actualSrcY src yInverted y) src.Height src.Stride hsS hay.2
    have hdrow := row_sep (dstY + (y : Int)) dst.Height dst.Stride hdS h4
    have hsm : src.Height * src.Stride = src.Stride * src.Height := mul_comm _ _
    have hdm : dst.Height * dst.Stride = dst.Stride * dst.Height := mul_comm _ _
    have hsOff : 0 ≤ actualSrcY src yInverted y * src.Stride := mul_nonneg hay.1 hsS
    have hdOff : 0 ≤ (dstY + (y : Int)) * dst.Stride := mul_nonneg (by omega) hdS
    have hyr : y ∈ List.range src.Height.toNat := by
      apply List.mem_range.mpr
      omega
    have hc := hcopy hd4 (List.nodup_range _) y hyr h3 h4 x hx h1 h2 (by omega) (by omega) k hk
    obtain ⟨v, hv⟩ := readByte_some src.Data
      (actualSrcY src yInverted y * src.Stride + (x : Int) * 4 + (k : Int))
      (by omega) (by omega)
    have hact : (if yInverted then src.Height - 1 - (y : Int) else (y : Int))
        = actualSrcY src yInverted y := rfl
    rw [hact]
    exact ⟨v, hv, by rw [hc, hv]⟩

/-- C24 on a blit at `(-1, 1)` with `y_inverted`: only the source pixel `(1, 0)` has
its target, `(0, 1)`, inside the destination, and it is read from source row 1. -/
theorem blit_buffer_clipped_copy_witness :
    blitBuffer sampleDst sampleSrc (-1) 1 true
      = some [0, 0, 0, 0, 0, 0, 0, 0, 13, 14, 15, 16, 0, 0, 0, 0]
    ∧ ∃ out, blitBuffer sampleDst sampleSrc (-1) 1 true = some out
        ∧ out.length = sampleDst.Data.length :=
  ⟨by decide,
    (blit_buffer_clipped_copy sampleDst sampleSrc (-1) 1 true (by decide) (by decide)).imp
      (fun _ h => ⟨h.1, h.2.1⟩)⟩

end Screenshot

namespace Screenshot

/-! ## The bounding box of the capture loop -/

theorem captureStep_captured {F : Type} (fl : Float64Ops F) (env : CaptureEnv F)
    (st : LoopState) (output : WaylandOutput) :
    (captureStep fl env st output).captured = st.captured ++ (capturedOf fl env output).toList := by
  unfold captureStep capturedOf
  cases env.captureWholeOutput output with
  | none => simp
  | some result =>
    simp only [Option.map_some', Option.toList_some]
    split_ifs <;> rfl

theorem captureStep_first {F : Type} (fl : Float64Ops F) (env : CaptureEnv F)
    (st : LoopState) (output : WaylandOutput)
    (h : st.first = false) : (captureStep fl env st output).first = false := by
  unfold captureStep
  cases env.captureWholeOutput output with
  | none => exact h
  | some result =>
    simp only
    split_ifs <;> rfl

/-- One round keeps: `first` is set exactly while nothing was captured, and after that
the box is the bounding box. -/
theorem captureStep_box {F : Type} (fl : Float64Ops F) (env : CaptureEnv F)
    (st : LoopState) (output : WaylandOutput)
    (h1 : st.first = true → st.captured = [])
    (h2 : st.first = false → st.captured ≠ [] ∧ IsBoundingBox st) :
    ((captureStep fl env st output).first = true → (captureStep fl env st output).captured = [])
    ∧ ((captureStep fl env st output).first = false →
        (captureStep fl env st output).captured ≠ []
          ∧ IsBoundingBox (captureStep fl env st output)) := by
  unfold captureStep
  cases env.captureWholeOutput output with
  | none => exact ⟨h1, h2⟩
  | some result =>
    simp only
    cases hf : st.first with
    | true =>
      simp only [if_true]
      refine ⟨(fun h => by cases h), fun _ => ⟨by simp, ?_⟩⟩
      rw [h1 hf]
      unfold IsBoundingBox
      simp
    | false =>
      simp only [Bool.false_eq_true, if_false]
      obtain ⟨hne, hall, ⟨c1, hc1, e1⟩, ⟨c2, hc2, e2⟩, ⟨c3, hc3, e3⟩, ⟨c4, hc4, e4⟩⟩ := h2 hf
      refine ⟨(fun h => by cases h), fun _ => ⟨by simp, ?_⟩⟩
      unfold IsBoundingBox
      simp only [List.mem_append, List.mem_singleton]
      refine ⟨?_, ?_, ?_, ?_, ?_⟩
      · rintro c (hc | hc)
        · obtain ⟨a1, a2, a3, a4⟩ := hall c hc
          refine ⟨?_, ?_, ?_, ?_⟩ <;> split_ifs <;> omega
        · subst hc
          simp only
          refine ⟨?_, ?_, ?_, ?_⟩ <;> split_ifs <;> omega
      · by_cases h : (physOrigin fl env output).1 < st.minX
        · exact ⟨_, Or.inr rfl, by simp [h]⟩
        · exact ⟨c1, Or.inl hc1, by simp [h, e1]⟩
      · by_cases h : (physOrigin fl env output).2 < st.minY
        · exact ⟨_, Or.inr rfl, by simp [h]⟩
        · exact ⟨c2, Or.inl hc2, by simp [h, e2]⟩
      · by_cases h : (physOrigin fl env output).1 + result.Buffer.Width > st.maxX
        · exact ⟨_, Or.inr rfl, by simp [h]⟩
        · exact ⟨c3, Or.inl hc3, by simp [h, e3]⟩
      · by_cases h : (physOrigin fl env output).2 + result.Buffer.Height > st.maxY
        · exact ⟨_, Or.inr rfl, by simp [h]⟩
        · exact ⟨c4, Or.inl hc4, by simp [h, e4]⟩

theorem captureFold_spec {F : Type} (fl : Float64Ops F) (env : CaptureEnv F)
    (outputs : List WaylandOutput) (st : LoopState)
    (h1 : st.first = true → st.captured = [])
    (h2 : st.first = false → st.captured ≠ [] ∧ IsBoundingBox st) :
    (outputs.foldl (captureStep fl env) st).captured
        = st.captured ++ outputs.filterMap (capturedOf fl env)
    ∧ ((outputs.foldl (captureStep fl env) st).first = false →
        IsBoundingBox (outputs.foldl (captureStep fl env) st))
    ∧ ((outputs.foldl (captureStep fl env) st).first = true →
        (outputs.foldl (captureStep fl env) st).captured = []) := by
  induction outputs generalizing st with
  | nil => exact ⟨by simp, fun h => (h2 h).2, h1⟩
  | cons o rest ih =>
    obtain ⟨k1, k2⟩ := captureStep_box fl env st o h1 h2
    obtain ⟨i1, i2, i3⟩ := ih (captureStep fl env st o) k1 k2
    refine ⟨?_, i2, i3⟩
    rw [List.foldl_cons, i1, captureStep_captured, List.filterMap_cons]
    cases capturedOf fl env o <;> simp

/-! ## The claim about the composite of all screens -/

/-- C23, the example of the claim fails. With `DP-1` 1920 x 1080 at scale 1 at logical
(0, 0) and `DP-2` 2560 x 1440 at scale 2 at logical (1920, 0), captured into buffers of
1920 x 1080 and 5120 x 2880, the physical origin of `DP-2` is (3840, 0), the product
1920 * 2.0 being exact in binary64, and the composite is 8960 wide, not 7040, and 2880
tall. -/
theorem mosaic_of_two_outputs_is_8960_wide :
    physOrigin integerFloats mosaicEnv ⟨"DP-2", 1920, 0, 2⟩ = (3840, 0)
    ∧ captureAllScreens integerFloats mosaicEnv mosaicOutputs
      = CaptureOutcome.composite 8960 2880 35840
          [⟨(captureOf 1920 1080).Buffer, 0, 0, false⟩,
           ⟨(captureOf 5120 2880).Buffer, 3840, 0, false⟩]
          ⟨0, 0, 8960, 2880, ""⟩ 1 := by
  decide

/-- C23, amended. When the capture loop of `captureAllScreens` captures at least two
outputs and the composite buffer can be created, the buffer is created with the width
and height of the union bounding box of the captured buffers placed at their physical
origins and a stride of four bytes per pixel, and each capture is blitted, in order, at
its physical origin relative to the minimum corner of the box, with its own `YInverted`.
The physical origin of an output is `int(float64(x) * scale)`, `int(float64(y) * scale)`
for its origin and its scale, as the float64 arithmetic computes it. The captured list
holds the outputs whose capture succeeded, in order. -/
theorem composite_is_bounding_box {F : Type} (fl : Float64Ops F) (env : CaptureEnv F)
    (outputs : List WaylandOutput)
    (hcap : 2 ≤ (captureLoop fl env outputs).captured.length)
    (hcreate : env.createShmBuffer
      ((captureLoop fl env outputs).maxX - (captureLoop fl env outputs).minX)
      ((captureLoop fl env outputs).maxY - (captureLoop fl env outputs).minY)
      (((captureLoop fl env outputs).maxX - (captureLoop fl env outputs).minX) * 4) = true) :
    captureAllScreens fl env outputs
      = CaptureOutcome.composite
          ((captureLoop fl env outputs).maxX - (captureLoop fl env outputs).minX)
          ((captureLoop fl env outputs).maxY - (captureLoop fl env outputs).minY)
          (((captureLoop fl env outputs).maxX - (captureLoop fl env outputs).minX) * 4)
          ((captureLoop fl env outputs).captured.map fun c =>
            ⟨c.result.Buffer, c.physX - (captureLoop fl env outputs).minX,
              c.physY - (captureLoop fl env outputs).minY, c.result.YInverted⟩)
          ⟨toInt32 (captureLoop fl env outputs).minX, toInt32 (captureLoop fl env outputs).minY,
            toInt32 ((captureLoop fl env outputs).maxX - (captureLoop fl env outputs).minX),
            toInt32 ((captureLoop fl env outputs).maxY - (captureLoop fl env outputs).minY), ""⟩
          (firstFormat (captureLoop fl env outputs).captured)
    ∧ IsBoundingBox (captureLoop fl env outputs)
    ∧ (captureLoop fl env outputs).captured = outputs.filterMap (capturedOf fl env) := by
  obtain ⟨h1, h2, h3⟩ := captureFold_spec fl env outputs initLoopState (fun _ => rfl)
    (fun h => by cases h)
  have hcapt : (captureLoop fl env outputs).captured = outputs.filterMap (capturedOf fl env) := by
    unfold captureLoop
    rw [h1]
    rfl
  have hfirst : (captureLoop fl env outputs).first = false := by
    cases hf : (captureLoop fl env outputs).first with
    | false => rfl
    | true =>
      have := h3 hf
      unfold captureLoop at hcap
      rw [this] at hcap
      simp at hcap
  have hlen : 2 ≤ outputs.length := by
    have := List.length_filterMap_le (capturedOf fl env) outputs
    rw [← hcapt] at this
    omega
  refine ⟨?_, h2 hfirst, hcapt⟩
  unfold captureAllScreens
  rw [if_neg (by omega), if_neg (by omega)]
  simp only
  rw [if_neg (by omega), if_neg (by omega), hcreate]
  rfl

/-- The amended C23 on the two outputs of the example: the composite is 8960 x 2880
and `DP-2` is blitted at (3840, 0). -/
theorem composite_is_bounding_box_witness :
    captureAllScreens integerFloats mosaicEnv mosaicOutputs
      = CaptureOutcome.composite 8960 2880 35840
          [⟨(captureOf 1920 1080).Buffer, 0, 0, false⟩,
           ⟨(captureOf 5120 2880).Buffer, 3840, 0, false⟩]
          ⟨0, 0, 8960, 2880, ""⟩ 1
    ∧ IsBoundingBox (captureLoop integerFloats mosaicEnv mosaicOutputs) := by
  have h := composite_is_bounding_box integerFloats mosaicEnv mosaicOutputs (by decide)
    (by decide)
  exact ⟨by rw [h.1]; decide, h.2.1⟩

end Screenshot

namespace Screenshot

/-! ## Counting the completion signals -/

theorem signalCount_append (l : List PreCaptureFrame) (f : PreCaptureFrame) :
    signalCount (l ++ [f]) = signalCount l + f.signals.length := by
  simp [signalCount]

theorem signalCount_set (l : List PreCaptureFrame) (k : Nat) (f0 f1 : PreCaptureFrame)
    (h : l[k]? = some f0) :
    signalCount (l.set k f1) + f0.signals.length = signalCount l + f1.signals.length := by
  induction l generalizing k with
  | nil => simp at h
  | cons a rest ih =>
    cases k with
    | zero =>
      simp at h
      subst h
      simp [signalCount]
      omega
    | succ j =>
      simp at h
      have := ih j h
      simp [signalCount] at this ⊢
      omega

theorem frameKeys_set (l : List PreCaptureFrame) (k : Nat) (f0 f1 : PreCaptureFrame)
    (h : l[k]? = some f0) (h1 : f1.output = f0.output) (h2 : f1.withCursor = f0.withCursor) :
    frameKeys (l.set k f1) = frameKeys l := by
  induction l generalizing k with
  | nil => simp at h
  | cons a rest ih =>
    cases k with
    | zero =>
      simp at h
      subst h
      simp [frameKeys, h1, h2]
    | succ j =>
      simp at h
      have := ih j h
      simp [frameKeys] at this ⊢
      exact this

theorem set_concat (l : List PreCaptureFrame) (a b : PreCaptureFrame) :
    (l ++ [a]).set l.length b = l ++ [b] := by
  induction l with
  | nil => rfl
  | cons x rest ih => simp [ih]

theorem frameOk_signals_le (f : PreCaptureFrame) (h : FrameOk f) : f.signals.length ≤ 1 := by
  rcases h with ⟨_, h⟩ | ⟨_, _, h⟩ | ⟨_, _, h | h⟩ <;> rw [h] <;> simp

theorem signalCount_le (l : List PreCaptureFrame) (h : ∀ f ∈ l, FrameOk f) :
    signalCount l ≤ l.length := by
  induction l with
  | nil => simp [signalCount]
  | cons a rest ih =>
    have h1 := frameOk_signals_le a (h a (List.mem_cons_self _ _))
    have h2 := ih (fun f hf => h f (List.mem_cons_of_mem _ hf))
    simp [signalCount] at h2 ⊢
    omega

theorem signalCount_lt (l : List PreCaptureFrame) (k : Nat) (f0 : PreCaptureFrame)
    (h : ∀ f ∈ l, FrameOk f) (hk : l[k]? = some f0) (h0 : f0.signals = []) :
    signalCount l < l.length := by
  induction l generalizing k with
  | nil => simp at hk
  | cons a rest ih =>
    have hrest := fun f hf => h f (List.mem_cons_of_mem a hf)
    cases k with
    | zero =>
      simp at hk
      subst hk
      have h2 := signalCount_le rest hrest
      simp [signalCount, h0] at h2 ⊢
      omega
    | succ j =>
      simp at hk
      have h1 := frameOk_signals_le a (h a (List.mem_cons_self _ _))
      have h2 := ih j hrest hk
      simp [signalCount] at h2 ⊢
      omega

theorem all_signalled (l : List PreCaptureFrame) (h : ∀ f ∈ l, FrameOk f)
    (hle : l.length ≤ signalCount l) : ∀ f ∈ l, f.signals.length = 1 := by
  induction l with
  | nil =>
    intro f hf
    cases hf
  | cons a rest ih =>
    have hrest := fun f hf => h f (List.mem_cons_of_mem a hf)
    have h1 := frameOk_signals_le a (h a (List.mem_cons_self _ _))
    have h2 := signalCount_le rest hrest
    have h3 : signalCount (a :: rest) = a.signals.length + signalCount rest := by
      simp [signalCount]
    rw [h3, List.length_cons] at hle
    intro f hf
    rcases List.mem_cons.mp hf with hfa | hfr
    · rw [hfa]
      omega
    · exact ih hrest (by omega) f hfr

/-! ## The steps of `preCaptureAllOutputs` keep the invariant -/

/-- The ready or failed handler of a live frame `k`: the frame is destroyed and its one
signal is sent. -/
theorem terminate_frame (st : PreCaptureState) (hinv : PreCaptureInv st)
    (hlen : st.frames.length ≤ st.pending) (k : Nat) (f f1 : PreCaptureFrame) (cause : Cause)
    (hk : st.frames[k]? = some f) (hreq : f.requested = true) (hdes : f.destroyed = false)
    (h1 : f1.requested = true) (h2 : f1.destroyed = true) (h3 : f1.signals = f.signals)
    (h4 : f1.output = f.output) (h5 : f1.withCursor = f.withCursor)
    (hcause : cause = Cause.ready ∨ cause = Cause.failed) :
    ∃ st1, onReady cause k { st with frames := st.frames.set k f1 } = some st1
      ∧ PreCaptureInv st1 ∧ st1.pending = st.pending ∧ st1.i = st.i
      ∧ st1.frames.length = st.frames.length
      ∧ frameKeys st1.frames = frameKeys st.frames := by
  obtain ⟨hall, hcount⟩ := hinv
  have hklt : k < st.frames.length := (List.getElem?_eq_some.mp hk).1
  have hsig : f.signals = [] := by
    rcases hall f (List.getElem?_mem hk) with ⟨hr, _⟩ | ⟨_, _, h⟩ | ⟨_, hd, _⟩
    · rw [hreq] at hr; cases hr
    · exact h
    · rw [hdes] at hd; cases hd
  have hlt := signalCount_lt st.frames k f hall hk hsig
  have hset : (st.frames.set k f1)[k]? = some f1 := List.getElem?_set_self hklt
  have hrec : recordSignal cause k (st.frames.set k f1)
      = st.frames.set k { f1 with signals := f1.signals ++ [cause] } := by
    unfold recordSignal
    rw [hset]
    simp only [List.set_set]
  refine ⟨⟨st.frames.set k { f1 with signals := f1.signals ++ [cause] }, st.pending,
    st.done + 1, st.i⟩, ?_, ?_, rfl, rfl, ?_, ?_⟩
  · unfold onReady
    simp only
    rw [if_pos (by omega), hrec]
  · refine ⟨?_, ?_⟩
    · intro g hg
      rcases List.mem_or_eq_of_mem_set hg with hg1 | hg1
      · exact hall g hg1
      · rw [hg1]
        right; right
        refine ⟨h1, h2, ?_⟩
        simp only [h3, hsig, List.nil_append]
        rcases hcause with hc | hc <;> rw [hc] <;> simp
    · have := signalCount_set st.frames k f { f1 with signals := f1.signals ++ [cause] } hk
      simp only [h3, hsig, List.nil_append, List.length_nil, List.length_singleton] at this
      simp only [h3, hsig, List.nil_append]
      omega
  · simp
  · exact frameKeys_set st.frames k f _ hk h4 h5

theorem handleEvent_inv (st : PreCaptureState) (hinv : PreCaptureInv st)
    (hlen : st.frames.length ≤ st.pending) (k : Nat) (ev : FrameEvent) :
    ∃ st1, handleEvent st k ev = some st1
      ∧ PreCaptureInv st1 ∧ st1.pending = st.pending ∧ st1.i = st.i
      ∧ st1.frames.length = st.frames.length
      ∧ frameKeys st1.frames = frameKeys st.frames := by
  unfold handleEvent
  cases hk : st.frames[k]? with
  | none => exact ⟨st, rfl, hinv, rfl, rfl, rfl, rfl⟩
  | some f =>
    simp only
    by_cases hlive : (!f.requested || f.destroyed) = true
    · rw [if_pos hlive]
      exact ⟨st, rfl, hinv, rfl, rfl, rfl, rfl⟩
    · rw [if_neg hlive]
      have hreq : f.requested = true := by
        cases h : f.requested with
        | true => rfl
        | false => simp [h] at hlive
      have hdes : f.destroyed = false := by
        cases h : f.destroyed with
        | false => rfl
        | true => simp [h] at hlive
      cases ev with
      | buffer outcome =>
        simp only
        refine ⟨_, rfl, ⟨?_, ?_⟩, rfl, rfl, by simp, ?_⟩
        · intro g hg
          rcases List.mem_or_eq_of_mem_set hg with hg1 | hg1
          · exact hinv.1 g hg1
          · rw [hg1]
            rcases hinv.1 f (List.getElem?_mem hk) with ⟨hr, _⟩ | ⟨_, _, h⟩ | ⟨_, hd, _⟩
            · rw [hreq] at hr; cases hr
            · right; left
              exact ⟨hreq, hdes, h⟩
            · rw [hdes] at hd; cases hd
        · have := signalCount_set st.frames k f
            { f with capturedBuf := if outcome.setsBuffer then true else f.capturedBuf } hk
          simp only at this
          have hc := hinv.2
          simp only
          omega
        · exact frameKeys_set st.frames k f _ hk rfl rfl
      | flags y => exact ⟨st, rfl, hinv, rfl, rfl, rfl, rfl⟩
      | ready =>
        exact terminate_frame st hinv hlen k f _ Cause.ready hk hreq hdes hreq rfl rfl rfl rfl
          (Or.inl rfl)
      | failed =>
        exact terminate_frame st hinv hlen k f _ Cause.failed hk hreq hdes hreq rfl rfl rfl rfl
          (Or.inr rfl)

theorem dispatchEvents_inv (evs : List (Nat × FrameEvent)) (st : PreCaptureState)
    (hinv : PreCaptureInv st) (hlen : st.frames.length ≤ st.pending) :
    ∃ st1, dispatchEvents evs st = some st1
      ∧ PreCaptureInv st1 ∧ st1.pending = st.pending ∧ st1.i = st.i
      ∧ st1.frames.length = st.frames.length
      ∧ frameKeys st1.frames = frameKeys st.frames := by
  induction evs generalizing st with
  | nil => exact ⟨st, rfl, hinv, rfl, rfl, rfl, rfl⟩
  | cons e rest ih =>
    obtain ⟨st1, h1, hinv1, hp1, hi1, hl1, hk1⟩ := handleEvent_inv st hinv hlen e.1 e.2
    obtain ⟨st2, h2, hinv2, hp2, hi2, hl2, hk2⟩ := ih st1 hinv1 (by omega)
    refine ⟨st2, ?_, hinv2, by omega, by omega, by omega, by rw [hk2, hk1]⟩
    unfold dispatchEvents
    rw [h1]
    exact h2

/-- The second loop keeps the invariant however it ends, and when it ends with a
return of nil the counter has reached `pending`. -/
theorem waitLoop_inv (script : List DispatchResult) (st : PreCaptureState)
    (hinv : PreCaptureInv st) (hlen : st.frames.length ≤ st.pending) (hi : st.i ≤ st.pending) :
    PreCaptureInv (resultState (waitLoop script st))
      ∧ (resultState (waitLoop script st)).pending = st.pending
      ∧ frameKeys (resultState (waitLoop script st)).frames = frameKeys st.frames
      ∧ (resultState (waitLoop script st)).frames.length = st.frames.length
      ∧ (∀ st1, waitLoop script st = PreCaptureResult.ok st1 → st1.i = st1.pending) := by
  induction script generalizing st with
  | nil =>
    unfold waitLoop
    split_ifs with h
    · refine ⟨hinv, rfl, rfl, rfl, ?_⟩
      intro st1 h1
      cases h1
    · refine ⟨hinv, rfl, rfl, rfl, ?_⟩
      intro st1 h1
      cases h1
      omega
  | cons r rest ih =>
    unfold waitLoop
    split_ifs with h
    · cases r with
      | error msg =>
        refine ⟨hinv, rfl, rfl, rfl, ?_⟩
        intro st1 h1
        cases h1
      | events evs =>
        obtain ⟨st1, h1, hinv1, hp1, hi1, hl1, hk1⟩ := dispatchEvents_inv evs st hinv hlen
        simp only [h1]
        split_ifs with hd
        · have hinv2 : PreCaptureInv { st1 with done := st1.done - 1, i := st1.i + 1 } := by
            refine ⟨hinv1.1, ?_⟩
            have := hinv1.2
            simp only
            omega
          obtain ⟨j1, j2, j3, j4, j5⟩ := ih { st1 with done := st1.done - 1, i := st1.i + 1 }
            hinv2 (by simp only; omega) (by simp only; omega)
          exact ⟨j1, by rw [j2]; exact hp1, by rw [j3]; exact hk1, by rw [j4]; exact hl1, j5⟩
        · obtain ⟨j1, j2, j3, j4, j5⟩ := ih st1 hinv1 (by omega) (by omega)
          exact ⟨j1, by rw [j2]; exact hp1, by rw [j3]; exact hk1, by rw [j4]; exact hl1, j5⟩
    · refine ⟨hinv, rfl, rfl, rfl, ?_⟩
      intro st1 h1
      cases h1
      omega

theorem preCaptureOutput_inv (requestFails : Nat → Bool → Bool) (output : Nat)
    (withCursor : Bool) (st : PreCaptureState) (hinv : PreCaptureInv st)
    (hlen : st.frames.length < st.pending) :
    ∃ st1, preCaptureOutput requestFails output withCursor st = some st1
      ∧ PreCaptureInv st1 ∧ st1.pending = st.pending ∧ st1.i = st.i
      ∧ st1.frames.length = st.frames.length + 1
      ∧ frameKeys st1.frames = frameKeys st.frames ++ [(output, withCursor)] := by
  obtain ⟨hall, hcount⟩ := hinv
  have hle := signalCount_le st.frames hall
  unfold preCaptureOutput
  cases requestFails output withCursor with
  | false =>
    simp only [Bool.false_eq_true, if_false]
    refine ⟨_, rfl, ⟨?_, ?_⟩, rfl, rfl, by simp, by simp [frameKeys]⟩
    · intro g hg
      simp only [List.mem_append, List.mem_singleton] at hg
      rcases hg with hg | hg
      · exact hall g hg
      · rw [hg]
        right; left
        exact ⟨rfl, rfl, rfl⟩
    · simp only [signalCount_append, List.length_nil]
      omega
  | true =>
    simp only [if_true]
    have hrec : recordSignal Cause.requestError st.frames.length
        (st.frames ++ [⟨output, withCursor, false, false, false, false, []⟩])
        = st.frames ++ [⟨output, withCursor, false, false, false, false,
            [Cause.requestError]⟩] := by
      unfold recordSignal
      rw [List.getElem?_concat_length]
      simp only [List.nil_append]
      exact set_concat _ _ _
    refine ⟨⟨st.frames ++ [⟨output, withCursor, false, false, false, false,
        [Cause.requestError]⟩], st.pending, st.done + 1, st.i⟩, ?_, ⟨?_, ?_⟩, rfl, rfl,
      by simp, by simp [frameKeys]⟩
    · unfold onReady
      simp only
      rw [if_pos (by omega), hrec]
    · intro g hg
      simp only [List.mem_append, List.mem_singleton] at hg
      rcases hg with hg | hg
      · exact hall g hg
      · rw [hg]
        left
        exact ⟨rfl, rfl⟩
    · simp only [signalCount_append, List.length_singleton]
      omega

theorem startOutputs_inv (requestFails : Nat → Bool → Bool) (outputs : List Nat)
    (st : PreCaptureState) (hinv : PreCaptureInv st)
    (hlen : st.frames.length + outputs.length * 2 ≤ st.pending) :
    ∃ st1, startOutputs requestFails outputs st = some st1
      ∧ PreCaptureInv st1 ∧ st1.pending = st.pending ∧ st1.i = st.i
      ∧ st1.frames.length = st.frames.length + outputs.length * 2
      ∧ frameKeys st1.frames = frameKeys st.frames ++ expectedKeys outputs := by
  induction outputs generalizing st with
  | nil => exact ⟨st, rfl, hinv, rfl, rfl, by simp, by simp [expectedKeys]⟩
  | cons o rest ih =>
    simp only [List.length_cons] at hlen
    obtain ⟨st1, h1, hinv1, hp1, hi1, hl1, hk1⟩ :=
      preCaptureOutput_inv requestFails o true st hinv (by omega)
    obtain ⟨st2, h2, hinv2, hp2, hi2, hl2, hk2⟩ :=
      preCaptureOutput_inv requestFails o false st1 hinv1 (by omega)
    obtain ⟨st3, h3, hinv3, hp3, hi3, hl3, hk3⟩ := ih st2 hinv2 (by omega)
    refine ⟨st3, ?_, hinv3, by omega, by omega, ?_, ?_⟩
    · unfold startOutputs
      rw [h1]
      simp only
      rw [h2]
      exact h3
    · simp only [List.length_cons]
      omega
    · rw [hk3, hk2, hk1]
      simp [expectedKeys]

/-! ## A frame without ready or failed event stays alive -/

theorem recordSignal_get_ne (cause : Cause) (j k : Nat) (frames : List PreCaptureFrame)
    (h : j ≠ k) : (recordSignal cause j frames)[k]? = frames[k]? := by
  unfold recordSignal
  cases frames[j]? with
  | none => rfl
  | some f => exact List.getElem?_set_ne h

theorem onReady_get_ne (cause : Cause) (j k : Nat) (st st1 : PreCaptureState) (h : j ≠ k)
    (hst : onReady cause j st = some st1) : st1.frames[k]? = st.frames[k]? := by
  unfold onReady at hst
  split_ifs at hst
  simp only [Option.some.injEq] at hst
  rw [← hst]
  exact recordSignal_get_ne cause j k st.frames h

theorem handleEvent_alive (st st1 : PreCaptureState) (j k : Nat) (ev : FrameEvent)
    (f : PreCaptureFrame) (hk : st.frames[k]? = some f) (hreq : f.requested = true)
    (hdes : f.destroyed = false)
    (hev : j = k → ev ≠ FrameEvent.ready ∧ ev ≠ FrameEvent.failed)
    (hst : handleEvent st j ev = some st1) :
    ∃ f1, st1.frames[k]? = some f1 ∧ f1.requested = true ∧ f1.destroyed = false := by
  unfold handleEvent at hst
  cases hj : st.frames[j]? with
  | none =>
    rw [hj] at hst
    simp only [Option.some.injEq] at hst
    rw [← hst]
    exact ⟨f, hk, hreq, hdes⟩
  | some g =>
    rw [hj] at hst
    simp only at hst
    by_cases hlive : (!g.requested || g.destroyed) = true
    · rw [if_pos hlive] at hst
      simp only [Option.some.injEq] at hst
      rw [← hst]
      exact ⟨f, hk, hreq, hdes⟩
    · rw [if_neg hlive] at hst
      have hjlt : j < st.frames.length := (List.getElem?_eq_some.mp hj).1
      cases ev with
      | buffer outcome =>
        simp only [Option.some.injEq] at hst
        rw [← hst]
        by_cases hjk : j = k
        · subst hjk
          rw [hk] at hj
          simp only [Option.some.injEq] at hj
          subst hj
          exact ⟨_, List.getElem?_set_self hjlt, hreq, hdes⟩
        · simp only
          rw [List.getElem?_set_ne hjk]
          exact ⟨f, hk, hreq, hdes⟩
      | flags y =>
        simp only [Option.some.injEq] at hst
        rw [← hst]
        exact ⟨f, hk, hreq, hdes⟩
      | ready =>
        have hjk : j ≠ k := fun h => (hev h).1 rfl
        rw [onReady_get_ne Cause.ready j k _ st1 hjk hst]
        simp only
        rw [List.getElem?_set_ne hjk]
        exact ⟨f, hk, hreq, hdes⟩
      | failed =>
        have hjk : j ≠ k := fun h => (hev h).2 rfl
        rw [onReady_get_ne Cause.failed j k _ st1 hjk hst]
        simp only
        rw [List.getElem?_set_ne hjk]
        exact ⟨f, hk, hreq, hdes⟩

theorem dispatchEvents_alive (evs : List (Nat × FrameEvent)) (st st1 : PreCaptureState)
    (k : Nat) (f : PreCaptureFrame) (hk : st.frames[k]? = some f)
    (hreq : f.requested = true) (hdes : f.destroyed = false)
    (h1 : (k, FrameEvent.ready) ∉ evs) (h2 : (k, FrameEvent.failed) ∉ evs)
    (hst : dispatchEvents evs st = some st1) :
    ∃ f1, st1.frames[k]? = some f1 ∧ f1.requested = true ∧ f1.destroyed = false := by
  induction evs generalizing st f with
  | nil =>
    simp only [dispatchEvents, Option.some.injEq] at hst
    rw [← hst]
    exact ⟨f, hk, hreq, hdes⟩
  | cons e rest ih =>
    unfold dispatchEvents at hst
    cases hstep : handleEvent st e.1 e.2 with
    | none => rw [hstep] at hst; cases hst
    | some st2 =>
      rw [hstep] at hst
      simp only at hst
      have hev : e.1 = k → e.2 ≠ FrameEvent.ready ∧ e.2 ≠ FrameEvent.failed := by
        intro hek
        refine ⟨?_, ?_⟩
        · intro he
          apply h1
          have : e = (k, FrameEvent.ready) := Prod.ext hek he
          rw [this]
          exact List.mem_cons_self _ _
        · intro he
          apply h2
          have : e = (k, FrameEvent.failed) := Prod.ext hek he
          rw [this]
          exact List.mem_cons_self _ _
      obtain ⟨f2, hk2, hreq2, hdes2⟩ := handleEvent_alive st st2 e.1 k e.2 f hk hreq hdes hev
        hstep
      exact ih st2 f2 hk2 hreq2 hdes2 (fun h => h1 (List.mem_cons_of_mem _ h))
        (fun h => h2 (List.mem_cons_of_mem _ h)) hst

/-- A frame that is alive when the second loop starts and gets neither its ready nor
its failed event is alive when the loop ends. -/
theorem waitLoop_alive (script : List DispatchResult) (st : PreCaptureState) (k : Nat)
    (f : PreCaptureFrame) (hk : st.frames[k]? = some f) (hreq : f.requested = true)
    (hdes : f.destroyed = false) (hno : NoTerminal k script) :
    ∃ f1, (resultState (waitLoop script st)).frames[k]? = some f1
      ∧ f1.requested = true ∧ f1.destroyed = false := by
  induction script generalizing st f with
  | nil =>
    unfold waitLoop
    split_ifs <;> exact ⟨f, hk, hreq, hdes⟩
  | cons r rest ih =>
    have hrest : NoTerminal k rest := fun evs hevs => hno evs (List.mem_cons_of_mem _ hevs)
    unfold waitLoop
    split_ifs with h
    · cases r with
      | error msg => exact ⟨f, hk, hreq, hdes⟩
      | events evs =>
        simp only
        cases hd : dispatchEvents evs st with
        | none => exact ⟨f, hk, hreq, hdes⟩
        | some st1 =>
          obtain ⟨hn1, hn2⟩ := hno evs (List.mem_cons_self _ _)
          obtain ⟨f1, hk1, hreq1, hdes1⟩ := dispatchEvents_alive evs st st1 k f hk hreq hdes
            hn1 hn2 hd
          simp only
          split_ifs
          · exact ih { st1 with done := st1.done - 1, i := st1.i + 1 } f1 hk1 hreq1 hdes1 hrest
          · exact ih st1 f1 hk1 hreq1 hdes1 hrest
    · exact ⟨f, hk, hreq, hdes⟩

theorem preCaptureOutput_frames (requestFails : Nat → Bool → Bool) (output : Nat)
    (withCursor : Bool) (st st1 : PreCaptureState)
    (h : preCaptureOutput requestFails output withCursor st = some st1) :
    ∃ sig, st1.frames = st.frames
      ++ [⟨output, withCursor, !requestFails output withCursor, false, false, false, sig⟩] := by
  unfold preCaptureOutput at h
  cases hrf : requestFails output withCursor with
  | false =>
    rw [hrf] at h
    simp only [Bool.false_eq_true, if_false, Option.some.injEq] at h
    rw [← h]
    exact ⟨[], rfl⟩
  | true =>
    rw [hrf] at h
    simp only [if_true] at h
    unfold onReady at h
    split_ifs at h
    simp only [Option.some.injEq] at h
    rw [← h]
    refine ⟨[Cause.requestError], ?_⟩
    simp only
    unfold recordSignal
    rw [List.getElem?_concat_length]
    simp only [List.nil_append]
    exact set_concat _ _ _

theorem startOutputs_requested (requestFails : Nat → Bool → Bool) (outputs : List Nat)
    (st st1 : PreCaptureState)
    (hst : ∀ f ∈ st.frames,
      f.requested = !requestFails f.output f.withCursor ∧ f.destroyed = false)
    (h : startOutputs requestFails outputs st = some st1) :
    ∀ f ∈ st1.frames,
      f.requested = !requestFails f.output f.withCursor ∧ f.destroyed = false := by
  induction outputs generalizing st with
  | nil =>
    simp only [startOutputs, Option.some.injEq] at h
    rw [← h]
    exact hst
  | cons o rest ih =>
    unfold startOutputs at h
    cases h1 : preCaptureOutput requestFails o true st with
    | none => rw [h1] at h; cases h
    | some st2 =>
      rw [h1] at h
      simp only at h
      cases h2 : preCaptureOutput requestFails o false st2 with
      | none => rw [h2] at h; cases h
      | some st3 =>
        rw [h2] at h
        simp only at h
        obtain ⟨sig2, e2⟩ := preCaptureOutput_frames requestFails o true st st2 h1
        obtain ⟨sig3, e3⟩ := preCaptureOutput_frames requestFails o false st2 st3 h2
        apply ih st3 _ h
        intro f hf
        rw [e3, e2] at hf
        simp only [List.mem_append, List.mem_singleton] at hf
        rcases hf with (hf | hf) | hf
        · exact hst f hf
        · rw [hf]
          exact ⟨rfl, rfl⟩
        · rw [hf]
          exact ⟨rfl, rfl⟩

/-! ## The claim about the pre-captures -/

/-- C22, the claim as stated fails. With one output, the buffer handler of the frame
with cursor stops at the stride check and requests no copy, and the frame without
cursor becomes ready: when no further `Dispatch` call returns, the pre-capture with
cursor has not signalled completion and `preCaptureAllOutputs` has not returned; it has
received one signal only. -/
theorem pre_capture_without_copy_stays_silent :
    preCaptureAllOutputs 1 noRequestFails stuckScript
      = PreCaptureResult.blocked
          ⟨[⟨0, true, true, false, false, false, []⟩,
            ⟨0, false, true, true, true, true, [Cause.ready]⟩], 2, 0, 1⟩
    ∧ surfacesCreated 1 noRequestFails stuckScript = false := by
  decide

/-- C22, amended. For `n` outputs `preCaptureAllOutputs` starts, without blocking,
exactly `2n` pre-captures: for each output one with and one without cursor, with a frame
exactly when its request did not fail. However the call ends, each pre-capture is in
one of three conditions: its request failed and it signalled completion once; its frame
is alive and it has not signalled; its frame was destroyed on the ready or the failed
event and it signalled once on that event. So each signals at most once. A pre-capture
with a frame that gets neither its ready nor its failed event has not signalled when
the call ends, and the call does not return nil. The call returns nil only with the
loop counter at `2n`, that is after it has received `2n` completion signals, and then
every pre-capture has signalled exactly once and none is left in the channel. `Run`
calls `createSurfaces` exactly when the call has returned nil. -/
theorem pre_capture_completions (n : Nat) (requestFails : Nat → Bool → Bool)
    (script : List DispatchResult) :
    (∃ st0, startOutputs requestFails (List.range n) ⟨[], n * 2, 0, 0⟩ = some st0
        ∧ st0.frames.length = n * 2
        ∧ frameKeys st0.frames = expectedKeys (List.range n)
        ∧ (∀ f ∈ st0.frames, f.requested = !requestFails f.output f.withCursor)
        ∧ (∀ k f0, st0.frames[k]? = some f0 → f0.requested = true → NoTerminal k script →
            (∃ f, (resultState (preCaptureAllOutputs n requestFails script)).frames[k]? = some f
              ∧ f.signals = [])
            ∧ ∀ st, preCaptureAllOutputs n requestFails script ≠ PreCaptureResult.ok st))
    ∧ (resultState (preCaptureAllOutputs n requestFails script)).frames.length = n * 2
    ∧ frameKeys (resultState (preCaptureAllOutputs n requestFails script)).frames
        = expectedKeys (List.range n)
    ∧ (∀ f ∈ (resultState (preCaptureAllOutputs n requestFails script)).frames, FrameOk f)
    ∧ (∀ f ∈ (resultState (preCaptureAllOutputs n requestFails script)).frames,
        f.signals.length ≤ 1)
    ∧ (∀ st, preCaptureAllOutputs n requestFails script = PreCaptureResult.ok st →
        st.i = n * 2 ∧ st.done = 0 ∧ signalCount st.frames = n * 2
          ∧ ∀ f ∈ st.frames, f.signals.length = 1)
    ∧ (surfacesCreated n requestFails script = true
        ↔ ∃ st, preCaptureAllOutputs n requestFails script = PreCaptureResult.ok st) := by
  have hinv0 : PreCaptureInv ⟨[], n * 2, 0, 0⟩ := by
    refine ⟨?_, rfl⟩
    intro f hf
    cases hf
  obtain ⟨st0, hstart, hinv1, hp1, hi1, hl1, hk1⟩ := startOutputs_inv requestFails
    (List.range n) ⟨[], n * 2, 0, 0⟩ hinv0 (by simp)
  simp only [List.length_nil, List.length_range, Nat.zero_add] at hl1
  have hk1a : frameKeys st0.frames = expectedKeys (List.range n) := by
    rw [hk1]
    rfl
  have hp1a : st0.pending = n * 2 := hp1
  have hi1a : st0.i = 0 := hi1
  have hreq0 := startOutputs_requested requestFails (List.range n) ⟨[], n * 2, 0, 0⟩ st0
    (fun f hf => by cases hf) hstart
  obtain ⟨j1, j2, j3, j4, j5⟩ := waitLoop_inv script st0 hinv1 (by omega) (by omega)
  have hpre : preCaptureAllOutputs n requestFails script = waitLoop script st0 := by
    unfold preCaptureAllOutputs
    rw [hstart]
  rw [hpre]
  have hok : ∀ st, waitLoop script st0 = PreCaptureResult.ok st →
      st.i = n * 2 ∧ st.done = 0 ∧ signalCount st.frames = n * 2
        ∧ ∀ f ∈ st.frames, f.signals.length = 1 := by
    intro st hst
    have hi := j5 st hst
    rw [hst] at j1 j2 j4
    simp only [resultState] at j1 j2 j4
    have hle := signalCount_le st.frames j1.1
    have hc := j1.2
    have hcount : signalCount st.frames = n * 2 := by omega
    refine ⟨by omega, by omega, hcount, ?_⟩
    exact all_signalled st.frames j1.1 (by omega)
  refine ⟨⟨st0, hstart, hl1, hk1a, fun f hf => (hreq0 f hf).1, ?_⟩, by rw [j4, hl1],
    by rw [j3, hk1a], j1.1,
    fun f hf => frameOk_signals_le f (j1.1 f hf), hok, ?_⟩
  · intro k f0 hk0 hreq hno
    have hdes0 : f0.destroyed = false := (hreq0 f0 (List.getElem?_mem hk0)).2
    obtain ⟨f1, hk1b, hreq1, hdes1⟩ := waitLoop_alive script st0 k f0 hk0 hreq hdes0 hno
    have hsig : f1.signals = [] := by
      rcases j1.1 f1 (List.getElem?_mem hk1b) with ⟨hr, _⟩ | ⟨_, _, hs⟩ | ⟨_, hd, _⟩
      · rw [hreq1] at hr; cases hr
      · exact hs
      · rw [hdes1] at hd; cases hd
    refine ⟨⟨f1, hk1b, hsig⟩, ?_⟩
    intro st hst
    rw [hst] at hk1b
    simp only [resultState] at hk1b
    have := (hok st hst).2.2.2 f1 (List.getElem?_mem hk1b)
    rw [hsig] at this
    simp at this
  · unfold surfacesCreated
    rw [hpre]
    cases waitLoop script st0 with
    | ok st => simp
    | err msg st => simp
    | blocked st => simp

/-- The amended C22 on one output. In the first run the frame without cursor fails and
the frame with cursor becomes ready: the call returns nil after two signals and the
surfaces are created. In the second run the frame with cursor gets neither ready nor
failed: it has not signalled at the end. -/
theorem pre_capture_completions_witness :
    preCaptureAllOutputs 1 noRequestFails sampleScript
      = PreCaptureResult.ok
          ⟨[⟨0, true, true, true, true, true, [Cause.ready]⟩,
            ⟨0, false, true, true, true, false, [Cause.failed]⟩], 2, 0, 2⟩
    ∧ surfacesCreated 1 noRequestFails sampleScript = true
    ∧ ∃ f, (resultState (preCaptureAllOutputs 1 noRequestFails stuckScript)).frames[0]? = some f
        ∧ f.signals = [] := by
  refine ⟨by decide,
    (pre_capture_completions 1 noRequestFails sampleScript).2.2.2.2.2.2.mpr
      ⟨⟨[⟨0, true, true, true, true, true, [Cause.ready]⟩,
          ⟨0, false, true, true, true, false, [Cause.failed]⟩], 2, 0, 2⟩, by decide⟩, ?_⟩
  obtain ⟨st0, hstart, _, _, _, hstuck⟩ :=
    (pre_capture_completions 1 noRequestFails stuckScript).1
  have hst0 : st0 = ⟨[⟨0, true, true, false, false, false, []⟩,
      ⟨0, false, true, false, false, false, []⟩], 2, 0, 0⟩ := by
    have h : startOutputs noRequestFails (List.range 1) ⟨[], 1 * 2, 0, 0⟩
        = some ⟨[⟨0, true, true, false, false, false, []⟩,
            ⟨0, false, true, false, false, false, []⟩], 2, 0, 0⟩ := by decide
    rw [h] at hstart
    exact (Option.some.inj hstart).symm
  refine (hstuck 0 ⟨0, true, true, false, false, false, []⟩ (by rw [hst0]; rfl) rfl ?_).1
  intro evs hevs
  simp only [stuckScript, List.mem_cons, DispatchResult.events.injEq, List.mem_singleton,
    List.not_mem_nil, or_false] at hevs
  rcases hevs with h | h <;> rw [h] <;> decide

end Screenshot
